import Mathlib

/-!
# Rocket telemetry aggregator: shallow embedding and verified properties

The C sources under `rocket_c/src` are embedded as pure Lean functions.

Modelling conventions:
* a C `double` is an exact rational (`Double := ℚ`): no rounding, no NaN, no infinities;
  `sqrt` from libm is a parameter of every function that calls it;
* pointers handed to the code are non-null (`aggregator_start` rejects null ones), so a
  pointee such as the activity tracker is a plain field of the state that points to it;
* arrays indexed by `SensorType` are functions from `SensorType`;
* `malloc`/`realloc` never fail; logging has no effect on the state and is left out;
* a C string is the list of its characters before the NUL, a byte being a `Char`;
* the `int` counter of the liftoff detector is an integer without wrap-around (from the
  initial state it never leaves 0..2);
* each queue operation runs atomically (it holds the queue mutex); an operation that
  would wait on a condition variable has the outcome `blocks`;
* the libc and libm functions `atof`, `sin`, `cos`, `atan2` are parameters like `sqrt`;
  `atof_decimal` is an exact stand-in on decimal numerals for evaluations;
* `size_t` values are natural numbers: the lengths at hand are far below `2 ^ 64`;
* the radio driver is a function from the frame to its return code, and
  `lora_send_json` returns its value together with the frames handed to the driver;
* a turn of a worker loop is a function of the loop variables and of what the turn meets
  (stop flag, read result, clock, result of the push); sleeping is left out;
* a serial device is the list of what `select` and `read` answer, one event per pass of
  the loop of `serial_readline`; the bytes of the I2C bus are natural numbers below 256,
  and the cast to `int16_t` keeps the value modulo `2 ^ 16` in `-32768 .. 32767`.
-/

namespace Rocket

/-! ## Numbers -/

/-- C double, idealised as an exact rational number. -/
abbrev Double := ℚ

/-- Largest `r ≤ k` with `r * r ≤ n`. -/
def natSqrtAux : Nat → Nat → Nat
  | 0, _ => 0
  | k + 1, n => if (k + 1) * (k + 1) ≤ n then k + 1 else natSqrtAux k n

/-- Integer square root by downward search. -/
def natSqrt (n : Nat) : Nat := natSqrtAux n n

/-- Computable stand-in for libm `sqrt`, exact on squares of rationals; used to run
the embedding on concrete samples. -/
def sqrtQ (q : Double) : Double :=
  (natSqrt q.num.toNat : ℚ) / (natSqrt q.den : ℚ)

/-! ## sensors.h / sensors.c -/

/-- Sensor identities of `sensors.h` (the enumerators 0, 1, 2; `SENSOR_COUNT = 3`). -/
inductive SensorType where
  | SENSOR_MPU6050
  | SENSOR_BMP180
  | SENSOR_NEO6M
  deriving DecidableEq, Repr

open SensorType

/-- Table `SENSOR_NAMES` of `sensors.c`. -/
def SENSOR_NAMES : List (SensorType × String) :=
  [(SENSOR_MPU6050, "mpu6050"), (SENSOR_BMP180, "bmp180"), (SENSOR_NEO6M, "neo6m")]

/-- Canonical enumeration `SENSOR_LIST` of `sensors.c`. -/
def SENSOR_LIST : List SensorType := [SENSOR_MPU6050, SENSOR_BMP180, SENSOR_NEO6M]

/-- Linear search of `sensor_name`: first table entry of that type, else "unknown". -/
def sensor_name_in (table : List (SensorType × String)) (sensor : SensorType) : String :=
  match table with
  | [] => "unknown"
  | (t, n) :: rest => if t = sensor then n else sensor_name_in rest sensor

/-- The function `sensor_name` of `sensors.c`. -/
def sensor_name (sensor : SensorType) : String := sensor_name_in SENSOR_NAMES sensor

/-! ## sensor_message.h -/

/-- The struct `MpuData`. -/
structure MpuData where
  ax : Double
  ay : Double
  az : Double
  gx : Double
  gy : Double
  gz : Double
  pitch : Double
  roll : Double
  yaw : Double
  dummy : Bool
  deriving DecidableEq

/-- The struct `BmpData`; `raw` is the text of the char array before its NUL. -/
structure BmpData where
  temperature : Double
  pressure : Double
  has_temperature : Bool
  has_pressure : Bool
  dummy : Bool
  raw : List Char
  has_raw : Bool
  deriving DecidableEq

/-- The struct `GpsData`; `fix_time` and `raw` are the texts before the NUL. -/
structure GpsData where
  latitude : Double
  longitude : Double
  altitude : Double
  has_latitude : Bool
  has_longitude : Bool
  has_altitude : Bool
  fix_time : List Char
  has_fix_time : Bool
  raw : List Char
  has_raw : Bool
  dummy : Bool
  deriving DecidableEq

/-- The union `data` of `SensorMessage`, with its three members side by side: the code
only reads the member selected by the `sensor` tag. -/
structure SensorData where
  mpu : MpuData
  bmp : BmpData
  gps : GpsData
  deriving DecidableEq

/-- The struct `SensorMessage`. -/
structure SensorMessage where
  sensor : SensorType
  timestamp : Double
  data : SensorData
  deriving DecidableEq

/-- All-zero `MpuData`. -/
def MpuData.zero : MpuData := ⟨0, 0, 0, 0, 0, 0, 0, 0, 0, false⟩

/-- All-zero `BmpData`. -/
def BmpData.zero : BmpData := ⟨0, 0, false, false, false, [], false⟩

/-- All-zero `GpsData`. -/
def GpsData.zero : GpsData := ⟨0, 0, 0, false, false, false, [], false, [], false, false⟩

/-- All-zero message, as left by `calloc`. -/
def SensorMessage.zero : SensorMessage :=
  ⟨SENSOR_MPU6050, 0, ⟨MpuData.zero, BmpData.zero, GpsData.zero⟩⟩

/-! ## activity_tracker.h / activity_tracker.c -/

/-- The struct `ActivityTracker`. -/
structure ActivityTracker where
  seen : SensorType → Bool
  last_dummy : SensorType → Bool
  zero_signal_sent : Bool
  zero_signal_timestamp : Double
  zero_signal_magnitude : Double

/-- The function `activity_tracker_init`: `memset` to zero. -/
def activity_tracker_init : ActivityTracker :=
  { seen := fun _ => false
    last_dummy := fun _ => false
    zero_signal_sent := false
    zero_signal_timestamp := 0
    zero_signal_magnitude := 0 }

/-- The function `activity_tracker_update`. -/
def activity_tracker_update (tracker : ActivityTracker) (sensor : SensorType)
    (is_dummy : Bool) : ActivityTracker :=
  { tracker with
    seen := Function.update tracker.seen sensor true
    last_dummy := Function.update tracker.last_dummy sensor is_dummy }

/-- The function `activity_tracker_zero_sent`. -/
def activity_tracker_zero_sent (tracker : ActivityTracker) : Bool :=
  tracker.zero_signal_sent

/-- The function `activity_tracker_record_zero_signal`. -/
def activity_tracker_record_zero_signal (tracker : ActivityTracker) (timestamp : Double)
    (magnitude : Double) : ActivityTracker :=
  if tracker.zero_signal_sent then
    tracker
  else
    { tracker with
      zero_signal_sent := true
      zero_signal_timestamp := timestamp
      zero_signal_magnitude := magnitude }

/-- One call made on a tracker by its client. -/
inductive TrackerCall where
  | update (sensor : SensorType) (is_dummy : Bool)
  | record_zero_signal (timestamp : Double) (magnitude : Double)

/-- Effect of one tracker call. -/
def tracker_apply (tracker : ActivityTracker) : TrackerCall → ActivityTracker
  | .update sensor is_dummy => activity_tracker_update tracker sensor is_dummy
  | .record_zero_signal timestamp magnitude =>
      activity_tracker_record_zero_signal tracker timestamp magnitude

/-- Effect of a sequence of tracker calls. -/
def tracker_run (tracker : ActivityTracker) (calls : List TrackerCall) : ActivityTracker :=
  calls.foldl tracker_apply tracker

/-- Number of adjacent pairs of a list of latch values that go from unset to set. -/
def rising_edges : List Bool → Nat
  | a :: b :: rest => (if a = false ∧ b = true then 1 else 0) + rising_edges (b :: rest)
  | _ => 0

/-- The latch value in the starting tracker and after each call of a sequence. -/
def latch_history (tracker : ActivityTracker) : List TrackerCall → List Bool
  | [] => [tracker.zero_signal_sent]
  | c :: rest => tracker.zero_signal_sent :: latch_history (tracker_apply tracker c) rest

/-! ## aggregator.h / aggregator.c: state and liftoff detector -/

/-- The macro `ZERO_ACCEL_REF`. -/
def ZERO_ACCEL_REF : Double := 1.0

/-- The macro `ZERO_ACCEL_TOLERANCE`. -/
def ZERO_ACCEL_TOLERANCE : Double := 0.05

/-- The macro `ZERO_ACCEL_REQUIRED`. -/
def ZERO_ACCEL_REQUIRED : Int := 2

/-- The macro `ZERO_ACCEL_MIN_DELAY`. -/
def ZERO_ACCEL_MIN_DELAY : Double := 1.0

/-- The struct `AggregatorConfig`: `expected_sensors` with `sensor_count` is a list; the
queue, the transport callback and the stop flag are inputs of the loop model. -/
structure AggregatorConfig where
  expected_sensors : List SensorType
  has_send_payload : Bool
  emit_interval_seconds : Double

/-- The struct `AggregatorState`, together with the tracker `config.tracker` points to. -/
structure AggregatorState where
  config : AggregatorConfig
  tracker : ActivityTracker
  latest : SensorType → SensorMessage
  has_latest : SensorType → Bool
  zero_acc_count : Int
  zero_last_detection : Double

/-- State built by `aggregator_start` (`calloc`, then the config is copied in) around a
tracker. -/
def aggregator_state_new (config : AggregatorConfig) (tracker : ActivityTracker) :
    AggregatorState :=
  { config := config
    tracker := tracker
    latest := fun _ => SensorMessage.zero
    has_latest := fun _ => false
    zero_acc_count := 0
    zero_last_detection := 0 }

/-- Acceleration magnitude computed at the top of `aggregator_handle_mpu`. -/
def mpu_magnitude (sqrt : Double → Double) (mpu : MpuData) : Double :=
  sqrt (mpu.ax * mpu.ax + mpu.ay * mpu.ay + mpu.az * mpu.az)

/-- The function `aggregator_handle_mpu`. -/
def aggregator_handle_mpu (sqrt : Double → Double) (state : AggregatorState)
    (msg : SensorMessage) : AggregatorState :=
  let mpu := msg.data.mpu
  let magnitude := mpu_magnitude sqrt mpu
  if !mpu.dummy && !activity_tracker_zero_sent state.tracker then
    let delta := |magnitude - ZERO_ACCEL_REF|
    if delta ≤ ZERO_ACCEL_TOLERANCE then
      let now := msg.timestamp
      if (now - state.zero_last_detection) > ZERO_ACCEL_MIN_DELAY then
        let state1 : AggregatorState :=
          { state with
            zero_acc_count := state.zero_acc_count + 1
            zero_last_detection := now }
        if state1.zero_acc_count ≥ ZERO_ACCEL_REQUIRED then
          { state1 with
            tracker := activity_tracker_record_zero_signal state1.tracker now magnitude }
        else state1
      else state
    else state
  else state

/-- Feeding a sequence of IMU messages to the liftoff detector. -/
def handle_mpu_run (sqrt : Double → Double) (state : AggregatorState)
    (msgs : List SensorMessage) : AggregatorState :=
  msgs.foldl (aggregator_handle_mpu sqrt) state

/-- An IMU message with the given acceleration, other channels zero. -/
def imu_sample (t ax ay az : Double) (dummy : Bool) : SensorMessage :=
  { sensor := SENSOR_MPU6050
    timestamp := t
    data := ⟨{ MpuData.zero with ax := ax, ay := ay, az := az, dummy := dummy },
             BmpData.zero, GpsData.zero⟩ }

/-- The configuration `main` passes to `aggregator_start`. -/
def main_config : AggregatorConfig :=
  { expected_sensors := SENSOR_LIST
    has_send_payload := true
    emit_interval_seconds := 0.5 }

/-- The state the aggregator thread starts from in `main`. -/
def initial_state : AggregatorState := aggregator_state_new main_config activity_tracker_init

/-! ### Words of the specification about detections -/

/-- Does a message qualify as a detection, given the timestamp of the previous counted
detection: non-dummy, magnitude within tolerance of the reference, and more than the
minimum delay after it. -/
def qualifies (sqrt : Double → Double) (last : Double) (msg : SensorMessage) : Prop :=
  msg.data.mpu.dummy = false ∧
    |mpu_magnitude sqrt msg.data.mpu - 1.0| ≤ 0.05 ∧ msg.timestamp - last > 1.0

instance (sqrt : Double → Double) (last : Double) (msg : SensorMessage) :
    Decidable (qualifies sqrt last msg) := by
  unfold qualifies; infer_instance

/-- Number of samples of a sequence that qualify as detections, where the previous
counted detection starts at `last`. -/
def count_detections (sqrt : Double → Double) : Double → List SensorMessage → Nat
  | _, [] => 0
  | last, msg :: rest =>
      if qualifies sqrt last msg then 1 + count_detections sqrt msg.timestamp rest
      else count_detections sqrt last rest

/-- Latch and counter agree: unset below two detections, set exactly at two. -/
def latch_inv (st : AggregatorState) : Prop :=
  (st.tracker.zero_signal_sent = false ∧ st.zero_acc_count < 2) ∨
    (st.tracker.zero_signal_sent = true ∧ st.zero_acc_count = 2)

/-! ## message_queue.h / message_queue.c -/

/-- Result of a call that may have to wait on a condition variable: `blocks` when, in the
state it finds, the call waits (`pthread_cond_wait`) for another thread to act. -/
inductive Outcome (α : Type) where
  | blocks
  | returns (a : α)

/-- The struct `SensorQueue` without its mutex and condition variables; `size_t` fields
are naturals (they are bounded by the capacity). -/
structure SensorQueue where
  buffer : List SensorMessage
  capacity : Nat
  head : Nat
  tail : Nat
  count : Nat
  closed : Bool

/-- The function `sensor_queue_create`. -/
def sensor_queue_create (capacity : Nat) : SensorQueue :=
  let capacity := if capacity = 0 then 32 else capacity
  { buffer := List.replicate capacity SensorMessage.zero
    capacity := capacity
    head := 0
    tail := 0
    count := 0
    closed := false }

/-- The function `sensor_queue_close`. -/
def sensor_queue_close (queue : SensorQueue) : SensorQueue :=
  { queue with closed := true }

/-- The function `sensor_queue_push`: the returned flag and the queue it leaves. -/
def sensor_queue_push (queue : SensorQueue) (message : SensorMessage) :
    Outcome (Bool × SensorQueue) :=
  if !queue.closed && queue.count == queue.capacity then
    .blocks
  else if queue.closed then
    .returns (false, queue)
  else
    .returns (true,
      { queue with
        buffer := queue.buffer.set queue.tail message
        tail := (queue.tail + 1) % queue.capacity
        count := queue.count + 1 })

/-- The function `sensor_queue_pop`: `some m` stands for returning `true` with `*out = m`,
`none` for returning `false` with `*out` untouched. An open empty queue makes an untimed
call wait; a timed call on it returns `false` once its deadline has passed. -/
def sensor_queue_pop (queue : SensorQueue) (timeout_seconds : Double) :
    Outcome (Option SensorMessage × SensorQueue) :=
  let timed := decide (timeout_seconds ≥ 0.0)
  if !queue.closed && queue.count == 0 then
    if !timed then .blocks else .returns (none, queue)
  else if queue.count == 0 then
    .returns (none, queue)
  else
    .returns (some (queue.buffer.getD queue.head SensorMessage.zero),
      { queue with
        head := (queue.head + 1) % queue.capacity
        count := queue.count - 1 })

/-- A call on the queue. -/
inductive QueueCall where
  | push (message : SensorMessage)
  | pop (timeout_seconds : Double)

/-- What a call on the queue returned. -/
inductive QueueReply where
  | pushed (ok : Bool)
  | popped (out : Option SensorMessage)
  deriving DecidableEq

/-- One call on the queue. -/
def queue_call (queue : SensorQueue) : QueueCall → Outcome (QueueReply × SensorQueue)
  | .push message =>
      match sensor_queue_push queue message with
      | .blocks => .blocks
      | .returns (ok, q) => .returns (.pushed ok, q)
  | .pop timeout_seconds =>
      match sensor_queue_pop queue timeout_seconds with
      | .blocks => .blocks
      | .returns (out, q) => .returns (.popped out, q)

/-- A sequence of calls on the queue, one after the other; `blocks` as soon as one of
them would wait. -/
def queue_run (queue : SensorQueue) : List QueueCall → Outcome (List QueueReply × SensorQueue)
  | [] => .returns ([], queue)
  | call :: rest =>
      match queue_call queue call with
      | .blocks => .blocks
      | .returns (reply, q) =>
          match queue_run q rest with
          | .blocks => .blocks
          | .returns (replies, q2) => .returns (reply :: replies, q2)

/-- The samples a queue holds, oldest first: `count` slots from `head` on, around the
ring. -/
def queue_contents (queue : SensorQueue) : List SensorMessage :=
  (List.range queue.count).map
    (fun i => queue.buffer.getD ((queue.head + i) % queue.capacity) SensorMessage.zero)

/-- Shape of a queue made by `sensor_queue_create` and used through push, pop and close. -/
def queue_wf (queue : SensorQueue) : Prop :=
  1 ≤ queue.capacity ∧ queue.buffer.length = queue.capacity ∧ queue.head < queue.capacity ∧
    queue.count ≤ queue.capacity ∧ queue.tail = (queue.head + queue.count) % queue.capacity

/-! ### Words of the specification about the channel -/

/-- The channel as a first-in first-out list: what each call of a sequence answers when
`pending` holds the samples pushed and not yet popped, oldest first. A push is accepted, a
pop yields the oldest pending sample. -/
def fifo_replies : List SensorMessage → List QueueCall → List QueueReply
  | _, [] => []
  | pending, .push message :: rest => .pushed true :: fifo_replies (pending ++ [message]) rest
  | pending, .pop _ :: rest => .popped pending.head? :: fifo_replies pending.tail rest

/-- No call of the sequence would block on a channel of capacity `cap` holding `n`
samples: no push while full, no pop while empty. -/
def never_blocks (cap : Nat) : Nat → List QueueCall → Prop
  | _, [] => True
  | n, .push _ :: rest => n < cap ∧ never_blocks cap (n + 1) rest
  | n, .pop _ :: rest => 0 < n ∧ never_blocks cap (n - 1) rest

/-! ### Samples and states of scenario S1 -/

/-- Sample A of scenario S1. -/
def sample_A : SensorMessage := imu_sample 1.0 0 0 1.0 false

/-- Sample B of scenario S1. -/
def sample_B : SensorMessage := imu_sample 2.0 0 0 1.0 false

/-- Sample C of scenario S1. -/
def sample_C : SensorMessage := imu_sample 3.0 0 0 1.0 false

/-- The capacity-2 queue of scenario S1 after push(A), push(B), pop: it holds B alone. -/
def queue_s1 : SensorQueue :=
  { buffer := [sample_A, sample_B]
    capacity := 2
    head := 1
    tail := 0
    count := 1
    closed := false }

/-! ## libc formatting used by the sources -/

/-- Conversion of a double to an integer type: truncation toward zero. -/
def trunc_toward_zero (x : Double) : Int := if 0 ≤ x then ⌊x⌋ else ⌈x⌉

/-- Text `s` right-aligned in a field of `width` characters filled with `c`. -/
def pad_left (width : Nat) (c : Char) (s : List Char) : List Char :=
  List.replicate (width - s.length) c ++ s

/-- The conversions `%0Wd` and `%0Wld` of printf: decimal, zero-padded to `width`, the
sign counted in the width. -/
def format_int_pad (width : Nat) (n : Int) : List Char :=
  if n < 0 then '-' :: pad_left (width - 1) '0' (Nat.toDigits 10 n.natAbs)
  else pad_left width '0' (Nat.toDigits 10 n.natAbs)

/-- The conversion `%04x` of printf: lowercase hexadecimal, zero-padded to 4. -/
def format_hex4 (n : Nat) : List Char := pad_left 4 '0' (Nat.toDigits 16 n)

/-- Rounding to the nearest integer, ties to even (the default rounding of printf). -/
def round_half_even (y : Double) : Int :=
  let f := ⌊y⌋
  let r := y - f
  if r < 1 / 2 then f else if r > 1 / 2 then f + 1 else if f % 2 = 0 then f else f + 1

/-- The conversion `%.Pf` of printf on a finite value: sign, integer part, and `prec`
decimals after a point (no point when `prec` is 0). -/
def format_fixed (prec : Nat) (x : Double) : List Char :=
  let scaled := (round_half_even (|x| * 10 ^ prec)).toNat
  let ip := scaled / 10 ^ prec
  let fp := scaled % 10 ^ prec
  (if x < 0 then ['-'] else []) ++ Nat.toDigits 10 ip ++
    (if prec = 0 then [] else '.' :: pad_left prec '0' (Nat.toDigits 10 fp))

/-- The fields of `struct tm` that `isoformat_utc` prints. -/
structure Tm where
  tm_year : Int
  tm_mon : Int
  tm_mday : Int
  tm_hour : Int
  tm_min : Int
  tm_sec : Int
  deriving DecidableEq

/-- The libc function `gmtime_r`: seconds since the epoch to UTC calendar time in the
proleptic Gregorian calendar (days since 1970-01-01 to civil date by eras of 400 years). -/
def gmtime_r (seconds : Int) : Tm :=
  let days := seconds / 86400
  let rem := seconds % 86400
  let z := days + 719468
  let era := z / 146097
  let doe := z - era * 146097
  let yoe := (doe - doe / 1460 + doe / 36524 - doe / 146096) / 365
  let doy := doe - (365 * yoe + yoe / 4 - yoe / 100)
  let mp := (5 * doy + 2) / 153
  let d := doy - (153 * mp + 2) / 5 + 1
  let m := if mp < 10 then mp + 3 else mp - 9
  let y := yoe + era * 400 + (if m ≤ 2 then 1 else 0)
  { tm_year := y - 1900
    tm_mon := m - 1
    tm_mday := d
    tm_hour := rem / 3600
    tm_min := rem % 3600 / 60
    tm_sec := rem % 60 }

/-! ## util.c -/

/-- The function `isoformat_utc`: the text left in a buffer of `buffer_len` bytes
(`snprintf` keeps at most `buffer_len - 1` characters). -/
def isoformat_utc (timestamp : Double) (buffer_len : Nat) : List Char :=
  let seconds := trunc_toward_zero timestamp
  let fractional := timestamp - (seconds : Double)
  let fractional := if fractional < 0 then 0 else fractional
  let micros := trunc_toward_zero (fractional * 1e6 + 0.5)
  let carry := decide (micros ≥ 1000000)
  let micros := if carry then micros - 1000000 else micros
  let seconds := if carry then seconds + 1 else seconds
  let tm_utc := gmtime_r seconds
  (format_int_pad 4 (tm_utc.tm_year + 1900) ++ '-' ::
    format_int_pad 2 (tm_utc.tm_mon + 1) ++ '-' ::
    format_int_pad 2 tm_utc.tm_mday ++ 'T' ::
    format_int_pad 2 tm_utc.tm_hour ++ ':' ::
    format_int_pad 2 tm_utc.tm_min ++ ':' ::
    format_int_pad 2 tm_utc.tm_sec ++ '.' ::
    format_int_pad 6 micros ++ ['Z']).take (buffer_len - 1)

/-! ## aggregator.c: string builder and JSON encoder -/

/-- The struct `StringBuilder`: the text accumulated so far (growth never fails). -/
abbrev StringBuilder := List Char

/-- The function `sb_append`. -/
def sb_append (sb : StringBuilder) (text : String) : StringBuilder := sb ++ text.toList

/-- One conversion or literal stretch of a printf format string, with its argument. -/
inductive FormatItem where
  | lit (text : String)
  | fixed (prec : Nat) (x : Double)
  | hex4 (n : Nat)

/-- Text printed for one format item. -/
def FormatItem.render : FormatItem → List Char
  | .lit text => text.toList
  | .fixed prec x => format_fixed prec x
  | .hex4 n => format_hex4 n

/-- The function `sb_append_format`, the format string and its arguments given as items. -/
def sb_append_format (sb : StringBuilder) (items : List FormatItem) : StringBuilder :=
  items.foldl (fun acc item => acc ++ item.render) sb

/-- The function `sb_append_indent`. -/
def sb_append_indent (sb : StringBuilder) (spaces : Int) : StringBuilder :=
  if spaces ≤ 0 then sb else sb ++ List.replicate spaces.toNat ' '

/-- One turn of the loop of `sb_append_json_string`: the switch on the byte `c`. -/
def sb_append_json_char (sb : StringBuilder) (c : Char) : StringBuilder :=
  if c = '\\' then sb_append sb "\\\\"
  else if c = '"' then sb_append sb "\\\""
  else if c = '\n' then sb_append sb "\\n"
  else if c = '\r' then sb_append sb "\\r"
  else if c = '\t' then sb_append sb "\\t"
  else if c.toNat < 0x20 then sb_append_format sb [.lit "\\u", .hex4 c.toNat]
  else sb ++ [c]

/-- The function `sb_append_json_string`. -/
def sb_append_json_string (sb : StringBuilder) (value : List Char) : StringBuilder :=
  let sb := sb_append sb "\""
  let sb := value.foldl sb_append_json_char sb
  sb_append sb "\""

/-- The function `sb_finalize`. -/
def sb_finalize (sb : StringBuilder) : List Char := sb

/-- The function `append_mpu_payload`. -/
def append_mpu_payload (sb : StringBuilder) (msg : SensorMessage) (indent : Int) :
    StringBuilder :=
  let mpu := msg.data.mpu
  let sb := sb_append sb "\x7b\n"
  let sb := sb_append_indent sb (indent + 2)
  let ts := isoformat_utc msg.timestamp 64
  let sb := sb_append sb "\"timestamp\": "
  let sb := sb_append_json_string sb ts
  let sb := sb_append sb ",\n"
  let sb := sb_append_indent sb (indent + 2)
  let sb := sb_append sb "\"accel_g\": \x7b\"x\": "
  let sb := sb_append_format sb
    [.fixed 4 mpu.ax, .lit ", \"y\": ", .fixed 4 mpu.ay, .lit ", \"z\": ", .fixed 4 mpu.az,
     .lit "\x7d"]
  let sb := sb_append sb ",\n"
  let sb := sb_append_indent sb (indent + 2)
  let sb := sb_append sb "\"gyro_dps\": \x7b\"x\": "
  let sb := sb_append_format sb
    [.fixed 3 mpu.gx, .lit ", \"y\": ", .fixed 3 mpu.gy, .lit ", \"z\": ", .fixed 3 mpu.gz,
     .lit "\x7d"]
  let sb := sb_append sb ",\n"
  let sb := sb_append_indent sb (indent + 2)
  let sb := sb_append sb "\"attitude_deg\": \x7b\"pitch\": "
  let sb := sb_append_format sb
    [.fixed 2 mpu.pitch, .lit ", \"roll\": ", .fixed 2 mpu.roll, .lit ", \"yaw\": ",
     .fixed 2 mpu.yaw, .lit "\x7d"]
  let sb :=
    if mpu.dummy then
      let sb := sb_append sb ",\n"
      let sb := sb_append_indent sb (indent + 2)
      sb_append sb "\"dummy\": true\n"
    else
      sb_append sb "\n"
  let sb := sb_append_indent sb indent
  sb_append sb "\x7d"

/-- The function `append_bmp_payload`. -/
def append_bmp_payload (sb : StringBuilder) (msg : SensorMessage) (indent : Int) :
    StringBuilder :=
  let bmp := msg.data.bmp
  let sb := sb_append sb "\x7b\n"
  let sb := sb_append_indent sb (indent + 2)
  let ts := isoformat_utc msg.timestamp 64
  let sb := sb_append sb "\"timestamp\": "
  let sb := sb_append_json_string sb ts
  let sb :=
    if bmp.has_raw then
      let sb := sb_append sb ",\n"
      let sb := sb_append_indent sb (indent + 2)
      let sb := sb_append sb "\"raw\": "
      sb_append_json_string sb bmp.raw
    else if bmp.has_temperature || bmp.has_pressure then
      let sb := sb_append sb ",\n"
      let sb := sb_append_indent sb (indent + 2)
      let sb := sb_append sb "\"raw\": \x7b\"T\": "
      let sb :=
        if bmp.has_temperature then sb_append_format sb [.fixed 2 bmp.temperature]
        else sb_append sb "null"
      let sb := sb_append sb ", \"P\": "
      let sb :=
        if bmp.has_pressure then sb_append_format sb [.fixed 2 bmp.pressure]
        else sb_append sb "null"
      sb_append sb "\x7d"
    else sb
  let sb :=
    if bmp.dummy then
      let sb := sb_append sb ",\n"
      let sb := sb_append_indent sb (indent + 2)
      sb_append sb "\"dummy\": true"
    else sb
  let sb := sb_append sb "\n"
  let sb := sb_append_indent sb indent
  sb_append sb "\x7d"

/-- The function `append_gps_payload`. -/
def append_gps_payload (sb : StringBuilder) (msg : SensorMessage) (indent : Int) :
    StringBuilder :=
  let gps := msg.data.gps
  let sb := sb_append sb "\x7b\n"
  let sb := sb_append_indent sb (indent + 2)
  let ts := isoformat_utc msg.timestamp 64
  let sb := sb_append sb "\"timestamp\": "
  let sb := sb_append_json_string sb ts
  let sb :=
    if gps.has_latitude then
      let sb := sb_append sb ",\n"
      let sb := sb_append_indent sb (indent + 2)
      sb_append_format sb [.lit "\"latitude\": ", .fixed 6 gps.latitude]
    else sb
  let sb :=
    if gps.has_longitude then
      let sb := sb_append sb ",\n"
      let sb := sb_append_indent sb (indent + 2)
      sb_append_format sb [.lit "\"longitude\": ", .fixed 6 gps.longitude]
    else sb
  let sb :=
    if gps.has_altitude then
      let sb := sb_append sb ",\n"
      let sb := sb_append_indent sb (indent + 2)
      sb_append_format sb [.lit "\"altitude\": ", .fixed 1 gps.altitude]
    else sb
  let sb :=
    if gps.has_fix_time then
      let sb := sb_append sb ",\n"
      let sb := sb_append_indent sb (indent + 2)
      let sb := sb_append sb "\"fix_time\": "
      sb_append_json_string sb gps.fix_time
    else sb
  let sb :=
    if gps.has_raw then
      let sb := sb_append sb ",\n"
      let sb := sb_append_indent sb (indent + 2)
      let sb := sb_append sb "\"raw\": "
      sb_append_json_string sb gps.raw
    else sb
  let sb :=
    if gps.dummy then
      let sb := sb_append sb ",\n"
      let sb := sb_append_indent sb (indent + 2)
      sb_append sb "\"dummy\": true"
    else sb
  let sb := sb_append sb "\n"
  let sb := sb_append_indent sb indent
  sb_append sb "\x7d"

/-- Body of the `for` loop of `build_payload_json` at index `idx`, for the entry `sensor`
of `expected_sensors`. -/
def build_payload_entry (state : AggregatorState) (sb : StringBuilder) (idx : Nat)
    (sensor : SensorType) : StringBuilder :=
  let sb := sb_append_indent sb 4
  let sb := sb_append sb "\""
  let sb := sb_append sb (sensor_name sensor)
  let sb := sb_append sb "\": "
  let sb :=
    if state.has_latest sensor then
      let msg := state.latest sensor
      match sensor with
      | SENSOR_MPU6050 => append_mpu_payload sb msg 6
      | SENSOR_BMP180 => append_bmp_payload sb msg 6
      | SENSOR_NEO6M => append_gps_payload sb msg 6
    else
      sb_append sb "null"
  if idx + 1 < state.config.expected_sensors.length then sb_append sb ",\n"
  else sb_append sb "\n"

/-- The `for` loop of `build_payload_json` from index `idx` on, `sensors` being the
entries of `expected_sensors` still to visit. -/
def build_payload_loop (state : AggregatorState) (sb : StringBuilder) (idx : Nat) :
    List SensorType → StringBuilder
  | [] => sb
  | sensor :: rest =>
      build_payload_loop state (build_payload_entry state sb idx sensor) (idx + 1) rest

/-- The function `build_payload_json`. -/
def build_payload_json (state : AggregatorState) (reported_at : Double) : List Char :=
  let sb : StringBuilder := []
  let ts := isoformat_utc reported_at 64
  let sb := sb_append sb "\x7b\n  \"reported_at\": "
  let sb := sb_append_json_string sb ts
  let sb := sb_append sb ",\n  \"sensors\": \x7b\n"
  let sb := build_payload_loop state sb 0 state.config.expected_sensors
  let sb := sb_append sb "  \x7d\n\x7d\n"
  sb_finalize sb

/-! ## aggregator.c: the aggregator thread -/

/-- What one turn of the loop of `aggregator_thread_main` meets from outside the thread. -/
structure LoopEnv where
  -- the stop flag read by the loop condition
  stop_at_top : Bool
  -- the message that sensor_queue_pop(queue, &message, 0.2) filled, if it returned true
  popped : Option SensorMessage
  -- the stop flag read after a failed pop
  stop_after_pop : Bool
  -- the value of current_time_seconds()
  now : Double
  -- what send_payload(payload) returns when it is called
  send_ok : Bool

/-- One snapshot handed to `log_payload`, the clock reading it was built for, and what the
transport returned for it when one is configured. -/
structure Emission where
  time : Double
  payload : List Char
  sent : Option Bool

/-- State of the aggregator thread: the `AggregatorState`, the local `last_emit`, the
snapshots emitted so far (oldest first) and whether the loop is still running. -/
structure LoopState where
  state : AggregatorState
  last_emit : Double
  emitted : List Emission
  running : Bool

/-- The thread at its start: `last_emit = 0.0`, nothing emitted. -/
def loop_start (state : AggregatorState) : LoopState :=
  { state := state, last_emit := 0.0, emitted := [], running := true }

/-- The part of the loop body of `aggregator_thread_main` that takes a popped message in:
the switch on its sensor, the tracker update and the `latest` slot. -/
def aggregator_take_message (sqrt : Double → Double) (state : AggregatorState)
    (message : SensorMessage) : AggregatorState :=
  let is_dummy_state : Bool × AggregatorState :=
    match message.sensor with
    | SENSOR_MPU6050 => (message.data.mpu.dummy, aggregator_handle_mpu sqrt state message)
    | SENSOR_BMP180 => (message.data.bmp.dummy, state)
    | SENSOR_NEO6M => (message.data.gps.dummy, state)
  let is_dummy := is_dummy_state.1
  let state := is_dummy_state.2
  { state with
    tracker := activity_tracker_update state.tracker message.sensor is_dummy
    latest := Function.update state.latest message.sensor message
    has_latest := Function.update state.has_latest message.sensor true }

/-- One turn of the `while` loop of `aggregator_thread_main`. The payload is never NULL
(the builder never fails to grow), so the turn does not leave through `if (!payload)`. -/
def aggregator_loop_turn (sqrt : Double → Double) (ls : LoopState) (env : LoopEnv) :
    LoopState :=
  if env.stop_at_top then
    { ls with running := false }
  else
    match env.popped with
    | none => if env.stop_after_pop then { ls with running := false } else ls
    | some message =>
        let state := aggregator_take_message sqrt ls.state message
        let now := env.now
        if (now - ls.last_emit) < state.config.emit_interval_seconds then
          { ls with state := state }
        else
          let payload := build_payload_json state now
          let sent := if state.config.has_send_payload then some env.send_ok else none
          { ls with
            state := state
            emitted := ls.emitted ++ [{ time := now, payload := payload, sent := sent }]
            last_emit := now }

/-- Text of a snapshot up to its first sensor entry, for the time it reports. -/
def payload_head (reported_at : Double) : List Char :=
  "\x7b\n  \"reported_at\": \"".toList ++ isoformat_utc reported_at 64 ++
    "\",\n  \"sensors\": \x7b\n".toList

/-! ### Closed forms of the encoder -/

/-- A character that `sb_append_json_string` copies as it is. -/
def no_escape (c : Char) : Prop := c ≠ '\\' ∧ c ≠ '"' ∧ 0x20 ≤ c.toNat

/-- What `sb_append_json_char` appends for one character. -/
def json_escape_char (c : Char) : List Char := sb_append_json_char [] c

/-- What the loop of `sb_append_json_string` appends for a text. -/
def json_escape : List Char → List Char
  | [] => []
  | c :: rest => json_escape_char c ++ json_escape rest

/-- A JSON string literal: the escaped text between double quotes. -/
def json_quote (v : List Char) : List Char := '"' :: json_escape v ++ ['"']

/-- What `sb_append_indent` appends. -/
def indent_text (spaces : Int) : List Char := List.replicate spaces.toNat ' '

/-- What `append_mpu_payload` appends. -/
def mpu_text (msg : SensorMessage) (indent : Int) : List Char :=
  append_mpu_payload [] msg indent

/-- What `append_bmp_payload` appends. -/
def bmp_text (msg : SensorMessage) (indent : Int) : List Char :=
  append_bmp_payload [] msg indent

/-- What `append_gps_payload` appends. -/
def gps_text (msg : SensorMessage) (indent : Int) : List Char :=
  append_gps_payload [] msg indent

/-- What one turn of the loop of `build_payload_json` appends. -/
def entry_text (state : AggregatorState) (idx : Nat) (sensor : SensorType) : List Char :=
  build_payload_entry state [] idx sensor

/-- What the loop of `build_payload_json` appends from index `idx` on. -/
def loop_text (state : AggregatorState) (idx : Nat) (sensors : List SensorType) : List Char :=
  build_payload_loop state [] idx sensors

/-- The statement `if (gps->has_latitude) ...` of `append_gps_payload`. -/
def gps_latitude_part (gps : GpsData) (indent : Int) (sb : StringBuilder) : StringBuilder :=
  if gps.has_latitude then
    let sb := sb_append sb ",\n"
    let sb := sb_append_indent sb (indent + 2)
    sb_append_format sb [.lit "\"latitude\": ", .fixed 6 gps.latitude]
  else sb

/-- The statement `if (gps->has_longitude) ...` of `append_gps_payload`. -/
def gps_longitude_part (gps : GpsData) (indent : Int) (sb : StringBuilder) : StringBuilder :=
  if gps.has_longitude then
    let sb := sb_append sb ",\n"
    let sb := sb_append_indent sb (indent + 2)
    sb_append_format sb [.lit "\"longitude\": ", .fixed 6 gps.longitude]
  else sb

/-- The statement `if (gps->has_altitude) ...` of `append_gps_payload`. -/
def gps_altitude_part (gps : GpsData) (indent : Int) (sb : StringBuilder) : StringBuilder :=
  if gps.has_altitude then
    let sb := sb_append sb ",\n"
    let sb := sb_append_indent sb (indent + 2)
    sb_append_format sb [.lit "\"altitude\": ", .fixed 1 gps.altitude]
  else sb

/-- The statement `if (gps->has_fix_time) ...` of `append_gps_payload`. -/
def gps_fix_time_part (gps : GpsData) (indent : Int) (sb : StringBuilder) : StringBuilder :=
  if gps.has_fix_time then
    let sb := sb_append sb ",\n"
    let sb := sb_append_indent sb (indent + 2)
    let sb := sb_append sb "\"fix_time\": "
    sb_append_json_string sb gps.fix_time
  else sb

/-- The statement `if (gps->has_raw) ...` of `append_gps_payload`. -/
def gps_raw_part (gps : GpsData) (indent : Int) (sb : StringBuilder) : StringBuilder :=
  if gps.has_raw then
    let sb := sb_append sb ",\n"
    let sb := sb_append_indent sb (indent + 2)
    let sb := sb_append sb "\"raw\": "
    sb_append_json_string sb gps.raw
  else sb

/-- The statement `if (x->dummy) ...` that ends `append_bmp_payload` and
`append_gps_payload`. -/
def dummy_part (dummy : Bool) (indent : Int) (sb : StringBuilder) : StringBuilder :=
  if dummy then
    let sb := sb_append sb ",\n"
    let sb := sb_append_indent sb (indent + 2)
    sb_append sb "\"dummy\": true"
  else sb

/-- The statement `if (bmp->has_raw) ... else if ...` of `append_bmp_payload`. -/
def bmp_raw_part (bmp : BmpData) (indent : Int) (sb : StringBuilder) : StringBuilder :=
  if bmp.has_raw then
    let sb := sb_append sb ",\n"
    let sb := sb_append_indent sb (indent + 2)
    let sb := sb_append sb "\"raw\": "
    sb_append_json_string sb bmp.raw
  else if bmp.has_temperature || bmp.has_pressure then
    let sb := sb_append sb ",\n"
    let sb := sb_append_indent sb (indent + 2)
    let sb := sb_append sb "\"raw\": \x7b\"T\": "
    let sb :=
      if bmp.has_temperature then sb_append_format sb [.fixed 2 bmp.temperature]
      else sb_append sb "null"
    let sb := sb_append sb ", \"P\": "
    let sb :=
      if bmp.has_pressure then sb_append_format sb [.fixed 2 bmp.pressure]
      else sb_append sb "null"
    sb_append sb "\x7d"
  else sb

/-- Opening of a sensor object, shared by the three encoders: brace, newline, indentation
and the timestamp member. -/
def object_open (msg : SensorMessage) (indent : Int) (sb : StringBuilder) : StringBuilder :=
  let sb := sb_append sb "\x7b\n"
  let sb := sb_append_indent sb (indent + 2)
  let sb := sb_append sb "\"timestamp\": "
  sb_append_json_string sb (isoformat_utc msg.timestamp 64)

/-- Closing of a sensor object in `append_bmp_payload` and `append_gps_payload`: newline,
indentation and brace. -/
def object_close (indent : Int) (sb : StringBuilder) : StringBuilder :=
  let sb := sb_append sb "\n"
  let sb := sb_append_indent sb indent
  sb_append sb "\x7d"

/-- State of a reader that walks a JSON text character by character: how many braces are
open, whether it is inside a string literal (and right after a backslash), the literal
read so far, the last complete literal if only blanks followed it, and the member names
met so far with the depth of their object. The two accumulators grow at the front. -/
structure KeyScan where
  depth : Nat
  in_string : Bool
  escaped : Bool
  current : List Char
  last : Option (List Char)
  keys : List (Nat × List Char)

/-- The reader between two tokens. -/
def KeyScan.outside (depth : Nat) (last : Option (List Char))
    (keys : List (Nat × List Char)) : KeyScan :=
  { depth := depth, in_string := false, escaped := false, current := [], last := last,
    keys := keys }

/-- The reader inside a string literal, not right after a backslash. -/
def KeyScan.inside (depth : Nat) (current : List Char) (last : Option (List Char))
    (keys : List (Nat × List Char)) : KeyScan :=
  { depth := depth, in_string := true, escaped := false, current := current, last := last,
    keys := keys }

/-- One character read: a string literal runs to the next unescaped double quote; a
colon after a string literal makes that literal a member name of the object whose brace
is the innermost open one. -/
def key_scan_step (s : KeyScan) (c : Char) : KeyScan :=
  if s.in_string then
    if s.escaped then { s with escaped := false, current := c :: s.current }
    else if c = '\\' then { s with escaped := true, current := c :: s.current }
    else if c = '"' then
      { s with in_string := false, last := some s.current.reverse, current := [] }
    else { s with current := c :: s.current }
  else if c = '"' then { s with in_string := true, current := [], last := none }
  else if c = '\x7b' then { s with depth := s.depth + 1, last := none }
  else if c = '\x7d' then { s with depth := s.depth - 1, last := none }
  else if c = ':' then
    match s.last with
    | some k => { s with keys := (s.depth, k) :: s.keys, last := none }
    | none => s
  else if c = ' ' ∨ c = '\n' then s
  else { s with last := none }

/-- The reader run over a text from a given state. -/
def scan_from (s : KeyScan) (text : List Char) : KeyScan := text.foldl key_scan_step s

/-- The member names of a JSON text that belong to objects nested `depth` deep (1 for the
outermost object), in the order of the text. -/
def json_keys (depth : Nat) (text : List Char) : List String :=
  (((scan_from (KeyScan.outside 0 none []) text).keys.reverse.filter
    (fun k => k.1 = depth)).map (fun k => String.mk k.2))

/-- Reading `text` between tokens at depth `d` ends between tokens at depth `d2`, having
met the member names `add` (latest first). -/
def scans (text : List Char) (d d2 : Nat) (add : List (Nat × List Char)) : Prop :=
  ∀ (last : Option (List Char)) (keys : List (Nat × List Char)),
    ∃ last2, scan_from (KeyScan.outside d last keys) text = KeyScan.outside d2 last2 (add ++ keys)

/-- A character that, between tokens, neither opens a literal or a brace nor names a
member. -/
def token_char (c : Char) : Prop := c ≠ '"' ∧ c ≠ '\x7b' ∧ c ≠ '\x7d' ∧ c ≠ ':'

instance (c : Char) : Decidable (token_char c) := by unfold token_char; infer_instance

/-- The reader inside a string literal, right after a backslash. -/
def KeyScan.after_backslash (depth : Nat) (current : List Char) (last : Option (List Char))
    (keys : List (Nat × List Char)) : KeyScan :=
  { depth := depth, in_string := true, escaped := true, current := current, last := last,
    keys := keys }

/-- A character that stands for itself inside a string literal. -/
def string_char (c : Char) : Prop := c ≠ '\\' ∧ c ≠ '"'

instance (c : Char) : Decidable (string_char c) := by unfold string_char; infer_instance

/-- What the loop of `build_payload_json` appends as the value of a sensor: its object
when a sample is held, else `null`. -/
def value_text (state : AggregatorState) (sensor : SensorType) : List Char :=
  if state.has_latest sensor then
    match sensor with
    | SENSOR_MPU6050 => mpu_text (state.latest sensor) 6
    | SENSOR_BMP180 => bmp_text (state.latest sensor) 6
    | SENSOR_NEO6M => gps_text (state.latest sensor) 6
  else "null".toList

/-- What the loop of `build_payload_json` appends after an entry: a comma unless the
entry is the last one, and a newline. -/
def separator_text (state : AggregatorState) (idx : Nat) : List Char :=
  if idx + 1 < state.config.expected_sensors.length then ",\n".toList else "\n".toList

/-! ### States of the snapshot scenarios -/

/-- The IMU frame of scenario S5, taken at time `t`. -/
def s5_message (t : Double) : SensorMessage :=
  { sensor := SENSOR_MPU6050
    timestamp := t
    data :=
      { mpu :=
          { ax := 0.1234, ay := -0.5678, az := 0.9999, gx := 1.234, gy := 0, gz := 0,
            pitch := 1.23, roll := -4.56, yaw := 7.89, dummy := false }
        bmp := BmpData.zero
        gps := GpsData.zero } }

/-- The state of scenario S5: the configuration of `main`, the IMU frame as the only
sample received. -/
def s5_state (t : Double) : AggregatorState :=
  { initial_state with
    latest := Function.update initial_state.latest SENSOR_MPU6050 (s5_message t)
    has_latest := Function.update initial_state.has_latest SENSOR_MPU6050 true }

/-- A state configured with the sensors in the given order, no sample received. -/
def state_expecting (sensors : List SensorType) : AggregatorState :=
  aggregator_state_new { main_config with expected_sensors := sensors } activity_tracker_init

/-! ### Words of the specification about JSON strings -/

/-- Lowercase hexadecimal digit of a value below 16. -/
def hex_lower (n : Nat) : Char := "0123456789abcdef".toList.getD n '0'

/-- The escape of one byte, as the specification words it: backslash, double quote, LF,
CR and TAB get their two-character escapes, any other byte below 0x20 becomes `\u00` and
its two lowercase hexadecimal digits, every other byte stands for itself. -/
def spec_escape_char (c : Char) : List Char :=
  if c = '\\' then ['\\', '\\']
  else if c = '"' then ['\\', '"']
  else if c = '\n' then ['\\', 'n']
  else if c = '\r' then ['\\', 'r']
  else if c = '\t' then ['\\', 't']
  else if c.toNat < 0x20 then
    ['\\', 'u', '0', '0', hex_lower (c.toNat / 16), hex_lower (c.toNat % 16)]
  else [c]

/-- The escapes of the bytes of a text, in order. -/
def spec_escape : List Char → List Char
  | [] => []
  | c :: rest => spec_escape_char c ++ spec_escape rest

/-- Value of a hexadecimal digit. -/
def hex_value (c : Char) : Option Nat :=
  if '0'.toNat ≤ c.toNat ∧ c.toNat ≤ '9'.toNat then some (c.toNat - '0'.toNat)
  else if 'a'.toNat ≤ c.toNat ∧ c.toNat ≤ 'f'.toNat then some (c.toNat - 'a'.toNat + 10)
  else if 'A'.toNat ≤ c.toNat ∧ c.toNat ≤ 'F'.toNat then some (c.toNat - 'A'.toNat + 10)
  else none

/-- The character a two-character escape stands for. -/
def simple_escape (e : Char) : Option Char :=
  if e = '\\' then some '\\'
  else if e = '"' then some '"'
  else if e = '/' then some '/'
  else if e = 'n' then some '\n'
  else if e = 'r' then some '\r'
  else if e = 't' then some '\t'
  else if e = 'b' then some '\x08'
  else if e = 'f' then some '\x0c'
  else none

/-- Where a decoder of JSON string text stands: between escapes, right after a backslash,
or inside a `\u` escape with `left` hexadecimal digits to read and `value` read so far. -/
inductive EscState where
  | plain
  | backslash
  | hex (left : Nat) (value : Nat)

/-- Decoding of JSON string text from a decoder state; `none` when the text holds a raw
control character, an unescaped double quote or a malformed escape. -/
def json_unescape_from : EscState → List Char → Option (List Char)
  | .plain, [] => some []
  | .backslash, [] => none
  | .hex _ _, [] => none
  | .plain, c :: rest =>
      if c = '\\' then json_unescape_from .backslash rest
      else if c = '"' ∨ c.toNat < 0x20 then none
      else (json_unescape_from .plain rest).map (fun tail => c :: tail)
  | .backslash, e :: rest =>
      if e = 'u' then json_unescape_from (.hex 4 0) rest
      else
        match simple_escape e with
        | some d => (json_unescape_from .plain rest).map (fun tail => d :: tail)
        | none => none
  | .hex left value, h :: rest =>
      match hex_value h with
      | some d =>
          if left ≤ 1 then
            (json_unescape_from .plain rest).map
              (fun tail => Char.ofNat (value * 16 + d) :: tail)
          else json_unescape_from (.hex (left - 1) (value * 16 + d)) rest
      | none => none

/-- Decoding of the text between the quotes of a JSON string literal. -/
def json_unescape (text : List Char) : Option (List Char) := json_unescape_from .plain text

/-! ### Words of the specification about indentation -/

/-- State of a reader of the indentation of a text: whether only spaces have been read
on the current line, how many, and the indentations of the lines read (latest first). -/
structure IndentScan where
  at_start : Bool
  spaces : Nat
  indents : List Nat
  deriving DecidableEq

/-- One character read: the indentation of a line is the number of spaces before its first
other character (the newline that ends it included). -/
def indent_step (s : IndentScan) (c : Char) : IndentScan :=
  if c = '\n' then
    { at_start := true
      spaces := 0
      indents := if s.at_start then s.spaces :: s.indents else s.indents }
  else if s.at_start then
    if c = ' ' then { s with spaces := s.spaces + 1 }
    else { at_start := false, spaces := 0, indents := s.spaces :: s.indents }
  else s

/-- The reader run over a text from a given state. -/
def indent_scan (s : IndentScan) (text : List Char) : IndentScan := text.foldl indent_step s

/-- The indentation of each line of a text, in order. -/
def line_indents (text : List Char) : List Nat :=
  (indent_scan { at_start := true, spaces := 0, indents := [] } text).indents.reverse

/-! ## lora_transport.c -/

/-- The macro `LORA_MAX_BYTES`. -/
def LORA_MAX_BYTES : Nat := 200

/-- The function `send_frame` in a build that has the radio library: the frame goes to
`loralib_send`, and a return code other than 0 is a failure. (Without the library
`lora_init_tx` never sets `lora_ready`, and `lora_send_json` sends nothing.) -/
def send_frame (loralib_send : List Char → Int) (frame : List Char) : Bool :=
  decide (loralib_send frame = 0)

/-- The frame built by the turn `idx` of the loop of `lora_send_json`; a byte of the
buffer is a `Char`, a cast to `uint8_t` keeps the value modulo 256. -/
def lora_frame (json_payload topic : List Char) (topic_len room total_frames idx : Nat) :
    List Char :=
  let payload_len := json_payload.length
  let start := idx * room
  let remaining := if payload_len > start then payload_len - start else 0
  let chunk_len := if remaining > room then room else remaining
  ['J', Char.ofNat (topic_len % 256)] ++ topic.take topic_len ++
    [Char.ofNat ((idx + 1) &&& 0xFF), Char.ofNat (total_frames &&& 0xFF)] ++
    (json_payload.drop start).take chunk_len

/-- The `for` loop of `lora_send_json` with `left` turns to go from index `idx`: the
value returned and the frames handed to the driver so far, in order. -/
def lora_send_loop (loralib_send : List Char → Int) (json_payload topic : List Char)
    (topic_len room total_frames : Nat) : Nat → Nat → List (List Char) →
    Bool × List (List Char)
  | 0, _, handed => (true, handed)
  | left + 1, idx, handed =>
      let frame := lora_frame json_payload topic topic_len room total_frames idx
      let ok := send_frame loralib_send frame
      if !ok then (false, handed ++ [frame])
      else
        lora_send_loop loralib_send json_payload topic topic_len room total_frames left
          (idx + 1) (handed ++ [frame])

/-- The function `lora_send_json` on a non-null payload: the value returned and the
frames handed to the driver, in order. -/
def lora_send_json (lora_ready : Bool) (loralib_send : List Char → Int)
    (json_payload : List Char) : Bool × List (List Char) :=
  let payload_len := json_payload.length
  let topic := "sensors".toList
  let topic_len := if topic.length > 15 then 15 else topic.length
  if !lora_ready then (true, [])
  else
    let head_fixed := 1 + 1 + topic_len + 1 + 1
    let room := if LORA_MAX_BYTES > head_fixed then LORA_MAX_BYTES - head_fixed else 1
    let room := if room = 0 then 1 else room
    let total_frames := (payload_len + room - 1) / room
    let total_frames := if total_frames = 0 then 1 else total_frames
    lora_send_loop loralib_send json_payload topic topic_len room total_frames
      total_frames 0 []

/-- A driver that accepts every frame. -/
def driver_accepts_all : List Char → Int := fun _ => 0

/-! ### Words of the specification about the radio frames -/

/-- The bytes `payload[a .. b)`. -/
def payload_slice (payload : List Char) (a b : Nat) : List Char := (payload.drop a).take (b - a)

/-- Header of frame `i` of `total`: 'J', the topic length 7, the topic, and the two
counters modulo 256. -/
def frame_header (i total : Nat) : List Char :=
  ['J', Char.ofNat 7] ++ "sensors".toList ++ [Char.ofNat (i &&& 0xFF), Char.ofNat (total &&& 0xFF)]

/-- The frames of a payload as the specification words them: with `H = 1 + 1 + 7 + 1 + 1`
and `R = 200 - H`, `F = max(1, ceil(L/R))` frames, frame `i = 1..F` holding its header and
the payload bytes `[(i-1)*R, min(L, i*R))`. -/
def spec_frames (payload : List Char) : List (List Char) :=
  let H : Nat := 1 + 1 + 7 + 1 + 1
  let R : Nat := 200 - H
  let L : Nat := payload.length
  let F : Nat := max 1 ⌈(L : ℚ) / (R : ℚ)⌉₊
  (List.range F).map
    (fun k => frame_header (k + 1) F ++ payload_slice payload (k * R) (min L ((k + 1) * R)))

/-- The frame-index byte of a frame: the byte after 'J', the topic length and the
seven bytes of the topic. -/
def frame_index_byte (frame : List Char) : Nat := (frame.getD 9 'J').toNat

/-- A payload of 500 bytes: the decimal digits over and over. -/
def payload_500 : List Char := (List.range 500).map (fun i => Char.ofNat (48 + i % 10))

/-- The payload bytes of a frame: what follows the eleven bytes of the header. -/
def frame_payload (frame : List Char) : List Char := frame.drop 11

/-- A payload of 48196 bytes, one more than 255 full frames carry. -/
def payload_48196 : List Char := List.replicate 48196 'x'

/-! ## sensor_workers.c: NMEA sentences -/

/-- The tokens that `strtok` hands out for a delimiter, `cur` being the token under way:
the maximal non-empty runs of bytes other than the delimiter, in order. -/
def strtok_from (delim : Char) : List Char → List Char → List (List Char)
  | cur, [] => if cur = [] then [] else [cur]
  | cur, c :: rest =>
      if c = delim then
        if cur = [] then strtok_from delim [] rest else cur :: strtok_from delim [] rest
      else strtok_from delim (cur ++ [c]) rest

/-- The successive results of `strtok(text, ",")`, `strtok(NULL, ",")`, ... up to the
first null result. -/
def strtok_tokens (text : List Char) (delim : Char) : List (List Char) :=
  strtok_from delim [] text

/-- The C test `field && field[0]` on a token pointer: non-null and not the empty string. -/
def field_present : Option (List Char) → Bool
  | some (_ :: _) => true
  | _ => false

/-- The C test `field && field[0] == c` on a token pointer. -/
def field_starts_with (field : Option (List Char)) (c : Char) : Bool :=
  match field with
  | some (d :: _) => decide (d = c)
  | _ => false

/-- The function `parse_coordinate`; `atof` is the libc conversion. -/
def parse_coordinate (atof : List Char → Double) (value : Option (List Char)) : Double :=
  if !field_present value then 0
  else
    let raw := atof (value.getD [])
    let degrees : Double := ((⌊raw / 100⌋ : Int) : Double)
    let minutes := raw - degrees * 100
    degrees + minutes / 60

/-- The function `format_fix_time`: the text left in `buffer`, of `len` bytes. -/
def format_fix_time (nmea_time : Option (List Char)) (len : Nat) : List Char :=
  match nmea_time with
  | none => []
  | some t =>
      if t.length < 6 ∨ len < 9 then []
      else
        [t.getD 0 ' ', t.getD 1 ' ', ':', t.getD 2 ' ', t.getD 3 ' ', ':', t.getD 4 ' ',
          t.getD 5 ' ']

/-- The array `tokens` of `parse_gga_sentence` after its `strtok` loop: at most 16 tokens
of the first 255 bytes of the line. -/
def gga_tokens (line : List Char) : List (List Char) :=
  (strtok_tokens (line.take 255) ',').take 16

/-- The function `parse_gga_sentence`: the value returned and the struct `out` afterwards;
`atof` is the libc conversion. -/
def parse_gga_sentence (atof : List Char → Double) (line : List Char) (out : GpsData) :
    Bool × GpsData :=
  let tokens := gga_tokens line
  let count := tokens.length
  if count < 10 then (false, out)
  else
    let time_field := tokens[1]?
    let lat_field := tokens[2]?
    let lat_hemi := tokens[3]?
    let lon_field := tokens[4]?
    let lon_hemi := tokens[5]?
    let fix_quality := tokens[6]?
    let alt_field := tokens[9]?
    if fix_quality.isNone || field_starts_with fix_quality '0' then (false, out)
    else
      let out :=
        if field_present lat_field then
          let lat := parse_coordinate atof lat_field
          let lat := if field_starts_with lat_hemi 'S' then -lat else lat
          { out with latitude := lat, has_latitude := true }
        else out
      let out :=
        if field_present lon_field then
          let lon := parse_coordinate atof lon_field
          let lon := if field_starts_with lon_hemi 'W' then -lon else lon
          { out with longitude := lon, has_longitude := true }
        else out
      let out :=
        if field_present alt_field then
          { out with altitude := atof (alt_field.getD []), has_altitude := true }
        else out
      let out :=
        if field_present time_field then
          { out with fix_time := format_fix_time time_field 32, has_fix_time := true }
        else out
      (true, { out with dummy := false, has_raw := true, raw := line.take 127 })

/-- Reading of a decimal numeral for `atof_decimal`: the digits read so far as a natural
number and the count of those after the point. -/
def atof_digits : Bool → Nat → Nat → List Char → Nat × Nat
  | _, mantissa, decimals, [] => (mantissa, decimals)
  | after_point, mantissa, decimals, c :: rest =>
      if c.isDigit then
        atof_digits after_point (mantissa * 10 + (c.toNat - 48))
          (if after_point then decimals + 1 else decimals) rest
      else if c = '.' ∧ after_point = false then atof_digits true mantissa decimals rest
      else (mantissa, decimals)

/-- A stand-in for the libc `atof` on plain decimal numerals (optional sign, digits,
optional point and digits; no exponent), exact in the rationals: the longest such prefix
is converted and a text that starts with none gives 0. -/
def atof_decimal (text : List Char) : Double :=
  let negative := decide (text.head? = some '-')
  let body := if text.head? = some '-' ∨ text.head? = some '+' then text.drop 1 else text
  let r := atof_digits false 0 0 body
  (if negative then -1 else 1) * (r.1 : Double) / 10 ^ r.2

/-! ### Words of the specification about NMEA fields -/

/-- The comma-separated fields of a line, empty fields counted; `cur` is the field under
way. -/
def fields_from : List Char → List Char → List (List Char)
  | cur, [] => [cur]
  | cur, c :: rest =>
      if c = ',' then cur :: fields_from [] rest else fields_from (cur ++ [c]) rest

/-- The comma-separated fields of a line, indexed from 0, empty fields counted. -/
def nmea_fields (line : List Char) : List (List Char) := fields_from [] line

/-- A GGA sentence with every field filled in up to the altitude. -/
def gga_full : List Char :=
  "$GPGGA,123519,4807.038,N,01131.000,E,1,08,0.9,545.4,M,46.9,M,,*47".toList

/-- The same sentence from a receiver that leaves the dilution field 8 empty. -/
def gga_no_hdop : List Char :=
  "$GPGGA,123519,4807.038,N,01131.000,E,1,08,,545.4,M,46.9,M,,*47".toList

/-- A sentence with fix quality 1 whose position fields are empty. -/
def gga_no_position : List Char :=
  "$GPGGA,123519,,,,,1,08,0.9,,M,,M,,*47".toList

/-- A sentence with fix quality 0 and an empty time field. -/
def gga_no_fix : List Char :=
  "$GPGGA,,4807.038,N,01131.000,E,0,12,0.9,545.4,M,46.9,M,,*47".toList

/-- The sentence with every field filled in, in the southern and western hemispheres. -/
def gga_south_west : List Char :=
  "$GPGGA,123519,4807.038,S,01131.000,W,1,08,0.9,545.4,M,46.9,M,,*47".toList

/-- The same position from a receiver that leaves the time field 1 empty and sees 12
satellites. -/
def gga_south_west_no_time : List Char :=
  "$GPGGA,,4807.038,S,01131.000,W,1,12,0.9,545.4,M,46.9,M,,*47".toList
/-! ## sensor_workers.c: the worker loops -/

/-- The macro `ACCEL_SCALE`. -/
def ACCEL_SCALE : Double := 16384

/-- The macro `GYRO_SCALE`. -/
def GYRO_SCALE : Double := 131

/-- The macro `ALPHA`. -/
def ALPHA : Double := 0.3

/-- The macro `ALPHA_FUSION`. -/
def ALPHA_FUSION : Double := 0.96

/-- The macro `SMOOTHING`. -/
def SMOOTHING : Double := 0.9

/-- The struct `MpuState`. -/
structure MpuState where
  pitch : Double
  roll : Double
  yaw : Double
  pitch_smooth : Double
  roll_smooth : Double
  deriving DecidableEq

/-- The function `to_degrees`; `pi` is the constant `M_PI`. -/
def to_degrees (pi : Double) (radians : Double) : Double := radians * (180 / pi)

/-- The function `complementary_filter`: the struct `state` afterwards; `sqrt` and
`atan2` are the libm functions. -/
def complementary_filter (sqrt : Double → Double) (atan2 : Double → Double → Double)
    (pi : Double) (ax ay az gx gy gz dt : Double) (state : MpuState) : MpuState :=
  let pitch_acc := to_degrees pi (atan2 (-ax) (sqrt (ay * ay + az * az)))
  let roll_acc := if |az| ≥ 0.01 then to_degrees pi (atan2 ay az) else state.roll
  let pitch := ALPHA_FUSION * (state.pitch + gx * dt) + (1 - ALPHA_FUSION) * pitch_acc
  let roll := ALPHA_FUSION * (state.roll + gy * dt) + (1 - ALPHA_FUSION) * roll_acc
  let yaw := state.yaw + gz * dt
  { pitch := pitch,
    roll := roll,
    yaw := yaw,
    pitch_smooth := SMOOTHING * state.pitch_smooth + (1 - SMOOTHING) * pitch,
    roll_smooth := SMOOTHING * state.roll_smooth + (1 - SMOOTHING) * roll }

/-- What a worker meets during one turn of its loop: the value of `*stop_flag` at the
test of the loop, the result of `mpu_read_raw` (`none` when it fails, else the raw
acceleration and angular rate), the result `n` of `serial_readline` with the bytes it
left in `line`, the value of `current_time_seconds()`, and the result of
`sensor_queue_push` when the turn calls it. -/
structure WorkerEnv where
  stop_flag : Bool
  raw_read : Option ((Int × Int × Int) × (Int × Int × Int))
  n : Int
  line : List Char
  now : Double
  push_result : Bool

/-- One turn of a worker loop: the message handed to `sensor_queue_push`, when the turn
gets that far, and the loop variables of the next turn, `none` when the loop is left. -/
structure WorkerTurn (σ : Type) where
  pushed : Option SensorMessage
  next : Option σ

/-- A turn of the dummy loop of `mpu_worker`, the loop variable being `phase`; `sin` and
`cos` are the libm functions. The result of `sensor_queue_push` is not looked at. -/
def mpu_worker_dummy_turn (sin cos : Double → Double) (phase : Double) (env : WorkerEnv) :
    WorkerTurn Double :=
  if env.stop_flag then { pushed := none, next := none }
  else
    let now := env.now
    let msg : SensorMessage :=
      { sensor := SENSOR_MPU6050,
        timestamp := now,
        data :=
          { SensorMessage.zero.data with
            mpu :=
              { ax := 0.01 * sin phase, ay := 0.01 * cos phase, az := 1.0,
                gx := 0.1 * sin phase, gy := 0.1 * cos phase, gz := 0.0,
                pitch := 0.0, roll := 0.0, yaw := 0.0, dummy := true } } }
    { pushed := some msg, next := some (phase + 0.05) }

/-- The variables of the capture loop of `mpu_worker`. -/
structure MpuLoop where
  state : MpuState
  alpha_ax : Double
  alpha_ay : Double
  alpha_az : Double
  alpha_gx : Double
  alpha_gy : Double
  alpha_gz : Double
  last_time : Double
  deriving DecidableEq

/-- A turn of the capture loop of `mpu_worker`, for the offsets found by the
calibration. -/
def mpu_worker_turn (sqrt : Double → Double) (atan2 : Double → Double → Double)
    (pi : Double) (accel_offsets gyro_offsets : Double × Double × Double) (vars : MpuLoop)
    (env : WorkerEnv) : WorkerTurn MpuLoop :=
  if env.stop_flag then { pushed := none, next := none }
  else
    match env.raw_read with
    | none => { pushed := none, next := none }
    | some (accel_raw, gyro_raw) =>
        let ax := ((accel_raw.1 : Double) - accel_offsets.1) / ACCEL_SCALE
        let ay := ((accel_raw.2.1 : Double) - accel_offsets.2.1) / ACCEL_SCALE
        let az := ((accel_raw.2.2 : Double) - accel_offsets.2.2) / ACCEL_SCALE
        let gx := ((gyro_raw.1 : Double) - gyro_offsets.1) / GYRO_SCALE
        let gy := ((gyro_raw.2.1 : Double) - gyro_offsets.2.1) / GYRO_SCALE
        let gz := ((gyro_raw.2.2 : Double) - gyro_offsets.2.2) / GYRO_SCALE
        let alpha_ax := ALPHA * ax + (1 - ALPHA) * vars.alpha_ax
        let alpha_ay := ALPHA * ay + (1 - ALPHA) * vars.alpha_ay
        let alpha_az := ALPHA * az + (1 - ALPHA) * vars.alpha_az
        let alpha_gx := ALPHA * gx + (1 - ALPHA) * vars.alpha_gx
        let alpha_gy := ALPHA * gy + (1 - ALPHA) * vars.alpha_gy
        let alpha_gz := ALPHA * gz + (1 - ALPHA) * vars.alpha_gz
        let now := env.now
        let dt := now - vars.last_time
        let dt := if dt ≤ 0 then 0.001 else dt
        let state :=
          complementary_filter sqrt atan2 pi alpha_ax alpha_ay alpha_az alpha_gx alpha_gy
            alpha_gz dt vars.state
        let msg : SensorMessage :=
          { sensor := SENSOR_MPU6050,
            timestamp := now,
            data :=
              { SensorMessage.zero.data with
                mpu :=
                  { ax := alpha_ax, ay := alpha_ay, az := alpha_az,
                    gx := alpha_gx, gy := alpha_gy, gz := alpha_gz,
                    pitch := state.pitch_smooth, roll := state.roll_smooth,
                    yaw := state.yaw, dummy := false } } }
        if !env.push_result then { pushed := some msg, next := none }
        else
          { pushed := some msg,
            next := some
              { state := state, alpha_ax := alpha_ax, alpha_ay := alpha_ay,
                alpha_az := alpha_az, alpha_gx := alpha_gx, alpha_gy := alpha_gy,
                alpha_gz := alpha_gz, last_time := now } }

/-- The text of the buffer `line` after `if (n > 0 && line[n - 1] == '\n') line[n - 1] =
'\0'`, the bytes read being free of NUL. -/
def strip_newline (n : Int) (line : List Char) : List Char :=
  if n > 0 ∧ line.getD (n.toNat - 1) (Char.ofNat 0) = '\n' then line.take (n.toNat - 1)
  else line

/-- A turn of the dummy loop of `bmp_worker`, the loop variables being `temp` and `pres`.
The result of `sensor_queue_push` is not looked at. -/
def bmp_worker_dummy_turn (vars : Double × Double) (env : WorkerEnv) :
    WorkerTurn (Double × Double) :=
  if env.stop_flag then { pushed := none, next := none }
  else
    let temp := vars.1 + 0.01
    let pres := vars.2 + 0.02
    let msg : SensorMessage :=
      { sensor := SENSOR_BMP180,
        timestamp := env.now,
        data :=
          { SensorMessage.zero.data with
            bmp :=
              { temperature := temp, pressure := pres, has_temperature := true,
                has_pressure := true, dummy := true,
                raw := ("T=".toList ++ format_fixed 2 temp ++ ",P=".toList ++
                  format_fixed 2 pres).take 127,
                has_raw := true } } }
    { pushed := some msg, next := some (temp, pres) }

/-- A turn of the listening loop of `bmp_worker`, which has no loop variable. -/
def bmp_worker_turn (env : WorkerEnv) : WorkerTurn Unit :=
  if env.stop_flag then { pushed := none, next := none }
  else if env.n < 0 then { pushed := none, next := none }
  else if env.n = 0 then { pushed := none, next := some () }
  else
    let line := strip_newline env.n env.line
    let msg : SensorMessage :=
      { sensor := SENSOR_BMP180,
        timestamp := env.now,
        data :=
          { SensorMessage.zero.data with
            bmp := { BmpData.zero with has_raw := true, raw := line.take 127, dummy := false } } }
    if !env.push_result then { pushed := some msg, next := none }
    else { pushed := some msg, next := some () }

/-- A turn of the dummy loop of `gps_worker`, the loop variables being `lat` and `lon`
(`alt` stays 512). The result of `sensor_queue_push` is not looked at. -/
def gps_worker_dummy_turn (vars : Double × Double) (env : WorkerEnv) :
    WorkerTurn (Double × Double) :=
  if env.stop_flag then { pushed := none, next := none }
  else
    let lat := vars.1 + 0.00001
    let lon := vars.2 - 0.00001
    let msg : SensorMessage :=
      { sensor := SENSOR_NEO6M,
        timestamp := env.now,
        data :=
          { SensorMessage.zero.data with
            gps :=
              { latitude := lat, longitude := lon, altitude := 512.0,
                has_latitude := true, has_longitude := true, has_altitude := true,
                dummy := true, has_fix_time := true, fix_time := "DUMMY".toList.take 31,
                has_raw := true, raw := "$GPGGA,DUMMY".toList.take 127 } } }
    { pushed := some msg, next := some (lat, lon) }

/-- A turn of the listening loop of `gps_worker`, which has no loop variable; `atof` is
the libc conversion. -/
def gps_worker_turn (atof : List Char → Double) (env : WorkerEnv) : WorkerTurn Unit :=
  if env.stop_flag then { pushed := none, next := none }
  else if env.n < 0 then { pushed := none, next := none }
  else if env.n = 0 then { pushed := none, next := some () }
  else
    let line := strip_newline env.n env.line
    if line.take 6 ≠ "$GPGGA".toList ∧ line.take 6 ≠ "$GPRMC".toList then
      { pushed := none, next := some () }
    else
      let parsed := parse_gga_sentence atof line GpsData.zero
      if !parsed.1 then { pushed := none, next := some () }
      else
        let msg : SensorMessage :=
          { sensor := SENSOR_NEO6M,
            timestamp := env.now,
            data :=
              { SensorMessage.zero.data with
                gps := { parsed.2 with has_raw := true, raw := line.take 127 } } }
        if !env.push_result then { pushed := some msg, next := none }
        else { pushed := some msg, next := some () }

/-- The calls of `sensor_queue_push` made by a worker loop over successive turns, each
with the result it got, from the loop variables `vars` on. -/
def worker_pushes {σ : Type} (turn : σ → WorkerEnv → WorkerTurn σ) :
    σ → List WorkerEnv → List (SensorMessage × Bool)
  | _, [] => []
  | vars, env :: envs =>
      (match (turn vars env).pushed with
        | some msg => [(msg, env.push_result)]
        | none => []) ++
      (match (turn vars env).next with
        | some vars' => worker_pushes turn vars' envs
        | none => [])

/-- A turn in which the stop flag is clear and the queue, already closed, refuses the
push. -/
def env_queue_closed (now : Double) : WorkerEnv :=
  { stop_flag := false, raw_read := some ((0, 0, 16384), (0, 0, 0)), n := 3,
    line := "42\n".toList, now := now, push_result := false }

/-! ### Words of the specification about the workers -/

/-- A turn function leaves the loop on a refused push: whenever a turn hands a message
to `sensor_queue_push` and gets false, the loop is left. -/
def leaves_on_refusal {σ : Type} (turn : σ → WorkerEnv → WorkerTurn σ) : Prop :=
  ∀ vars env, (turn vars env).pushed.isSome = true → env.push_result = false →
    (turn vars env).next = none

/-- No push follows a refused one: in the list of pushes with their results, a result
false is only found at the last place. -/
def refused_push_is_last : List (SensorMessage × Bool) → Bool
  | [] => true
  | (_, ok) :: rest => (ok || rest.isEmpty) && refused_push_is_last rest

/-- A turn that finds the stop flag set. -/
def env_stopped (now : Double) : WorkerEnv :=
  { stop_flag := true, raw_read := none, n := 0, line := [], now := now, push_result := false }

/-! ## aggregator.c: the loop on its queue -/

/-- One turn of the loop of `aggregator_thread_main` in which the call
`sensor_queue_pop(queue, &message, 0.2)` is made on `queue`: the other inputs of the turn
are the stop flag at the test of the loop and after a failed pop, the clock and the
answer of the transport. A turn that finds the flag set at the test makes no call. -/
def aggregator_turn_on_queue (sqrt : Double → Double) (ls : LoopState) (queue : SensorQueue)
    (stop_at_top stop_after_pop : Bool) (now : Double) (send_ok : Bool) :
    Outcome (LoopState × SensorQueue) :=
  if stop_at_top then .returns ({ ls with running := false }, queue)
  else
    match sensor_queue_pop queue 0.2 with
    | .blocks => .blocks
    | .returns (out, queue') =>
        .returns
          (aggregator_loop_turn sqrt ls
            { stop_at_top := false, popped := out, stop_after_pop := stop_after_pop,
              now := now, send_ok := send_ok },
            queue')

/-- Is the loop still running after a turn: false when the turn left the loop or is
still waiting in the queue. -/
def loop_goes_on : Outcome (LoopState × SensorQueue) → Bool
  | .returns (ls, _) => ls.running
  | .blocks => false

/-- Has the turn left the loop. -/
def loop_left : Outcome (LoopState × SensorQueue) → Bool
  | .returns (ls, _) => !ls.running
  | .blocks => false

/-- A queue of capacity 4 that was closed while empty. -/
def queue_closed_empty : SensorQueue := sensor_queue_close (sensor_queue_create 4)

/-- A queue of capacity 4 that is open and empty. -/
def queue_open_empty : SensorQueue := sensor_queue_create 4

/-! ## sensor_workers.c: reading a line from a serial device -/

/-- The aggregator taking in the samples of a sequence, one popped message after the
other. -/
def take_messages (sqrt : Double → Double) (state : AggregatorState)
    (msgs : List SensorMessage) : AggregatorState :=
  msgs.foldl (aggregator_take_message sqrt) state

/-! ### Words of the specification about the latest samples -/

/-- The dummy flag of a sample: that of the member its sensor id selects. -/
def sample_dummy (msg : SensorMessage) : Bool :=
  match msg.sensor with
  | SENSOR_MPU6050 => msg.data.mpu.dummy
  | SENSOR_BMP180 => msg.data.bmp.dummy
  | SENSOR_NEO6M => msg.data.gps.dummy

/-- The last sample of a sequence with sensor id `s`, if there is one. -/
def last_sample (s : SensorType) (msgs : List SensorMessage) : Option SensorMessage :=
  msgs.reverse.find? (fun m => decide (m.sensor = s))

/-! ## message_queue.c: push, pop and close in any order -/

/-- A call on the queue by any of its users. -/
inductive QueueOp where
  | push (message : SensorMessage)
  | pop (timeout_seconds : Double)
  | close

/-- The queue after a call; a call that waits on a condition variable has changed
nothing when it starts to wait. -/
def queue_op (queue : SensorQueue) : QueueOp → SensorQueue
  | .push message =>
      match sensor_queue_push queue message with
      | .blocks => queue
      | .returns (_, q) => q
  | .pop timeout_seconds =>
      match sensor_queue_pop queue timeout_seconds with
      | .blocks => queue
      | .returns (_, q) => q
  | .close => sensor_queue_close queue

/-- The queue after a sequence of calls. -/
def queue_ops (queue : SensorQueue) (ops : List QueueOp) : SensorQueue :=
  ops.foldl queue_op queue

/-! ## sensor_workers.c: raw readings of the MPU6050 -/

/-- The function `i2c_read_bytes`: `write_ok` tells whether `write(fd, &reg, 1)` wrote
its byte, `read` is what `read(fd, data, length)` delivered (nothing on an error); the
bytes in `data` when the function returns true. A byte is a natural number below 256. -/
def i2c_read_bytes (write_ok : Bool) (read : List Nat) (length : Nat) : Option (List Nat) :=
  if !write_ok then none
  else if read.length = length then some read
  else none

/-- The cast `(int16_t)` of an `int`: the value modulo `2 ^ 16`, taken in
`-32768 .. 32767`. -/
def int16_cast (v : Int) : Int :=
  let u := v % 65536
  if u ≥ 32768 then u - 65536 else u

/-- The expression `(buffer[k] << 8) | buffer[k + 1]`, an `int`. -/
def byte_pair (buffer : List Nat) (k : Nat) : Int :=
  (((buffer.getD k 0) <<< 8 ||| buffer.getD (k + 1) 0 : Nat) : Int)

/-- The function `mpu_read_raw`: the arrays `accel` and `gyro` when it returns true. -/
def mpu_read_raw (write_ok : Bool) (read : List Nat) :
    Option ((Int × Int × Int) × (Int × Int × Int)) :=
  match i2c_read_bytes write_ok read 14 with
  | none => none
  | some buffer =>
      some
        ((int16_cast (byte_pair buffer (0 * 2)), int16_cast (byte_pair buffer (1 * 2)),
          int16_cast (byte_pair buffer (2 * 2))),
         (int16_cast (byte_pair buffer (8 + 0 * 2)), int16_cast (byte_pair buffer (8 + 1 * 2)),
          int16_cast (byte_pair buffer (8 + 2 * 2))))

/-! ### Words of the specification about raw readings -/

/-- The signed 16-bit value, in two's complement, of a big-endian pair of bytes. -/
def twos_complement_16 (hi lo : Nat) : Int :=
  if hi * 256 + lo < 32768 then ((hi * 256 + lo : Nat) : Int)
  else ((hi * 256 + lo : Nat) : Int) - 65536

/-- The six readings of the message a turn pushes: acceleration, then angular rate. -/
def pushed_readings {σ : Type} (turn : WorkerTurn σ) :
    Option (Double × Double × Double × Double × Double × Double) :=
  turn.pushed.map
    (fun msg => (msg.data.mpu.ax, msg.data.mpu.ay, msg.data.mpu.az, msg.data.mpu.gx,
      msg.data.mpu.gy, msg.data.mpu.gz))

/-- A buffer of 14 bytes read from register 0x3B. -/
def raw_buffer : List Nat :=
  [0xFF, 0xFF, 0x80, 0x00, 0x40, 0x00, 0x12, 0x34, 0x7F, 0xFF, 0x00, 0x83, 0xFF, 0x7D]

/-! ### States of the complementary filter -/

/-- A filter state at rest: every angle 0. -/
def MpuState.zero : MpuState := ⟨0, 0, 0, 0, 0⟩

/-- What taking in one sample does to the detector: nothing, or one counted detection
more than the minimum delay after the previous one. -/
def detector_step (before after : AggregatorState) (msg : SensorMessage) : Prop :=
  (after.zero_acc_count = before.zero_acc_count ∧
      after.zero_last_detection = before.zero_last_detection ∧
      after.tracker.zero_signal_sent = before.tracker.zero_signal_sent) ∨
    (before.tracker.zero_signal_sent = false ∧
      after.zero_acc_count = before.zero_acc_count + 1 ∧
      after.zero_last_detection = msg.timestamp ∧
      msg.timestamp > before.zero_last_detection + 1.0)

/-! # Theorems -/

/-! ## Theorems: activity tracker -/

theorem record_zero_signal_of_sent (t : ActivityTracker) (ts m : Double)
    (h : t.zero_signal_sent = true) : activity_tracker_record_zero_signal t ts m = t := by
  simp [activity_tracker_record_zero_signal, h]

theorem tracker_apply_of_sent (t : ActivityTracker) (c : TrackerCall)
    (h : t.zero_signal_sent = true) :
    (tracker_apply t c).zero_signal_sent = true ∧
      (tracker_apply t c).zero_signal_timestamp = t.zero_signal_timestamp ∧
      (tracker_apply t c).zero_signal_magnitude = t.zero_signal_magnitude := by
  cases c with
  | update sensor is_dummy => simp [tracker_apply, activity_tracker_update, h]
  | record_zero_signal ts m => simp [tracker_apply, record_zero_signal_of_sent t ts m h, h]

theorem tracker_run_of_sent (calls : List TrackerCall) (t : ActivityTracker)
    (h : t.zero_signal_sent = true) :
    (tracker_run t calls).zero_signal_sent = true ∧
      (tracker_run t calls).zero_signal_timestamp = t.zero_signal_timestamp ∧
      (tracker_run t calls).zero_signal_magnitude = t.zero_signal_magnitude := by
  induction calls generalizing t with
  | nil => simp [tracker_run, h]
  | cons c rest ih =>
    obtain ⟨h1, h2, h3⟩ := tracker_apply_of_sent t c h
    have := ih (tracker_apply t c) h1
    simp only [tracker_run, List.foldl_cons] at this ⊢
    rw [h2, h3] at this
    exact this

theorem latch_history_head (t : ActivityTracker) (calls : List TrackerCall) :
    ∃ rest, latch_history t calls = t.zero_signal_sent :: rest := by
  cases calls <;> simp [latch_history]

theorem rising_edges_of_sent (calls : List TrackerCall) (t : ActivityTracker)
    (h : t.zero_signal_sent = true) : rising_edges (latch_history t calls) = 0 := by
  induction calls generalizing t with
  | nil => simp [latch_history, rising_edges]
  | cons c rest ih =>
    have h1 := (tracker_apply_of_sent t c h).1
    obtain ⟨tl, htl⟩ := latch_history_head (tracker_apply t c) rest
    have := ih (tracker_apply t c) h1
    simp only [latch_history]
    rw [htl] at this ⊢
    simp [rising_edges, h, this]

theorem rising_edges_le_one (calls : List TrackerCall) (t : ActivityTracker) :
    rising_edges (latch_history t calls) ≤ 1 := by
  induction calls generalizing t with
  | nil => simp [latch_history, rising_edges]
  | cons c rest ih =>
    obtain ⟨tl, htl⟩ := latch_history_head (tracker_apply t c) rest
    simp only [latch_history]
    by_cases hs : (tracker_apply t c).zero_signal_sent = true
    · have h0 := rising_edges_of_sent rest (tracker_apply t c) hs
      rw [htl] at h0 ⊢
      simp only [rising_edges, h0]
      split <;> simp
    · have := ih (tracker_apply t c)
      rw [htl] at this ⊢
      simp only [rising_edges]
      have hf : (tracker_apply t c).zero_signal_sent = false := by simpa using hs
      rw [hf] at this
      simp [hf, this]

/-- C4: recording a zero signal on a set latch changes no tracker field (so recording
twice equals recording once with the first arguments); on an unset latch it sets the flag
together with the given timestamp and magnitude; under any sequence of update and
record calls the latch rises at most once, and once set its recorded values stay. -/
theorem record_zero_signal_write_once :
    (∀ (t : ActivityTracker) (ts m : Double), t.zero_signal_sent = true →
        activity_tracker_record_zero_signal t ts m = t) ∧
    (∀ (t : ActivityTracker) (ts1 m1 ts2 m2 : Double),
        activity_tracker_record_zero_signal
            (activity_tracker_record_zero_signal t ts1 m1) ts2 m2 =
          activity_tracker_record_zero_signal t ts1 m1) ∧
    (∀ (t : ActivityTracker) (ts m : Double), t.zero_signal_sent = false →
        activity_tracker_record_zero_signal t ts m =
          { t with zero_signal_sent := true, zero_signal_timestamp := ts,
                   zero_signal_magnitude := m }) ∧
    (∀ (t : ActivityTracker) (calls : List TrackerCall),
        rising_edges (latch_history t calls) ≤ 1) ∧
    (∀ (t : ActivityTracker) (calls : List TrackerCall), t.zero_signal_sent = true →
        (tracker_run t calls).zero_signal_sent = true ∧
        (tracker_run t calls).zero_signal_timestamp = t.zero_signal_timestamp ∧
        (tracker_run t calls).zero_signal_magnitude = t.zero_signal_magnitude) := by
  refine ⟨record_zero_signal_of_sent, ?_, ?_, fun t calls => rising_edges_le_one calls t,
    fun t calls h => tracker_run_of_sent calls t h⟩
  · intro t ts1 m1 ts2 m2
    by_cases h : t.zero_signal_sent = true
    · simp [activity_tracker_record_zero_signal, h]
    · simp [activity_tracker_record_zero_signal, h]
  · intro t ts m h
    simp [activity_tracker_record_zero_signal, h]

/-! ## Theorems: liftoff detector -/

theorem handle_mpu_of_sent (sqrt : Double → Double) (st : AggregatorState)
    (msg : SensorMessage) (h : st.tracker.zero_signal_sent = true) :
    aggregator_handle_mpu sqrt st msg = st := by
  simp [aggregator_handle_mpu, activity_tracker_zero_sent, h]

theorem handle_mpu_of_not_qualifies (sqrt : Double → Double) (st : AggregatorState)
    (msg : SensorMessage) (hq : ¬ qualifies sqrt st.zero_last_detection msg) :
    aggregator_handle_mpu sqrt st msg = st := by
  unfold qualifies at hq
  by_cases hd : msg.data.mpu.dummy = true
  · simp [aggregator_handle_mpu, hd]
  have hd0 : msg.data.mpu.dummy = false := by simpa using hd
  by_cases hm : |mpu_magnitude sqrt msg.data.mpu - ZERO_ACCEL_REF| ≤ ZERO_ACCEL_TOLERANCE
  · have ht : ¬ (msg.timestamp - st.zero_last_detection > ZERO_ACCEL_MIN_DELAY) := by
      intro ht
      exact hq ⟨hd0, hm, ht⟩
    simp only [aggregator_handle_mpu, if_neg ht]
    simp
  · simp only [aggregator_handle_mpu, if_neg hm]
    simp

theorem handle_mpu_of_qualifies (sqrt : Double → Double) (st : AggregatorState)
    (msg : SensorMessage) (hf : st.tracker.zero_signal_sent = false)
    (hq : qualifies sqrt st.zero_last_detection msg) :
    aggregator_handle_mpu sqrt st msg =
      { st with
        zero_acc_count := st.zero_acc_count + 1
        zero_last_detection := msg.timestamp
        tracker :=
          if st.zero_acc_count + 1 ≥ 2 then
            { st.tracker with
              zero_signal_sent := true
              zero_signal_timestamp := msg.timestamp
              zero_signal_magnitude := mpu_magnitude sqrt msg.data.mpu }
          else st.tracker } := by
  obtain ⟨hd, hm, ht⟩ := hq
  have hm1 : |mpu_magnitude sqrt msg.data.mpu - ZERO_ACCEL_REF| ≤ ZERO_ACCEL_TOLERANCE := hm
  have ht1 : msg.timestamp - st.zero_last_detection > ZERO_ACCEL_MIN_DELAY := ht
  by_cases hc : st.zero_acc_count + 1 ≥ 2
  · simp [aggregator_handle_mpu, activity_tracker_zero_sent, hf, hd, hm1, ht1,
      ZERO_ACCEL_REQUIRED, hc, activity_tracker_record_zero_signal]
  · simp [aggregator_handle_mpu, activity_tracker_zero_sent, hf, hd, hm1, ht1,
      ZERO_ACCEL_REQUIRED, hc]

/-- Either the detector leaves the state alone, or the sample is counted. -/
theorem handle_mpu_cases (sqrt : Double → Double) (st : AggregatorState)
    (msg : SensorMessage) :
    aggregator_handle_mpu sqrt st msg = st ∨
      (st.tracker.zero_signal_sent = false ∧ qualifies sqrt st.zero_last_detection msg ∧
        aggregator_handle_mpu sqrt st msg =
          { st with
            zero_acc_count := st.zero_acc_count + 1
            zero_last_detection := msg.timestamp
            tracker :=
              if st.zero_acc_count + 1 ≥ 2 then
                { st.tracker with
                  zero_signal_sent := true
                  zero_signal_timestamp := msg.timestamp
                  zero_signal_magnitude := mpu_magnitude sqrt msg.data.mpu }
              else st.tracker }) := by
  by_cases hs : st.tracker.zero_signal_sent = true
  · exact Or.inl (handle_mpu_of_sent sqrt st msg hs)
  have hf : st.tracker.zero_signal_sent = false := by simpa using hs
  by_cases hq : qualifies sqrt st.zero_last_detection msg
  · exact Or.inr ⟨hf, hq, handle_mpu_of_qualifies sqrt st msg hf hq⟩
  · exact Or.inl (handle_mpu_of_not_qualifies sqrt st msg hq)

theorem latch_inv_step (sqrt : Double → Double) (st : AggregatorState) (msg : SensorMessage)
    (h : latch_inv st) : latch_inv (aggregator_handle_mpu sqrt st msg) := by
  rcases handle_mpu_cases sqrt st msg with he | ⟨hf, _, he⟩
  · rw [he]; exact h
  · rw [he]
    rcases h with ⟨_, hc⟩ | ⟨ht, _⟩
    · by_cases h2 : st.zero_acc_count + 1 ≥ 2
      · right
        simp only [if_pos h2]
        exact ⟨trivial, by omega⟩
      · left
        simp only [if_neg h2]
        exact ⟨hf, by omega⟩
    · rw [hf] at ht; cases ht

theorem latch_inv_new (config : AggregatorConfig) :
    latch_inv (aggregator_state_new config activity_tracker_init) := by
  left
  simp [aggregator_state_new, activity_tracker_init]

theorem no_latch_below_two_detections (sqrt : Double → Double) (msgs : List SensorMessage)
    (st : AggregatorState) (hs : st.tracker.zero_signal_sent = false)
    (h : st.zero_acc_count + (count_detections sqrt st.zero_last_detection msgs : Int) < 2) :
    (handle_mpu_run sqrt st msgs).tracker.zero_signal_sent = false := by
  induction msgs generalizing st with
  | nil => exact hs
  | cons m rest ih =>
    have hrun : handle_mpu_run sqrt st (m :: rest) =
        handle_mpu_run sqrt (aggregator_handle_mpu sqrt st m) rest := rfl
    rw [hrun]
    by_cases hq : qualifies sqrt st.zero_last_detection m
    · simp only [count_detections, if_pos hq] at h
      push_cast at h
      have h2 : ¬ (st.zero_acc_count + 1 ≥ 2) := by omega
      rw [handle_mpu_of_qualifies sqrt st m hs hq]
      simp only [if_neg h2]
      apply ih
      · exact hs
      · simp only
        omega
    · rw [handle_mpu_of_not_qualifies sqrt st m hq]
      apply ih st hs
      simpa only [count_detections, if_neg hq] using h

/-- C2: from the initial state, if fewer than two samples of the sequence qualify as
detections, the latch is unset after the whole sequence. -/
theorem latch_unset_below_required (sqrt : Double → Double) (config : AggregatorConfig)
    (msgs : List SensorMessage) (h : count_detections sqrt 0 msgs < 2) :
    (handle_mpu_run sqrt (aggregator_state_new config activity_tracker_init)
        msgs).tracker.zero_signal_sent = false := by
  apply no_latch_below_two_detections
  · rfl
  · simp only [aggregator_state_new]
    omega

/-- C3: a sample that is dummy, or whose magnitude is off the reference by more than the
tolerance, or that comes no more than the minimum delay after the last counted detection,
leaves the whole aggregator state as it was: counter, last detection and tracker. -/
theorem handle_mpu_skips_sample (sqrt : Double → Double) (st : AggregatorState)
    (msg : SensorMessage)
    (h : msg.data.mpu.dummy = true ∨ |mpu_magnitude sqrt msg.data.mpu - 1.0| > 0.05 ∨
      msg.timestamp - st.zero_last_detection ≤ 1.0) :
    aggregator_handle_mpu sqrt st msg = st := by
  rcases handle_mpu_cases sqrt st msg with he | ⟨_, ⟨hd, hm, ht⟩, _⟩
  · exact he
  · rcases h with h | h | h
    · rw [hd] at h; cases h
    · exact absurd hm (not_le.mpr h)
    · exact absurd ht (not_lt.mpr h)

/-! ### The scenarios of the specification, run on the embedding -/

theorem natSqrt_one : natSqrt 1 = 1 := by decide

theorem sqrtQ_one : sqrtQ 1 = 1 := by
  simp [sqrtQ, natSqrt_one]

theorem sqrtQ_81_100 : sqrtQ (81 / 100) = 9 / 10 := by
  have hn : (81 / 100 : ℚ).num = 81 := by
    have := Rat.num_div_eq_of_coprime (a := 81) (b := 100) (by norm_num) (by norm_num)
    simpa using this
  have hd : (81 / 100 : ℚ).den = 100 := by
    have := Rat.den_div_eq_of_coprime (a := 81) (b := 100) (by norm_num) (by norm_num)
    have h : ((81 / 100 : ℚ).den : ℤ) = ((100 : ℕ) : ℤ) := by simpa using this
    exact Int.natCast_inj.mp h
  have h1 : natSqrt 81 = 9 := by decide
  have h2 : natSqrt 100 = 10 := by decide
  simp [sqrtQ, hn, hd, h1, h2]

theorem magnitude_unit_sample (t : Double) (d : Bool) :
    mpu_magnitude sqrtQ (imu_sample t 0 0 1.0 d).data.mpu = 1 := by
  norm_num [mpu_magnitude, imu_sample, sqrtQ_one]

theorem magnitude_low_sample (t : Double) (d : Bool) :
    mpu_magnitude sqrtQ (imu_sample t 0 0 0.9 d).data.mpu = 9 / 10 := by
  have h : (0 : ℚ) * 0 + 0 * 0 + 0.9 * 0.9 = 81 / 100 := by norm_num
  simp only [mpu_magnitude, imu_sample, h, sqrtQ_81_100]

theorem count_detections_too_soon :
    count_detections sqrtQ 0
      [imu_sample 10.0 0 0 1.0 false, imu_sample 10.5 0 0 1.0 false] = 1 := by
  have q1 : qualifies sqrtQ 0 (imu_sample 10.0 0 0 1.0 false) :=
    ⟨rfl, by rw [magnitude_unit_sample]; norm_num, by norm_num [imu_sample]⟩
  have q2 : ¬ qualifies sqrtQ (imu_sample 10.0 0 0 1.0 false).timestamp
      (imu_sample 10.5 0 0 1.0 false) := by
    rintro ⟨_, _, h⟩
    norm_num [imu_sample] at h
  simp only [count_detections, if_pos q1, if_neg q2]

/-- C2 on a concrete run: a detection at t = 10.0 followed by an in-tolerance sample only
0.5 s later is one detection, and the latch is unset after both. -/
theorem latch_unset_after_one_detection :
    count_detections sqrtQ 0
        [imu_sample 10.0 0 0 1.0 false, imu_sample 10.5 0 0 1.0 false] < 2 ∧
    (handle_mpu_run sqrtQ initial_state
        [imu_sample 10.0 0 0 1.0 false, imu_sample 10.5 0 0 1.0 false]
        ).tracker.zero_signal_sent = false :=
  ⟨by rw [count_detections_too_soon]; decide,
   latch_unset_below_required sqrtQ main_config _
     (by rw [count_detections_too_soon]; decide)⟩

theorem low_sample_out_of_tolerance (t : Double) :
    |mpu_magnitude sqrtQ (imu_sample t 0 0 0.9 false).data.mpu - 1.0| > 0.05 := by
  rw [magnitude_low_sample]
  norm_num [lt_abs]

/-- C3 on scenarios S3 and S4: dummy samples (0,0,1.0), and non-dummy samples (0,0,0.9),
at t = 10.0, 11.5, 13.0 leave the initial state as it is: counter 0, latch unset. -/
theorem dummy_and_low_samples_scenarios :
    handle_mpu_run sqrtQ initial_state
        [imu_sample 10.0 0 0 1.0 true, imu_sample 11.5 0 0 1.0 true,
         imu_sample 13.0 0 0 1.0 true] = initial_state ∧
    handle_mpu_run sqrtQ initial_state
        [imu_sample 10.0 0 0 0.9 false, imu_sample 11.5 0 0 0.9 false,
         imu_sample 13.0 0 0 0.9 false] = initial_state ∧
    initial_state.zero_acc_count = 0 ∧
    initial_state.tracker.zero_signal_sent = false := by
  refine ⟨?_, ?_, rfl, rfl⟩
  · simp only [handle_mpu_run, List.foldl_cons, List.foldl_nil]
    rw [handle_mpu_skips_sample sqrtQ initial_state _ (Or.inl rfl),
      handle_mpu_skips_sample sqrtQ initial_state _ (Or.inl rfl),
      handle_mpu_skips_sample sqrtQ initial_state _ (Or.inl rfl)]
  · simp only [handle_mpu_run, List.foldl_cons, List.foldl_nil]
    rw [handle_mpu_skips_sample sqrtQ initial_state _
        (Or.inr (Or.inl (low_sample_out_of_tolerance _))),
      handle_mpu_skips_sample sqrtQ initial_state _
        (Or.inr (Or.inl (low_sample_out_of_tolerance _))),
      handle_mpu_skips_sample sqrtQ initial_state _
        (Or.inr (Or.inl (low_sample_out_of_tolerance _)))]

/-- C4 on the fresh tracker: the first record sets the latch with (11.5, 1.0) and a second
record with other values changes nothing. -/
theorem record_zero_signal_twice_on_fresh_tracker :
    activity_tracker_record_zero_signal
        (activity_tracker_record_zero_signal activity_tracker_init 11.5 1.0) 13.0 1.0 =
      { activity_tracker_init with
        zero_signal_sent := true
        zero_signal_timestamp := 11.5
        zero_signal_magnitude := 1.0 } := by
  rw [record_zero_signal_write_once.2.1,
    record_zero_signal_write_once.2.2.1 activity_tracker_init 11.5 1.0 rfl]

/-! ## Theorems: message queue -/

theorem queue_wf_create (c : Nat) : queue_wf (sensor_queue_create c) := by
  unfold queue_wf sensor_queue_create
  by_cases h : c = 0
  · simp [h]
  · simp [h]
    omega

theorem queue_contents_length (q : SensorQueue) : (queue_contents q).length = q.count := by
  simp [queue_contents]

theorem ring_slot_ne (cap head i n : Nat) (hi : i < n) (hn : n < cap) :
    (head + i) % cap ≠ (head + n) % cap := by
  intro h
  have h1 : (head + i) ≡ (head + n) [MOD cap] := h
  have h2 : i ≡ n [MOD cap] := Nat.ModEq.add_left_cancel' head h1
  have h3 : i % cap = n % cap := h2
  rw [Nat.mod_eq_of_lt (by omega), Nat.mod_eq_of_lt hn] at h3
  omega

theorem push_open (q : SensorQueue) (m : SensorMessage) (hwf : queue_wf q)
    (hopen : q.closed = false) (hlt : q.count < q.capacity) :
    ∃ q2, sensor_queue_push q m = .returns (true, q2) ∧ queue_wf q2 ∧ q2.closed = false ∧
      q2.capacity = q.capacity ∧ queue_contents q2 = queue_contents q ++ [m] := by
  obtain ⟨hcap, hlen, hhead, hcount, htail⟩ := hwf
  refine ⟨{ q with
      buffer := q.buffer.set q.tail m
      tail := (q.tail + 1) % q.capacity
      count := q.count + 1 }, ?_, ?_, hopen, rfl, ?_⟩
  · have hne : q.count ≠ q.capacity := by omega
    simp [sensor_queue_push, hopen, hne]
  · refine ⟨hcap, by simpa using hlen, hhead, by simpa using hlt, ?_⟩
    simp only
    rw [htail, Nat.mod_add_mod, Nat.add_assoc]
  · simp only [queue_contents, List.range_succ, List.map_append, List.map_cons, List.map_nil]
    congr 1
    · apply List.map_congr_left
      intro i hi
      have hi2 : i < q.count := List.mem_range.mp hi
      have hne : q.tail ≠ (q.head + i) % q.capacity := by
        rw [htail]
        exact (ring_slot_ne q.capacity q.head i q.count hi2 hlt).symm
      simp [List.getD_eq_getElem?_getD, List.getElem?_set_ne hne]
    · have htl : q.tail < q.buffer.length := by
        rw [hlen, htail]
        exact Nat.mod_lt _ (by omega)
      rw [← htail]
      simp [List.getD_eq_getElem?_getD, htl]

theorem pop_nonempty (q : SensorQueue) (t : Double) (hwf : queue_wf q) (hpos : 0 < q.count) :
    ∃ q2, sensor_queue_pop q t = .returns ((queue_contents q).head?, q2) ∧ queue_wf q2 ∧
      q2.closed = q.closed ∧ q2.capacity = q.capacity ∧ q2.count = q.count - 1 ∧
      queue_contents q2 = (queue_contents q).tail := by
  obtain ⟨hcap, hlen, hhead, hcount, htail⟩ := hwf
  obtain ⟨k, hk⟩ : ∃ k, q.count = k + 1 := ⟨q.count - 1, by omega⟩
  refine ⟨{ q with head := (q.head + 1) % q.capacity, count := q.count - 1 },
    ?_, ?_, rfl, rfl, rfl, ?_⟩
  · have hne : q.count ≠ 0 := by omega
    simp [sensor_queue_pop, hne, queue_contents, hk, List.range_succ_eq_map,
      Nat.mod_eq_of_lt hhead]
  · refine ⟨hcap, hlen, Nat.mod_lt _ (by omega), by simp only; omega, ?_⟩
    simp only
    rw [htail, Nat.mod_add_mod]
    congr 1
    omega
  · simp only [queue_contents, hk, List.range_succ_eq_map, List.map_cons, List.map_map,
      List.tail_cons, Nat.add_sub_cancel]
    apply List.map_congr_left
    intro i _
    simp only [Function.comp, Nat.mod_add_mod]
    congr 2
    omega

theorem queue_call_push (q q1 : SensorQueue) (m : SensorMessage) (ok : Bool)
    (h : sensor_queue_push q m = .returns (ok, q1)) :
    queue_call q (.push m) = .returns (.pushed ok, q1) := by
  simp [queue_call, h]

theorem queue_call_pop (q q1 : SensorQueue) (t : Double) (out : Option SensorMessage)
    (h : sensor_queue_pop q t = .returns (out, q1)) :
    queue_call q (.pop t) = .returns (.popped out, q1) := by
  simp [queue_call, h]

theorem queue_run_cons (q q1 q2 : SensorQueue) (c : QueueCall) (rest : List QueueCall)
    (reply : QueueReply) (replies : List QueueReply)
    (h : queue_call q c = .returns (reply, q1))
    (hr : queue_run q1 rest = .returns (replies, q2)) :
    queue_run q (c :: rest) = .returns (reply :: replies, q2) := by
  simp [queue_run, h, hr]

theorem fifo_replies_pop_some (cap : Nat) (calls : List QueueCall)
    (pending : List SensorMessage) (h : never_blocks cap pending.length calls) :
    QueueReply.popped none ∉ fifo_replies pending calls := by
  induction calls generalizing pending with
  | nil => simp [fifo_replies]
  | cons c rest ih =>
    cases c with
    | push m =>
      obtain ⟨_, h2⟩ := h
      have := ih (pending ++ [m]) (by simpa using h2)
      simpa [fifo_replies] using this
    | pop t =>
      obtain ⟨h1, h2⟩ := h
      cases pending with
      | nil => simp at h1
      | cons a tl =>
        have := ih tl (by simpa using h2)
        simpa [fifo_replies] using this

theorem queue_run_fifo (calls : List QueueCall) (q : SensorQueue)
    (pending : List SensorMessage) (hwf : queue_wf q) (hopen : q.closed = false)
    (hc : queue_contents q = pending)
    (hnb : never_blocks q.capacity pending.length calls) :
    ∃ q2, queue_run q calls = .returns (fifo_replies pending calls, q2) := by
  induction calls generalizing q pending with
  | nil => exact ⟨q, rfl⟩
  | cons c rest ih =>
    have hcount : q.count = pending.length := by rw [← hc, queue_contents_length]
    cases c with
    | push m =>
      obtain ⟨h1, h2⟩ := hnb
      obtain ⟨q1, hp, hwf1, hopen1, hcap1, hc1⟩ := push_open q m hwf hopen (by omega)
      obtain ⟨q2, hr⟩ := ih q1 (pending ++ [m]) hwf1 hopen1 (by rw [hc1, hc])
        (by rw [hcap1]; simpa using h2)
      exact ⟨q2, by simp [queue_run, queue_call, hp, hr, fifo_replies]⟩
    | pop t =>
      obtain ⟨h1, h2⟩ := hnb
      obtain ⟨q1, hp, hwf1, hcl1, hcap1, _, hc1⟩ := pop_nonempty q t hwf (by omega)
      obtain ⟨q2, hr⟩ := ih q1 pending.tail hwf1 (by rw [hcl1, hopen]) (by rw [hc1, hc])
        (by rw [hcap1]; simpa using h2)
      exact ⟨q2, by simp [queue_run, queue_call, hp, hr, fifo_replies, hc]⟩

/-- C5: on a queue made by `sensor_queue_create C` with `C ≥ 1`, a sequence of push and pop
calls none of which would block runs to the end, and its replies are those of a first-in
first-out list: every push is accepted and every pop returns the oldest sample pushed and
not yet popped (never the reply of a failed pop), whatever the ring positions. -/
theorem queue_is_fifo (C : Nat) (calls : List QueueCall) (hC : 1 ≤ C)
    (h : never_blocks C 0 calls) :
    (∃ q2, queue_run (sensor_queue_create C) calls = .returns (fifo_replies [] calls, q2)) ∧
      QueueReply.popped none ∉ fifo_replies [] calls := by
  have hcap : (sensor_queue_create C).capacity = C := by
    have : C ≠ 0 := by omega
    simp [sensor_queue_create, this]
  refine ⟨queue_run_fifo calls (sensor_queue_create C) [] (queue_wf_create C) rfl ?_ ?_,
    fifo_replies_pop_some C calls [] h⟩
  · simp [queue_contents, sensor_queue_create]
  · rw [hcap]; exact h

theorem push_closed (q : SensorQueue) (m : SensorMessage) (h : q.closed = true) :
    sensor_queue_push q m = .returns (false, q) := by
  simp [sensor_queue_push, h]

theorem queue_call_closed (q q2 : SensorQueue) (call : QueueCall) (reply : QueueReply)
    (h : q.closed = true) (hr : queue_call q call = .returns (reply, q2)) :
    q2.closed = true := by
  cases call with
  | push m =>
    simp only [queue_call, push_closed q m h, Outcome.returns.injEq, Prod.mk.injEq] at hr
    rw [← hr.2]; exact h
  | pop t =>
    by_cases hz : q.count = 0
    · simp only [queue_call, sensor_queue_pop, h, hz, Bool.not_true, Bool.false_and,
        Bool.false_eq_true, if_false, beq_self_eq_true, if_true, Outcome.returns.injEq,
        Prod.mk.injEq] at hr
      rw [← hr.2]; exact h
    · have hb : (q.count == 0) = false := by simpa using hz
      simp only [queue_call, sensor_queue_pop, h, hb, Bool.not_true, Bool.false_and,
        Bool.false_eq_true, if_false, Outcome.returns.injEq, Prod.mk.injEq] at hr
      rw [← hr.2]

/-- C6: after `sensor_queue_close` the queue is closed, it stays closed through every later
call, and every push on a closed queue returns false at once and leaves the whole queue
state as it was, full or not. -/
theorem push_after_close_rejected :
    (∀ q : SensorQueue, (sensor_queue_close q).closed = true) ∧
    (∀ (q q2 : SensorQueue) (call : QueueCall) (reply : QueueReply), q.closed = true →
        queue_call q call = .returns (reply, q2) → q2.closed = true) ∧
    (∀ (q : SensorQueue) (m : SensorMessage), q.closed = true →
        sensor_queue_push q m = .returns (false, q)) ∧
    (∀ (q : SensorQueue) (m : SensorMessage),
        sensor_queue_push (sensor_queue_close q) m = .returns (false, sensor_queue_close q)) :=
  ⟨fun _ => rfl, queue_call_closed, push_closed, fun _ m => push_closed _ m rfl⟩

theorem closed_empty_pops (ts : List Double) (q : SensorQueue) (hclosed : q.closed = true)
    (hz : q.count = 0) :
    queue_run q (ts.map QueueCall.pop) =
      .returns (ts.map (fun _ => QueueReply.popped none), q) := by
  induction ts with
  | nil => rfl
  | cons t rest ih =>
    simp [queue_run, queue_call, sensor_queue_pop, hclosed, hz, ih]

theorem closed_drain (later first : List Double) (q : SensorQueue) (hwf : queue_wf q)
    (hclosed : q.closed = true) (hlen : first.length = q.count) :
    ∃ q2, queue_run q ((first ++ later).map QueueCall.pop) =
        .returns ((queue_contents q).map (fun m => QueueReply.popped (some m)) ++
          later.map (fun _ => QueueReply.popped none), q2) := by
  induction first generalizing q with
  | nil =>
    have hz : q.count = 0 := by simpa using hlen.symm
    refine ⟨q, ?_⟩
    rw [List.nil_append, closed_empty_pops later q hclosed hz]
    simp [queue_contents, hz]
  | cons t rest ih =>
    have hpos : 0 < q.count := by rw [← hlen]; simp
    obtain ⟨q1, hp, hwf1, hcl1, _, hcnt1, hc1⟩ := pop_nonempty q t hwf hpos
    obtain ⟨q2, hr⟩ := ih q1 hwf1 (by rw [hcl1, hclosed]) (by rw [hcnt1, ← hlen]; simp)
    refine ⟨q2, ?_⟩
    have hne : queue_contents q ≠ [] := by
      intro h
      have := queue_contents_length q
      rw [h] at this
      simp at this
      omega
    obtain ⟨a, tl, hatl⟩ := List.exists_cons_of_ne_nil hne
    rw [hatl] at hp hc1
    simp only [List.tail_cons] at hc1
    rw [hc1] at hr
    rw [hatl]
    exact queue_run_cons q q1 q2 (.pop t) _ _ _ (queue_call_pop q q1 t _ hp) hr

/-- C7: when a queue holding `k` samples is closed, the next `k` pops return those samples
oldest first, and every later pop returns false; none of these calls blocks, whatever its
timeout (negative ones included). -/
theorem closed_queue_drains_then_fails (q : SensorQueue) (first later : List Double)
    (hwf : queue_wf q) (hlen : first.length = q.count) :
    ∃ q2, queue_run (sensor_queue_close q) ((first ++ later).map QueueCall.pop) =
      .returns ((queue_contents q).map (fun m => QueueReply.popped (some m)) ++
        later.map (fun _ => QueueReply.popped none), q2) := by
  exact closed_drain later first (sensor_queue_close q) hwf rfl hlen

/-- C5 on a capacity-2 queue: push(A), push(B), pop gives A; then push(C), whose slot
is the wrapped tail, pop gives B and pop gives C. -/
theorem fifo_scenario_capacity_two :
    ∃ q2, queue_run (sensor_queue_create 2)
        [.push sample_A, .push sample_B, .pop 0.2, .push sample_C, .pop 0.2, .pop 0.2] =
      .returns ([.pushed true, .pushed true, .popped (some sample_A), .pushed true,
        .popped (some sample_B), .popped (some sample_C)], q2) :=
  (queue_is_fifo 2
    [.push sample_A, .push sample_B, .pop 0.2, .push sample_C, .pop 0.2, .pop 0.2]
    (by decide) (by simp [never_blocks])).1

/-- C6 on scenario S1: after close, push(C) on the queue holding B returns false and
leaves the closed queue as it was. -/
theorem push_after_close_scenario_s1 :
    sensor_queue_push (sensor_queue_close queue_s1) sample_C =
      .returns (false, sensor_queue_close queue_s1) :=
  push_after_close_rejected.2.2.2 queue_s1 sample_C

/-- C7 on scenario S1: push(A), push(B), pop leave the queue holding B; once closed, a pop
gives B and the next pop, here with a block-forever timeout, returns false. -/
theorem close_scenario_s1 :
    queue_run (sensor_queue_create 2) [.push sample_A, .push sample_B, .pop 0.2] =
      .returns ([.pushed true, .pushed true, .popped (some sample_A)], queue_s1) ∧
    ∃ q2, queue_run (sensor_queue_close queue_s1) [.pop 0.2, .pop (-1)] =
      .returns ([.popped (some sample_B), .popped none], q2) :=
  ⟨rfl, closed_queue_drains_then_fails queue_s1 [0.2] [-1]
    (by simp [queue_wf, queue_s1]) rfl⟩

/-! ## Theorems: string builder and number formats -/

theorem sb_append_indent_eq (sb : StringBuilder) (n : Int) :
    sb_append_indent sb n = sb ++ List.replicate n.toNat ' ' := by
  unfold sb_append_indent
  split
  · have : n.toNat = 0 := by omega
    simp [this]
  · rfl

theorem sb_append_json_char_eq (sb : StringBuilder) (c : Char) :
    sb_append_json_char sb c = sb ++ json_escape_char c := by
  unfold json_escape_char sb_append_json_char
  split_ifs <;> simp [sb_append, sb_append_format]

theorem foldl_json_char_eq (v : List Char) (sb : StringBuilder) :
    v.foldl sb_append_json_char sb = sb ++ json_escape v := by
  induction v generalizing sb with
  | nil => simp [json_escape]
  | cons c rest ih =>
    simp only [List.foldl_cons, ih, sb_append_json_char_eq, json_escape, List.append_assoc]

theorem sb_append_json_string_eq (sb : StringBuilder) (v : List Char) :
    sb_append_json_string sb v = sb ++ json_quote v := by
  simp [sb_append_json_string, sb_append, foldl_json_char_eq, json_quote]

theorem json_escape_char_plain (c : Char) (h : no_escape c) : json_escape_char c = [c] := by
  obtain ⟨h1, h2, h3⟩ := h
  have h4 : c ≠ '\n' := by rintro rfl; revert h3; decide
  have h5 : c ≠ '\r' := by rintro rfl; revert h3; decide
  have h6 : c ≠ '\t' := by rintro rfl; revert h3; decide
  have h7 : ¬ c.toNat < 0x20 := by omega
  simp [json_escape_char, sb_append_json_char, h1, h2, h4, h5, h6, h7]

theorem json_escape_plain (v : List Char) (h : ∀ c ∈ v, no_escape c) : json_escape v = v := by
  induction v with
  | nil => rfl
  | cons c rest ih =>
    simp only [json_escape, json_escape_char_plain c (h c (by simp)),
      ih (fun d hd => h d (by simp [hd])), List.singleton_append]

theorem digitChar_no_escape (d : Nat) (h : d < 16) : no_escape (Nat.digitChar d) := by
  interval_cases d <;> (unfold no_escape; decide)

theorem toDigitsCore_no_escape (base : Nat) (hb : base ≤ 16) (hb0 : 0 < base) (fuel : Nat) :
    ∀ (n : Nat) (ds : List Char), (∀ c ∈ ds, no_escape c) →
      ∀ c ∈ Nat.toDigitsCore base fuel n ds, no_escape c := by
  induction fuel with
  | zero => intro n ds hds c hc; exact hds c (by simpa [Nat.toDigitsCore] using hc)
  | succ f ih =>
    intro n ds hds c hc
    have hd : no_escape (Nat.digitChar (n % base)) :=
      digitChar_no_escape _ (lt_of_lt_of_le (Nat.mod_lt _ hb0) hb)
    have hds2 : ∀ c ∈ Nat.digitChar (n % base) :: ds, no_escape c := by
      intro c hc
      rcases List.mem_cons.mp hc with rfl | hc
      · exact hd
      · exact hds c hc
    simp only [Nat.toDigitsCore] at hc
    split at hc
    · exact hds2 c hc
    · exact ih _ _ hds2 c hc

theorem toDigits_no_escape (base : Nat) (hb : base ≤ 16) (hb0 : 0 < base) (n : Nat) :
    ∀ c ∈ Nat.toDigits base n, no_escape c :=
  toDigitsCore_no_escape base hb hb0 _ n [] (by simp)

theorem pad_left_no_escape (width : Nat) (s : List Char) (h : ∀ c ∈ s, no_escape c) :
    ∀ c ∈ pad_left width '0' s, no_escape c := by
  intro c hc
  simp only [pad_left, List.mem_append, List.mem_replicate] at hc
  rcases hc with ⟨_, rfl⟩ | hc
  · unfold no_escape; decide
  · exact h c hc

theorem format_int_pad_no_escape (width : Nat) (n : Int) :
    ∀ c ∈ format_int_pad width n, no_escape c := by
  intro c hc
  unfold format_int_pad at hc
  split at hc
  · rcases List.mem_cons.mp hc with rfl | hc
    · unfold no_escape; decide
    · exact pad_left_no_escape _ _ (toDigits_no_escape 10 (by decide) (by decide) _) c hc
  · exact pad_left_no_escape _ _ (toDigits_no_escape 10 (by decide) (by decide) _) c hc

theorem isoformat_utc_no_escape (t : Double) (len : Nat) :
    ∀ c ∈ isoformat_utc t len, no_escape c := by
  intro c hc
  have hc2 := List.mem_of_mem_take hc
  simp only [List.mem_append, List.mem_cons, List.mem_singleton, List.not_mem_nil,
    or_false, or_assoc] at hc2
  rcases hc2 with h | h | h | h | h | h | h | h | h | h | h | h | h | h
  all_goals first
    | exact format_int_pad_no_escape _ _ _ h
    | (subst h; unfold no_escape; decide)

theorem json_quote_isoformat (t : Double) (len : Nat) :
    json_quote (isoformat_utc t len) = '"' :: isoformat_utc t len ++ ['"'] := by
  rw [json_quote, json_escape_plain _ (isoformat_utc_no_escape t len)]

/-! ## Theorems: the encoder only appends -/

theorem sb_append_indent_text (sb : StringBuilder) (n : Int) :
    sb_append_indent sb n = sb ++ indent_text n := sb_append_indent_eq sb n

theorem append_mpu_payload_eq (sb : StringBuilder) (msg : SensorMessage) (indent : Int) :
    append_mpu_payload sb msg indent = sb ++ mpu_text msg indent := by
  unfold mpu_text append_mpu_payload
  simp only [sb_append, sb_append_indent_text, sb_append_json_string_eq, sb_append_format,
    List.foldl, FormatItem.render]
  split <;> simp only [List.append_assoc, List.nil_append]

theorem append_bmp_payload_eq (sb : StringBuilder) (msg : SensorMessage) (indent : Int) :
    append_bmp_payload sb msg indent = sb ++ bmp_text msg indent := by
  unfold bmp_text append_bmp_payload
  simp only [sb_append, sb_append_indent_text, sb_append_json_string_eq, sb_append_format,
    List.foldl, FormatItem.render]
  split_ifs <;> simp only [List.append_assoc, List.nil_append, List.append_nil]

theorem append_gps_payload_parts (sb : StringBuilder) (msg : SensorMessage) (indent : Int) :
    append_gps_payload sb msg indent =
      object_close indent (dummy_part msg.data.gps.dummy indent
        (gps_raw_part msg.data.gps indent (gps_fix_time_part msg.data.gps indent
          (gps_altitude_part msg.data.gps indent (gps_longitude_part msg.data.gps indent
            (gps_latitude_part msg.data.gps indent (object_open msg indent sb))))))) := rfl

theorem append_bmp_payload_parts (sb : StringBuilder) (msg : SensorMessage) (indent : Int) :
    append_bmp_payload sb msg indent =
      object_close indent (dummy_part msg.data.bmp.dummy indent
        (bmp_raw_part msg.data.bmp indent (object_open msg indent sb))) := rfl

theorem object_open_eq (msg : SensorMessage) (indent : Int) (sb : StringBuilder) :
    object_open msg indent sb =
      sb ++ ("\x7b\n".toList ++ (indent_text (indent + 2) ++ ("\"timestamp\": ".toList ++
        ('"' :: isoformat_utc msg.timestamp 64 ++ ['"'])))) := by
  simp only [object_open, sb_append, sb_append_indent_text, sb_append_json_string_eq,
    json_quote_isoformat, List.append_assoc]

theorem object_close_eq (indent : Int) (sb : StringBuilder) :
    object_close indent sb = sb ++ ("\n".toList ++ (indent_text indent ++ "\x7d".toList)) := by
  simp only [object_close, sb_append, sb_append_indent_text, List.append_assoc]

theorem dummy_part_eq (dummy : Bool) (indent : Int) (sb : StringBuilder) :
    dummy_part dummy indent sb =
      sb ++ (if dummy then
        ",\n".toList ++ (indent_text (indent + 2) ++ "\"dummy\": true".toList) else []) := by
  unfold dummy_part
  split <;>
    simp only [sb_append, sb_append_indent_text, List.append_assoc, List.append_nil]

theorem gps_latitude_part_eq (gps : GpsData) (indent : Int) (sb : StringBuilder) :
    gps_latitude_part gps indent sb =
      sb ++ (if gps.has_latitude then
        ",\n".toList ++ (indent_text (indent + 2) ++ ("\"latitude\": ".toList ++
          format_fixed 6 gps.latitude)) else []) := by
  unfold gps_latitude_part
  split <;>
    simp only [sb_append, sb_append_indent_text, sb_append_format, List.foldl,
      FormatItem.render, List.append_assoc, List.append_nil]

theorem gps_longitude_part_eq (gps : GpsData) (indent : Int) (sb : StringBuilder) :
    gps_longitude_part gps indent sb =
      sb ++ (if gps.has_longitude then
        ",\n".toList ++ (indent_text (indent + 2) ++ ("\"longitude\": ".toList ++
          format_fixed 6 gps.longitude)) else []) := by
  unfold gps_longitude_part
  split <;>
    simp only [sb_append, sb_append_indent_text, sb_append_format, List.foldl,
      FormatItem.render, List.append_assoc, List.append_nil]

theorem gps_altitude_part_eq (gps : GpsData) (indent : Int) (sb : StringBuilder) :
    gps_altitude_part gps indent sb =
      sb ++ (if gps.has_altitude then
        ",\n".toList ++ (indent_text (indent + 2) ++ ("\"altitude\": ".toList ++
          format_fixed 1 gps.altitude)) else []) := by
  unfold gps_altitude_part
  split <;>
    simp only [sb_append, sb_append_indent_text, sb_append_format, List.foldl,
      FormatItem.render, List.append_assoc, List.append_nil]

theorem gps_fix_time_part_eq (gps : GpsData) (indent : Int) (sb : StringBuilder) :
    gps_fix_time_part gps indent sb =
      sb ++ (if gps.has_fix_time then
        ",\n".toList ++ (indent_text (indent + 2) ++ ("\"fix_time\": ".toList ++
          json_quote gps.fix_time)) else []) := by
  unfold gps_fix_time_part
  split <;>
    simp only [sb_append, sb_append_indent_text, sb_append_json_string_eq,
      List.append_assoc, List.append_nil]

theorem gps_raw_part_eq (gps : GpsData) (indent : Int) (sb : StringBuilder) :
    gps_raw_part gps indent sb =
      sb ++ (if gps.has_raw then
        ",\n".toList ++ (indent_text (indent + 2) ++ ("\"raw\": ".toList ++
          json_quote gps.raw)) else []) := by
  unfold gps_raw_part
  split <;>
    simp only [sb_append, sb_append_indent_text, sb_append_json_string_eq,
      List.append_assoc, List.append_nil]

theorem bmp_raw_part_eq (bmp : BmpData) (indent : Int) (sb : StringBuilder) :
    bmp_raw_part bmp indent sb =
      sb ++ (if bmp.has_raw then
          ",\n".toList ++ (indent_text (indent + 2) ++ ("\"raw\": ".toList ++
            json_quote bmp.raw))
        else if bmp.has_temperature || bmp.has_pressure then
          ",\n".toList ++ (indent_text (indent + 2) ++ ("\"raw\": \x7b\"T\": ".toList ++
            ((if bmp.has_temperature then format_fixed 2 bmp.temperature else "null".toList) ++
              (", \"P\": ".toList ++
                ((if bmp.has_pressure then format_fixed 2 bmp.pressure else "null".toList) ++
                  "\x7d".toList)))))
        else []) := by
  unfold bmp_raw_part
  split
  · simp only [sb_append, sb_append_indent_text, sb_append_json_string_eq, List.append_assoc]
  · split
    · split <;> split <;>
        simp only [sb_append, sb_append_indent_text, sb_append_format, List.foldl,
          FormatItem.render, List.append_assoc]
    · simp only [List.append_nil]

theorem gps_text_eq (msg : SensorMessage) (indent : Int) :
    gps_text msg indent =
      "\x7b\n".toList ++ (indent_text (indent + 2) ++ ("\"timestamp\": ".toList ++
        ('"' :: isoformat_utc msg.timestamp 64 ++ ['"']))) ++
      (if msg.data.gps.has_latitude then
        ",\n".toList ++ (indent_text (indent + 2) ++ ("\"latitude\": ".toList ++
          format_fixed 6 msg.data.gps.latitude)) else []) ++
      (if msg.data.gps.has_longitude then
        ",\n".toList ++ (indent_text (indent + 2) ++ ("\"longitude\": ".toList ++
          format_fixed 6 msg.data.gps.longitude)) else []) ++
      (if msg.data.gps.has_altitude then
        ",\n".toList ++ (indent_text (indent + 2) ++ ("\"altitude\": ".toList ++
          format_fixed 1 msg.data.gps.altitude)) else []) ++
      (if msg.data.gps.has_fix_time then
        ",\n".toList ++ (indent_text (indent + 2) ++ ("\"fix_time\": ".toList ++
          json_quote msg.data.gps.fix_time)) else []) ++
      (if msg.data.gps.has_raw then
        ",\n".toList ++ (indent_text (indent + 2) ++ ("\"raw\": ".toList ++
          json_quote msg.data.gps.raw)) else []) ++
      (if msg.data.gps.dummy then
        ",\n".toList ++ (indent_text (indent + 2) ++ "\"dummy\": true".toList) else []) ++
      ("\n".toList ++ (indent_text indent ++ "\x7d".toList)) := by
  rw [gps_text, append_gps_payload_parts, object_close_eq, dummy_part_eq, gps_raw_part_eq,
    gps_fix_time_part_eq, gps_altitude_part_eq, gps_longitude_part_eq, gps_latitude_part_eq,
    object_open_eq, List.nil_append]

theorem bmp_text_eq (msg : SensorMessage) (indent : Int) :
    bmp_text msg indent =
      "\x7b\n".toList ++ (indent_text (indent + 2) ++ ("\"timestamp\": ".toList ++
        ('"' :: isoformat_utc msg.timestamp 64 ++ ['"']))) ++
      (if msg.data.bmp.has_raw then
          ",\n".toList ++ (indent_text (indent + 2) ++ ("\"raw\": ".toList ++
            json_quote msg.data.bmp.raw))
        else if msg.data.bmp.has_temperature || msg.data.bmp.has_pressure then
          ",\n".toList ++ (indent_text (indent + 2) ++ ("\"raw\": \x7b\"T\": ".toList ++
            ((if msg.data.bmp.has_temperature then format_fixed 2 msg.data.bmp.temperature
              else "null".toList) ++
              (", \"P\": ".toList ++
                ((if msg.data.bmp.has_pressure then format_fixed 2 msg.data.bmp.pressure
                  else "null".toList) ++
                  "\x7d".toList)))))
        else []) ++
      (if msg.data.bmp.dummy then
        ",\n".toList ++ (indent_text (indent + 2) ++ "\"dummy\": true".toList) else []) ++
      ("\n".toList ++ (indent_text indent ++ "\x7d".toList)) := by
  rw [bmp_text, append_bmp_payload_parts, object_close_eq, dummy_part_eq, bmp_raw_part_eq,
    object_open_eq, List.nil_append]

theorem mpu_text_eq (msg : SensorMessage) (indent : Int) :
    mpu_text msg indent =
      "\x7b\n".toList ++ (indent_text (indent + 2) ++ ("\"timestamp\": ".toList ++
        ('"' :: isoformat_utc msg.timestamp 64 ++ ['"']))) ++
      (",\n".toList ++ (indent_text (indent + 2) ++ ("\"accel_g\": \x7b\"x\": ".toList ++
        (format_fixed 4 msg.data.mpu.ax ++ (", \"y\": ".toList ++
          (format_fixed 4 msg.data.mpu.ay ++ (", \"z\": ".toList ++
            (format_fixed 4 msg.data.mpu.az ++ "\x7d".toList)))))))) ++
      (",\n".toList ++ (indent_text (indent + 2) ++ ("\"gyro_dps\": \x7b\"x\": ".toList ++
        (format_fixed 3 msg.data.mpu.gx ++ (", \"y\": ".toList ++
          (format_fixed 3 msg.data.mpu.gy ++ (", \"z\": ".toList ++
            (format_fixed 3 msg.data.mpu.gz ++ "\x7d".toList)))))))) ++
      (",\n".toList ++ (indent_text (indent + 2) ++
        ("\"attitude_deg\": \x7b\"pitch\": ".toList ++
        (format_fixed 2 msg.data.mpu.pitch ++ (", \"roll\": ".toList ++
          (format_fixed 2 msg.data.mpu.roll ++ (", \"yaw\": ".toList ++
            (format_fixed 2 msg.data.mpu.yaw ++ "\x7d".toList)))))))) ++
      (if msg.data.mpu.dummy then
        ",\n".toList ++ (indent_text (indent + 2) ++ "\"dummy\": true\n".toList)
        else "\n".toList) ++
      (indent_text indent ++ "\x7d".toList) := by
  unfold mpu_text append_mpu_payload
  simp only [sb_append, sb_append_indent_text, sb_append_json_string_eq,
    json_quote_isoformat, sb_append_format, List.foldl, FormatItem.render]
  split <;> simp only [List.append_assoc, List.nil_append]

theorem append_gps_payload_eq (sb : StringBuilder) (msg : SensorMessage) (indent : Int) :
    append_gps_payload sb msg indent = sb ++ gps_text msg indent := by
  rw [gps_text, append_gps_payload_parts, append_gps_payload_parts]
  simp only [object_close_eq, dummy_part_eq, gps_raw_part_eq, gps_fix_time_part_eq,
    gps_altitude_part_eq, gps_longitude_part_eq, gps_latitude_part_eq, object_open_eq,
    List.nil_append, List.append_assoc]
theorem build_payload_entry_eq (state : AggregatorState) (sb : StringBuilder) (idx : Nat)
    (sensor : SensorType) :
    build_payload_entry state sb idx sensor = sb ++ entry_text state idx sensor := by
  unfold entry_text build_payload_entry
  simp only [sb_append, sb_append_indent_text]
  cases sensor <;> split_ifs <;>
    simp only [append_mpu_payload_eq _ _ 6, append_bmp_payload_eq _ _ 6,
      append_gps_payload_eq _ _ 6, List.append_assoc, List.nil_append]

theorem build_payload_loop_eq (state : AggregatorState) (sensors : List SensorType)
    (sb : StringBuilder) (idx : Nat) :
    build_payload_loop state sb idx sensors = sb ++ loop_text state idx sensors := by
  induction sensors generalizing sb idx with
  | nil => simp [build_payload_loop, loop_text]
  | cons s rest ih =>
    unfold loop_text
    simp only [build_payload_loop]
    rw [ih, ih (build_payload_entry state [] idx s), build_payload_entry_eq state sb,
      List.append_assoc]
    rfl

theorem loop_text_cons (state : AggregatorState) (idx : Nat) (s : SensorType)
    (rest : List SensorType) :
    loop_text state idx (s :: rest) = entry_text state idx s ++ loop_text state (idx + 1) rest := by
  unfold loop_text
  simp only [build_payload_loop]
  rw [build_payload_loop_eq]
  rfl

theorem build_payload_json_eq (state : AggregatorState) (reported_at : Double) :
    build_payload_json state reported_at =
      payload_head reported_at ++ (loop_text state 0 state.config.expected_sensors ++
        "  \x7d\n\x7d\n".toList) := by
  unfold build_payload_json payload_head
  simp only [sb_finalize, sb_append, sb_append_json_string_eq, build_payload_loop_eq,
    json_quote_isoformat, List.nil_append, List.append_assoc, List.cons_append,
    List.singleton_append]
  rfl

/-! ## Theorems: the aggregator thread -/

theorem scan_from_append (s : KeyScan) (a b : List Char) :
    scan_from s (a ++ b) = scan_from (scan_from s a) b := by
  simp [scan_from, List.foldl_append]

theorem scans_append (a b : List Char) (d d1 d2 : Nat) (add1 add2 : List (Nat × List Char))
    (ha : scans a d d1 add1) (hb : scans b d1 d2 add2) :
    scans (a ++ b) d d2 (add2 ++ add1) := by
  intro last keys
  obtain ⟨l1, h1⟩ := ha last keys
  obtain ⟨l2, h2⟩ := hb l1 (add1 ++ keys)
  exact ⟨l2, by rw [scan_from_append, h1, h2, List.append_assoc]⟩

theorem scans_nil (d : Nat) : scans [] d d [] := fun last _ => ⟨last, rfl⟩

@[simp] theorem step_out_quote (d : Nat) (l : Option (List Char))
    (ks : List (Nat × List Char)) :
    key_scan_step (KeyScan.outside d l ks) '"' = KeyScan.inside d [] none ks := rfl

@[simp] theorem step_out_open (d : Nat) (l : Option (List Char))
    (ks : List (Nat × List Char)) :
    key_scan_step (KeyScan.outside d l ks) '\x7b' = KeyScan.outside (d + 1) none ks := rfl

@[simp] theorem step_out_close (d : Nat) (l : Option (List Char))
    (ks : List (Nat × List Char)) :
    key_scan_step (KeyScan.outside d l ks) '\x7d' = KeyScan.outside (d - 1) none ks := rfl

@[simp] theorem step_out_colon (d : Nat) (k : List Char) (ks : List (Nat × List Char)) :
    key_scan_step (KeyScan.outside d (some k) ks) ':' =
      KeyScan.outside d none ((d, k) :: ks) := rfl

@[simp] theorem step_out_space (d : Nat) (l : Option (List Char))
    (ks : List (Nat × List Char)) :
    key_scan_step (KeyScan.outside d l ks) ' ' = KeyScan.outside d l ks := rfl

@[simp] theorem step_out_newline (d : Nat) (l : Option (List Char))
    (ks : List (Nat × List Char)) :
    key_scan_step (KeyScan.outside d l ks) '\n' = KeyScan.outside d l ks := rfl

@[simp] theorem step_out_other (d : Nat) (l : Option (List Char))
    (ks : List (Nat × List Char)) (c : Char) (h : token_char c ∧ c ≠ ' ' ∧ c ≠ '\n') :
    key_scan_step (KeyScan.outside d l ks) c = KeyScan.outside d none ks := by
  obtain ⟨⟨h1, h2, h3, h4⟩, h5, h6⟩ := h
  simp [key_scan_step, KeyScan.outside, h1, h2, h3, h4, h5, h6]

@[simp] theorem step_in_plain (d : Nat) (cur : List Char) (l : Option (List Char))
    (ks : List (Nat × List Char)) (c : Char) (h : string_char c) :
    key_scan_step (KeyScan.inside d cur l ks) c = KeyScan.inside d (c :: cur) l ks := by
  simp [key_scan_step, KeyScan.inside, h.1, h.2]

@[simp] theorem step_in_quote (d : Nat) (cur : List Char) (l : Option (List Char))
    (ks : List (Nat × List Char)) :
    key_scan_step (KeyScan.inside d cur l ks) '"' =
      KeyScan.outside d (some cur.reverse) ks := rfl

@[simp] theorem step_in_backslash (d : Nat) (cur : List Char) (l : Option (List Char))
    (ks : List (Nat × List Char)) :
    key_scan_step (KeyScan.inside d cur l ks) '\\' =
      KeyScan.after_backslash d ('\\' :: cur) l ks := rfl

@[simp] theorem step_after_backslash (d : Nat) (cur : List Char) (l : Option (List Char))
    (ks : List (Nat × List Char)) (c : Char) :
    key_scan_step (KeyScan.after_backslash d cur l ks) c = KeyScan.inside d (c :: cur) l ks :=
  rfl

theorem step_out_token (d : Nat) (l : Option (List Char)) (ks : List (Nat × List Char))
    (c : Char) (h : token_char c) :
    ∃ l2, key_scan_step (KeyScan.outside d l ks) c = KeyScan.outside d l2 ks := by
  by_cases h1 : c = ' '
  · exact ⟨l, by rw [h1, step_out_space]⟩
  by_cases h2 : c = '\n'
  · exact ⟨l, by rw [h2, step_out_newline]⟩
  exact ⟨none, step_out_other d l ks c ⟨h, h1, h2⟩⟩

theorem scans_tokens (t : List Char) (d : Nat) (h : ∀ c ∈ t, token_char c) :
    scans t d d [] := by
  induction t with
  | nil => exact scans_nil d
  | cons c rest ih =>
    intro l ks
    obtain ⟨l1, h1⟩ := step_out_token d l ks c (h c (by simp))
    obtain ⟨l2, h2⟩ := ih (fun x hx => h x (by simp [hx])) l1 ks
    refine ⟨l2, ?_⟩
    have : scan_from (KeyScan.outside d l ks) (c :: rest) =
        scan_from (key_scan_step (KeyScan.outside d l ks) c) rest := rfl
    rw [this, h1, h2]

theorem scan_inside_plain (t : List Char) (d : Nat) (l : Option (List Char))
    (ks : List (Nat × List Char)) (h : ∀ c ∈ t, string_char c) (cur : List Char) :
    scan_from (KeyScan.inside d cur l ks) t = KeyScan.inside d (t.reverse ++ cur) l ks := by
  induction t generalizing cur with
  | nil => rfl
  | cons c rest ih =>
    have : scan_from (KeyScan.inside d cur l ks) (c :: rest) =
        scan_from (key_scan_step (KeyScan.inside d cur l ks) c) rest := rfl
    rw [this, step_in_plain d cur l ks c (h c (by simp)), ih (fun x hx => h x (by simp [hx]))]
    simp

theorem no_escape_string_char (c : Char) (h : no_escape c) : string_char c := ⟨h.1, h.2.1⟩

theorem format_hex4_string_char (n : Nat) : ∀ c ∈ format_hex4 n, string_char c := by
  intro c hc
  exact no_escape_string_char c
    (pad_left_no_escape 4 _ (toDigits_no_escape 16 (by decide) (by decide) n) c hc)

theorem scan_inside_escape_char (c : Char) (d : Nat) (l : Option (List Char))
    (ks : List (Nat × List Char)) (cur : List Char) :
    scan_from (KeyScan.inside d cur l ks) (json_escape_char c) =
      KeyScan.inside d ((json_escape_char c).reverse ++ cur) l ks := by
  unfold json_escape_char sb_append_json_char
  split_ifs with h1 h2 h3 h4 h5 h6
  · simp [scan_from, sb_append]
  · simp [scan_from, sb_append]
  · simp [scan_from, sb_append]
  · simp [scan_from, sb_append]
  · simp [scan_from, sb_append]
  · have e : sb_append_format [] [.lit "\\u", .hex4 c.toNat] =
        '\\' :: 'u' :: format_hex4 c.toNat := by
      simp [sb_append_format, FormatItem.render]
    rw [e]
    have : scan_from (KeyScan.inside d cur l ks) ('\\' :: 'u' :: format_hex4 c.toNat) =
        scan_from (KeyScan.inside d ('u' :: '\\' :: cur) l ks) (format_hex4 c.toNat) := rfl
    rw [this, scan_inside_plain _ d l ks (format_hex4_string_char _)]
    simp
  · have : scan_from (KeyScan.inside d cur l ks) ([] ++ [c]) =
        key_scan_step (KeyScan.inside d cur l ks) c := rfl
    rw [this, step_in_plain d cur l ks c ⟨h1, h2⟩]
    simp

theorem scan_inside_escape (v : List Char) (d : Nat) (l : Option (List Char))
    (ks : List (Nat × List Char)) (cur : List Char) :
    scan_from (KeyScan.inside d cur l ks) (json_escape v) =
      KeyScan.inside d ((json_escape v).reverse ++ cur) l ks := by
  induction v generalizing cur with
  | nil => rfl
  | cons c rest ih =>
    simp only [json_escape, scan_from_append, scan_inside_escape_char, ih,
      List.reverse_append, List.append_assoc]

theorem scans_quote (v : List Char) (d : Nat) : scans (json_quote v) d d [] := by
  intro l ks
  refine ⟨some (json_escape v), ?_⟩
  have : scan_from (KeyScan.outside d l ks) (json_quote v) =
      scan_from (scan_from (KeyScan.inside d [] none ks) (json_escape v)) ['"'] := by
    rw [json_quote, ← scan_from_append]
    rfl
  rw [this, scan_inside_escape]
  simp [scan_from]

theorem scans_isoformat (t : Double) (len d : Nat) :
    scans ('"' :: isoformat_utc t len ++ ['"']) d d [] := by
  rw [← json_quote_isoformat]
  exact scans_quote _ d

theorem toDigitsCore_all (P : Char → Prop) (base : Nat)
    (hP : ∀ n, P (Nat.digitChar (n % base))) (fuel : Nat) :
    ∀ (n : Nat) (ds : List Char), (∀ c ∈ ds, P c) →
      ∀ c ∈ Nat.toDigitsCore base fuel n ds, P c := by
  induction fuel with
  | zero => intro n ds hds c hc; exact hds c (by simpa [Nat.toDigitsCore] using hc)
  | succ f ih =>
    intro n ds hds c hc
    have hds2 : ∀ c ∈ Nat.digitChar (n % base) :: ds, P c := by
      intro c hc
      rcases List.mem_cons.mp hc with rfl | hc
      · exact hP n
      · exact hds c hc
    simp only [Nat.toDigitsCore] at hc
    split at hc
    · exact hds2 c hc
    · exact ih _ _ hds2 c hc

theorem digitChar_token (d : Nat) (h : d < 10) : token_char (Nat.digitChar d) := by
  interval_cases d <;> decide

theorem toDigits_token (n : Nat) : ∀ c ∈ Nat.toDigits 10 n, token_char c :=
  toDigitsCore_all token_char 10 (fun n => digitChar_token _ (Nat.mod_lt _ (by decide)))
    _ n [] (by simp)

theorem format_fixed_token (prec : Nat) (x : Double) :
    ∀ c ∈ format_fixed prec x, token_char c := by
  intro c hc
  simp only [format_fixed, List.mem_append] at hc
  rcases hc with (hc | hc) | hc
  · split at hc
    · rw [List.mem_singleton.mp hc]; decide
    · simp at hc
  · exact toDigits_token _ c hc
  · split at hc
    · simp at hc
    · rcases List.mem_cons.mp hc with rfl | hc
      · decide
      · simp only [pad_left, List.mem_append, List.mem_replicate] at hc
        rcases hc with ⟨_, rfl⟩ | hc
        · decide
        · exact toDigits_token _ c hc

theorem scans_fixed (prec : Nat) (x : Double) (d : Nat) : scans (format_fixed prec x) d d [] :=
  scans_tokens _ d (format_fixed_token prec x)

theorem scans_indent (n : Int) (d : Nat) : scans (indent_text n) d d [] := by
  apply scans_tokens
  intro c hc
  rw [(List.mem_replicate.mp hc).2]
  decide

theorem scans_ite (c : Prop) [Decidable c] (a b : List Char) (d d2 : Nat)
    (add1 add2 : List (Nat × List Char)) (ha : scans a d d2 add1) (hb : scans b d d2 add2) :
    scans (if c then a else b) d d2 (if c then add1 else add2) := by
  split
  · exact ha
  · exact hb

theorem scans_of_eq (t : List Char) (d d2 : Nat) (add add2 : List (Nat × List Char))
    (h : scans t d d2 add) (e : add = add2) : scans t d d2 add2 := e ▸ h

theorem scans_comma_newline (d : Nat) : scans ",\n".toList d d [] :=
  scans_tokens _ d (by decide)

theorem scans_newline (d : Nat) : scans "\n".toList d d [] :=
  scans_tokens _ d (by decide)

theorem scans_null (d : Nat) : scans "null".toList d d [] :=
  scans_tokens _ d (by decide)

theorem scans_open_newline (d : Nat) : scans "\x7b\n".toList d (d + 1) [] := by
  intro l ks
  exact ⟨none, by simp (disch := decide) [scan_from, String.toList]⟩

theorem scans_close (d : Nat) : scans "\x7d".toList (d + 1) d [] := by
  intro l ks
  exact ⟨none, by simp (disch := decide) [scan_from, String.toList]⟩

theorem scans_key_timestamp (d : Nat) :
    scans "\"timestamp\": ".toList d d [(d, "timestamp".toList)] := by
  intro l ks
  exact ⟨none, by simp (disch := decide) [scan_from, String.toList]⟩

theorem scans_key_accel (d : Nat) :
    scans "\"accel_g\": \x7b\"x\": ".toList d (d + 1)
      [(d + 1, "x".toList), (d, "accel_g".toList)] := by
  intro l ks
  exact ⟨none, by simp (disch := decide) [scan_from, String.toList]⟩

theorem scans_key_gyro (d : Nat) :
    scans "\"gyro_dps\": \x7b\"x\": ".toList d (d + 1)
      [(d + 1, "x".toList), (d, "gyro_dps".toList)] := by
  intro l ks
  exact ⟨none, by simp (disch := decide) [scan_from, String.toList]⟩

theorem scans_key_attitude (d : Nat) :
    scans "\"attitude_deg\": \x7b\"pitch\": ".toList d (d + 1)
      [(d + 1, "pitch".toList), (d, "attitude_deg".toList)] := by
  intro l ks
  exact ⟨none, by simp (disch := decide) [scan_from, String.toList]⟩

theorem scans_key_y (d : Nat) : scans ", \"y\": ".toList d d [(d, "y".toList)] := by
  intro l ks
  exact ⟨none, by simp (disch := decide) [scan_from, String.toList]⟩

theorem scans_key_z (d : Nat) : scans ", \"z\": ".toList d d [(d, "z".toList)] := by
  intro l ks
  exact ⟨none, by simp (disch := decide) [scan_from, String.toList]⟩

theorem scans_key_roll (d : Nat) : scans ", \"roll\": ".toList d d [(d, "roll".toList)] := by
  intro l ks
  exact ⟨none, by simp (disch := decide) [scan_from, String.toList]⟩

theorem scans_key_yaw (d : Nat) : scans ", \"yaw\": ".toList d d [(d, "yaw".toList)] := by
  intro l ks
  exact ⟨none, by simp (disch := decide) [scan_from, String.toList]⟩

theorem scans_key_dummy_newline (d : Nat) :
    scans "\"dummy\": true\n".toList d d [(d, "dummy".toList)] := by
  intro l ks
  exact ⟨none, by simp (disch := decide) [scan_from, String.toList]⟩

theorem scans_key_dummy (d : Nat) :
    scans "\"dummy\": true".toList d d [(d, "dummy".toList)] := by
  intro l ks
  exact ⟨none, by simp (disch := decide) [scan_from, String.toList]⟩

theorem scans_key_raw (d : Nat) : scans "\"raw\": ".toList d d [(d, "raw".toList)] := by
  intro l ks
  exact ⟨none, by simp (disch := decide) [scan_from, String.toList]⟩

theorem scans_key_raw_T (d : Nat) :
    scans "\"raw\": \x7b\"T\": ".toList d (d + 1) [(d + 1, "T".toList), (d, "raw".toList)] := by
  intro l ks
  exact ⟨none, by simp (disch := decide) [scan_from, String.toList]⟩

theorem scans_key_P (d : Nat) : scans ", \"P\": ".toList d d [(d, "P".toList)] := by
  intro l ks
  exact ⟨none, by simp (disch := decide) [scan_from, String.toList]⟩

theorem scans_key_latitude (d : Nat) :
    scans "\"latitude\": ".toList d d [(d, "latitude".toList)] := by
  intro l ks
  exact ⟨none, by simp (disch := decide) [scan_from, String.toList]⟩

theorem scans_key_longitude (d : Nat) :
    scans "\"longitude\": ".toList d d [(d, "longitude".toList)] := by
  intro l ks
  exact ⟨none, by simp (disch := decide) [scan_from, String.toList]⟩

theorem scans_key_altitude (d : Nat) :
    scans "\"altitude\": ".toList d d [(d, "altitude".toList)] := by
  intro l ks
  exact ⟨none, by simp (disch := decide) [scan_from, String.toList]⟩

theorem scans_key_fix_time (d : Nat) :
    scans "\"fix_time\": ".toList d d [(d, "fix_time".toList)] := by
  intro l ks
  exact ⟨none, by simp (disch := decide) [scan_from, String.toList]⟩

theorem scans_mpu_text (msg : SensorMessage) (indent : Int) (d : Nat) :
    ∃ add, scans (mpu_text msg indent) d d add ∧
      (add.reverse.filter (fun k => k.1 = d + 1)).map (fun k => String.mk k.2) =
        ["timestamp", "accel_g", "gyro_dps", "attitude_deg"] ++
          (if msg.data.mpu.dummy then ["dummy"] else []) ∧
      ∀ k ∈ add, d < k.1 := by
  rw [mpu_text_eq]
  apply Exists.intro
  refine And.intro ?hs (And.intro ?h2 ?h3)
  case hs =>
    repeat' with_reducible first
        | exact scans_indent _ _
        | exact scans_fixed _ _ _
        | exact scans_isoformat _ _ _
        | exact scans_comma_newline _
        | exact scans_newline _
        | exact scans_open_newline _
        | exact scans_close _
        | exact scans_key_timestamp _
        | exact scans_key_accel _
        | exact scans_key_gyro _
        | exact scans_key_attitude _
        | exact scans_key_y _
        | exact scans_key_z _
        | exact scans_key_roll _
        | exact scans_key_yaw _
        | exact scans_key_dummy_newline _
        | apply scans_ite
        | apply scans_append
  case h2 =>
    cases msg.data.mpu.dummy <;> simp
  case h3 =>
    cases msg.data.mpu.dummy <;> simp <;> omega

theorem scans_bmp_text (msg : SensorMessage) (indent : Int) (d : Nat) :
    ∃ add, scans (bmp_text msg indent) d d add ∧ ∀ k ∈ add, d < k.1 := by
  rw [bmp_text_eq]
  apply Exists.intro
  refine And.intro ?hs ?h3
  case hs =>
    repeat' with_reducible first
        | exact scans_indent _ _
        | exact scans_fixed _ _ _
        | exact scans_isoformat _ _ _
        | exact scans_quote _ _
        | exact scans_nil _
        | exact scans_comma_newline _
        | exact scans_newline _
        | exact scans_null _
        | exact scans_open_newline _
        | exact scans_close _
        | exact scans_key_timestamp _
        | exact scans_key_raw _
        | exact scans_key_raw_T _
        | exact scans_key_P _
        | exact scans_key_dummy _
        | apply scans_ite
        | apply scans_append
  case h3 =>
    cases msg.data.bmp.has_raw <;> cases msg.data.bmp.has_temperature <;>
      cases msg.data.bmp.has_pressure <;> cases msg.data.bmp.dummy <;> simp <;> omega

theorem scans_gps_text (msg : SensorMessage) (indent : Int) (d : Nat) :
    ∃ add, scans (gps_text msg indent) d d add ∧ ∀ k ∈ add, d < k.1 := by
  rw [gps_text_eq]
  apply Exists.intro
  refine And.intro ?hs ?h3
  case hs =>
    repeat' with_reducible first
        | exact scans_indent _ _
        | exact scans_fixed _ _ _
        | exact scans_isoformat _ _ _
        | exact scans_quote _ _
        | exact scans_nil _
        | exact scans_comma_newline _
        | exact scans_newline _
        | exact scans_open_newline _
        | exact scans_close _
        | exact scans_key_timestamp _
        | exact scans_key_latitude _
        | exact scans_key_longitude _
        | exact scans_key_altitude _
        | exact scans_key_fix_time _
        | exact scans_key_raw _
        | exact scans_key_dummy _
        | apply scans_ite
        | apply scans_append
  case h3 =>
    cases msg.data.gps.has_latitude <;> cases msg.data.gps.has_longitude <;>
      cases msg.data.gps.has_altitude <;> cases msg.data.gps.has_fix_time <;>
      cases msg.data.gps.has_raw <;> cases msg.data.gps.dummy <;> simp

theorem entry_text_eq (state : AggregatorState) (idx : Nat) (sensor : SensorType) :
    entry_text state idx sensor =
      indent_text 4 ++ (("\"".toList ++ ((sensor_name sensor).toList ++ "\": ".toList)) ++
        (value_text state sensor ++ separator_text state idx)) := by
  unfold entry_text build_payload_entry value_text separator_text
  simp only [sb_append, sb_append_indent_text]
  cases sensor <;> split_ifs <;>
    simp only [append_mpu_payload_eq _ _ 6, append_bmp_payload_eq _ _ 6,
      append_gps_payload_eq _ _ 6, List.append_assoc, List.nil_append]

theorem scans_sensor_key (sensor : SensorType) (d : Nat) :
    scans ("\"".toList ++ ((sensor_name sensor).toList ++ "\": ".toList)) d d
      [(d, (sensor_name sensor).toList)] := by
  intro l ks
  refine ⟨none, ?_⟩
  cases sensor <;>
    simp (disch := decide) [scan_from, String.toList, sensor_name, sensor_name_in,
      SENSOR_NAMES]

theorem scans_value_text (state : AggregatorState) (sensor : SensorType) (d : Nat) :
    ∃ add, scans (value_text state sensor) d d add ∧ ∀ k ∈ add, d < k.1 := by
  unfold value_text
  split
  · cases sensor
    · obtain ⟨add, h, _, h3⟩ := scans_mpu_text (state.latest SENSOR_MPU6050) 6 d
      exact ⟨add, h, h3⟩
    · exact scans_bmp_text _ 6 d
    · exact scans_gps_text _ 6 d
  · exact ⟨[], scans_null d, by simp⟩

theorem scans_separator_text (state : AggregatorState) (idx d : Nat) :
    scans (separator_text state idx) d d [] := by
  unfold separator_text
  split
  · exact scans_comma_newline d
  · exact scans_newline d

theorem scans_entry_text (state : AggregatorState) (idx : Nat) (sensor : SensorType)
    (d : Nat) :
    ∃ deep, scans (entry_text state idx sensor) d d (deep ++ [(d, (sensor_name sensor).toList)]) ∧
      ∀ k ∈ deep, d < k.1 := by
  obtain ⟨add, hv, hdeep⟩ := scans_value_text state sensor d
  refine ⟨add, ?_, hdeep⟩
  rw [entry_text_eq]
  refine scans_of_eq _ _ _ _ _
    (scans_append _ _ d d d _ _ (scans_indent 4 d)
      (scans_append _ _ d d d _ _ (scans_sensor_key sensor d)
        (scans_append _ _ d d d _ _ hv (scans_separator_text state idx d)))) ?_
  simp

/-- Reading the entries of the loop: the names met at the depth of the entries are the
sensor names in list order, and no name is met above that depth. -/
theorem scans_loop_text (state : AggregatorState) (sensors : List SensorType) (idx d : Nat) :
    ∃ add, scans (loop_text state idx sensors) d d add ∧
      (add.reverse.filter (fun k => k.1 = d)).map (fun k => String.mk k.2) =
        sensors.map sensor_name ∧
      ∀ k ∈ add, d ≤ k.1 := by
  induction sensors generalizing idx with
  | nil => exact ⟨[], scans_nil d, rfl, by simp⟩
  | cons s rest ih =>
    obtain ⟨deep, he, hdeep⟩ := scans_entry_text state idx s d
    obtain ⟨add, hr, hkeys, hge⟩ := ih (idx + 1)
    refine ⟨add ++ (deep ++ [(d, (sensor_name s).toList)]), ?_, ?_, ?_⟩
    · rw [loop_text_cons]
      exact scans_append _ _ d d d _ _ he hr
    · have hnone : deep.reverse.filter (fun k => k.1 = d) = [] := by
        rw [List.filter_eq_nil_iff]
        intro k hk
        have := hdeep k (List.mem_reverse.mp hk)
        simp only [decide_eq_true_eq]
        omega
      simp only [List.reverse_append, List.reverse_cons, List.reverse_nil, List.nil_append,
        List.filter_append, List.map_append, hkeys, hnone, List.map_cons, List.append_nil]
      simp
    · intro k hk
      simp only [List.mem_append, List.mem_singleton] at hk
      rcases hk with hk | hk | hk
      · exact hge k hk
      · exact Nat.le_of_lt (hdeep k hk)
      · rw [hk]

theorem payload_head_split (t : Double) :
    payload_head t =
      "\x7b\n  \"reported_at\": ".toList ++
        (('"' :: isoformat_utc t 64 ++ ['"']) ++ ",\n  \"sensors\": \x7b\n".toList) := by
  have e1 : "\x7b\n  \"reported_at\": \"".toList = "\x7b\n  \"reported_at\": ".toList ++ ['"'] := by
    decide
  have e2 : "\",\n  \"sensors\": \x7b\n".toList = '"' :: ",\n  \"sensors\": \x7b\n".toList := by
    decide
  rw [payload_head, e1, e2]
  simp only [List.append_assoc, List.cons_append, List.singleton_append, List.nil_append]

theorem scans_head_open (d : Nat) :
    scans "\x7b\n  \"reported_at\": ".toList d (d + 1) [(d + 1, "reported_at".toList)] := by
  intro l ks
  exact ⟨none, by simp (disch := decide) [scan_from, String.toList]⟩

theorem scans_head_sensors (d : Nat) :
    scans ",\n  \"sensors\": \x7b\n".toList d (d + 1) [(d, "sensors".toList)] := by
  intro l ks
  exact ⟨none, by simp (disch := decide) [scan_from, String.toList]⟩

theorem scans_payload_tail (d : Nat) : scans "  \x7d\n\x7d\n".toList (d + 2) d [] := by
  intro l ks
  exact ⟨none, by simp (disch := decide) [scan_from, String.toList]⟩

theorem scans_payload (state : AggregatorState) (now : Double) :
    ∃ add, scans (build_payload_json state now) 0 0
        (add ++ [(1, "sensors".toList), (1, "reported_at".toList)]) ∧
      (add.reverse.filter (fun k => k.1 = 2)).map (fun k => String.mk k.2) =
        state.config.expected_sensors.map sensor_name ∧
      ∀ k ∈ add, 2 ≤ k.1 := by
  obtain ⟨add, hl, hkeys, hge⟩ := scans_loop_text state state.config.expected_sensors 0 2
  refine ⟨add, ?_, hkeys, hge⟩
  rw [build_payload_json_eq, payload_head_split]
  refine scans_of_eq _ _ _ _ _
    (scans_append _ _ 0 2 0 _ _
      (scans_append _ _ 0 1 2 _ _ (scans_head_open 0)
        (scans_append _ _ 1 1 2 _ _ (scans_isoformat now 64 1) (scans_head_sensors 1)))
      (scans_append _ _ 2 2 0 _ _ hl (scans_payload_tail 0))) ?_
  simp

theorem json_keys_of_scans (text : List Char) (d2 depth : Nat) (add : List (Nat × List Char))
    (h : scans text 0 d2 add) :
    json_keys depth text =
      (add.reverse.filter (fun k => k.1 = depth)).map (fun k => String.mk k.2) := by
  obtain ⟨l2, h2⟩ := h none []
  unfold json_keys
  rw [h2]
  simp [KeyScan.outside]

/-- The member names of the `sensors` object of a snapshot are the names of the configured
sensors, in the configured order, one per entry of the list. -/
theorem json_keys_sensors (state : AggregatorState) (now : Double) :
    json_keys 2 (build_payload_json state now) =
      state.config.expected_sensors.map sensor_name := by
  obtain ⟨add, hs, hkeys, _⟩ := scans_payload state now
  rw [json_keys_of_scans _ 0 2 _ hs, ← hkeys]
  simp [List.filter_append]

/-- The member names of the outermost object of a snapshot. -/
theorem json_keys_top (state : AggregatorState) (now : Double) :
    json_keys 1 (build_payload_json state now) = ["reported_at", "sensors"] := by
  obtain ⟨add, hs, _, hge⟩ := scans_payload state now
  rw [json_keys_of_scans _ 0 1 _ hs]
  have hnone : add.reverse.filter (fun k => k.1 = 1) = [] := by
    rw [List.filter_eq_nil_iff]
    intro k hk
    have := hge k (List.mem_reverse.mp hk)
    simp only [decide_eq_true_eq]
    omega
  simp [List.filter_append, hnone]

theorem sensor_name_injective : Function.Injective sensor_name := by
  intro a b h
  cases a <;> cases b <;> first | rfl | (revert h; decide)

theorem value_text_null (state : AggregatorState) (sensor : SensorType)
    (h : state.has_latest sensor = false) : value_text state sensor = "null".toList := by
  simp [value_text, h]

/-- C9, as the code has it: the member names of the `sensors` object are the names of the
configured sensors in the configured order, one per entry of the list; so for a configured
list that is a sublist of the canonical `SENSOR_LIST` (no repeats, canonical order) they
come in canonical order and each expected sensor has exactly one; the snapshot is its head,
the entries of the loop one after the other, and the closing lines, and the entry of a
sensor with no sample held is its quoted name, a colon and `null`. -/
theorem sensors_keys_as_configured :
    (∀ (state : AggregatorState) (now : Double),
        json_keys 2 (build_payload_json state now) =
          state.config.expected_sensors.map sensor_name) ∧
    (∀ (state : AggregatorState) (now : Double),
        state.config.expected_sensors.Sublist SENSOR_LIST →
        (json_keys 2 (build_payload_json state now)).Sublist ["mpu6050", "bmp180", "neo6m"] ∧
        ∀ s ∈ state.config.expected_sensors,
          (json_keys 2 (build_payload_json state now)).count (sensor_name s) = 1) ∧
    (∀ (state : AggregatorState) (now : Double),
        build_payload_json state now =
          payload_head now ++ (loop_text state 0 state.config.expected_sensors ++
            "  \x7d\n\x7d\n".toList)) ∧
    (∀ (state : AggregatorState) (idx : Nat) (s : SensorType) (rest : List SensorType),
        loop_text state idx (s :: rest) =
          entry_text state idx s ++ loop_text state (idx + 1) rest) ∧
    (∀ (state : AggregatorState) (idx : Nat) (s : SensorType),
        state.has_latest s = false →
        entry_text state idx s =
          "    \"".toList ++ (sensor_name s).toList ++ "\": null".toList ++
            separator_text state idx) := by
  refine ⟨json_keys_sensors, ?_, build_payload_json_eq, loop_text_cons, ?_⟩
  · intro state now hsub
    rw [json_keys_sensors]
    refine ⟨hsub.map sensor_name, ?_⟩
    intro s hs
    have hnodup : (state.config.expected_sensors.map sensor_name).Nodup :=
      (hsub.nodup (by decide)).map sensor_name_injective
    exact List.count_eq_one_of_mem hnodup (List.mem_map_of_mem _ hs)
  · intro state idx s h
    rw [entry_text_eq, value_text_null state s h]
    have e : indent_text 4 = "    ".toList := by decide
    rw [e]
    simp [List.append_assoc]

/-- C9 as stated fails: with the sensors configured as neo6m, mpu6050 the member names come
in that order, which is not the canonical one, and with mpu6050 configured twice its name
is a member twice. -/
theorem sensors_keys_not_canonical :
    json_keys 2 (build_payload_json (state_expecting [SENSOR_NEO6M, SENSOR_MPU6050]) 0) =
      ["neo6m", "mpu6050"] ∧
    ¬ (["neo6m", "mpu6050"] : List String).Sublist ["mpu6050", "bmp180", "neo6m"] ∧
    (json_keys 2 (build_payload_json (state_expecting [SENSOR_MPU6050, SENSOR_MPU6050]) 0)
      ).count "mpu6050" = 2 := by
  refine ⟨?_, by decide, ?_⟩
  · rw [json_keys_sensors]; rfl
  · rw [json_keys_sensors]; rfl

/-- C9 on the configuration of `main` before any sample: the members of `sensors` are
mpu6050, bmp180, neo6m, each once. -/
theorem sensors_keys_of_main_config :
    json_keys 2 (build_payload_json initial_state 0) = ["mpu6050", "bmp180", "neo6m"] ∧
    (json_keys 2 (build_payload_json initial_state 0)).count (sensor_name SENSOR_BMP180) = 1 :=
  ⟨sensors_keys_as_configured.1 initial_state 0,
   (sensors_keys_as_configured.2.1 initial_state 0 (List.Sublist.refl _)).2 SENSOR_BMP180
     (by decide)⟩

/-! ## Theorems: printed numbers -/

theorem round_half_even_natCast (n : Nat) : round_half_even (n : ℚ) = n := by
  have hf : ⌊(n : ℚ)⌋ = (n : Int) := Int.floor_natCast n
  simp [round_half_even, hf]

theorem format_fixed_of_scaled (prec : Nat) (x : Double) (n : Nat)
    (h : |x| * 10 ^ prec = (n : ℚ)) :
    format_fixed prec x =
      (if x < 0 then ['-'] else []) ++ Nat.toDigits 10 (n / 10 ^ prec) ++
        (if prec = 0 then [] else '.' :: pad_left prec '0' (Nat.toDigits 10 (n % 10 ^ prec))) := by
  simp only [format_fixed, h, round_half_even_natCast, Int.toNat_ofNat]

theorem digitChar_isDigit (d : Nat) (h : d < 10) : (Nat.digitChar d).isDigit = true := by
  interval_cases d <;> decide

theorem toDigits_isDigit (n : Nat) : ∀ c ∈ Nat.toDigits 10 n, c.isDigit = true :=
  toDigitsCore_all (fun c => c.isDigit = true) 10
    (fun n => digitChar_isDigit _ (Nat.mod_lt _ (by decide))) _ n [] (by simp)

theorem toDigits_ne_nil (n : Nat) : Nat.toDigits 10 n ≠ [] := by
  intro h
  have : ∀ (fuel m : Nat) (ds : List Char), ds ≠ [] → Nat.toDigitsCore 10 fuel m ds ≠ [] := by
    intro fuel
    induction fuel with
    | zero => intro m ds hds; simpa [Nat.toDigitsCore] using hds
    | succ f ih =>
      intro m ds _
      simp only [Nat.toDigitsCore]
      split
      · simp
      · exact ih _ _ (by simp)
  unfold Nat.toDigits at h
  simp only [Nat.toDigitsCore] at h
  split at h
  · simp at h
  · exact this _ _ _ (by simp) h

theorem toDigits_length_le (n e : Nat) (h : n < 10 ^ e) (he : 0 < e) :
    (Nat.toDigits 10 n).length ≤ e :=
  Nat.toDigitsCore_length 10 (by decide) (n + 1) n e h he

/-- What `%.Pf` prints, for `P > 0`: an optional minus sign, at least one digit, a point,
and exactly `P` digits. -/
theorem format_fixed_decimals (prec : Nat) (x : Double) (h : 0 < prec) :
    ∃ ip fp, format_fixed prec x = (if x < 0 then ['-'] else []) ++ ip ++ '.' :: fp ∧
      ip ≠ [] ∧ fp.length = prec ∧ (∀ c ∈ ip, c.isDigit = true) ∧
      ∀ c ∈ fp, c.isDigit = true := by
  have hp : prec ≠ 0 := by omega
  refine ⟨Nat.toDigits 10 ((round_half_even (|x| * 10 ^ prec)).toNat / 10 ^ prec),
    pad_left prec '0' (Nat.toDigits 10 ((round_half_even (|x| * 10 ^ prec)).toNat % 10 ^ prec)),
    ?_, toDigits_ne_nil _, ?_, toDigits_isDigit _, ?_⟩
  · simp only [format_fixed, if_neg hp]
  · have hl := toDigits_length_le
      ((round_half_even (|x| * 10 ^ prec)).toNat % 10 ^ prec) prec
      (Nat.mod_lt _ (by positivity)) h
    simp only [pad_left, List.length_append, List.length_replicate]
    omega
  · intro c hc
    simp only [pad_left, List.mem_append, List.mem_replicate] at hc
    rcases hc with ⟨_, rfl⟩ | hc
    · decide
    · exact toDigits_isDigit _ c hc

theorem format_fixed_0_1234 : format_fixed 4 0.1234 = "0.1234".toList := by
  rw [format_fixed_of_scaled 4 0.1234 1234 (by rw [abs_of_nonneg (by norm_num)]; norm_num)]
  rw [if_neg (by norm_num)]
  decide

theorem format_fixed_neg_0_5678 : format_fixed 4 (-0.5678) = "-0.5678".toList := by
  rw [format_fixed_of_scaled 4 (-0.5678) 5678 (by rw [abs_of_neg (by norm_num)]; norm_num)]
  rw [if_pos (by norm_num)]
  decide

theorem format_fixed_0_9999 : format_fixed 4 0.9999 = "0.9999".toList := by
  rw [format_fixed_of_scaled 4 0.9999 9999 (by rw [abs_of_nonneg (by norm_num)]; norm_num)]
  rw [if_neg (by norm_num)]
  decide

theorem format_fixed_1_234 : format_fixed 3 1.234 = "1.234".toList := by
  rw [format_fixed_of_scaled 3 1.234 1234 (by rw [abs_of_nonneg (by norm_num)]; norm_num)]
  rw [if_neg (by norm_num)]
  decide

theorem format_fixed_zero_3 : format_fixed 3 0 = "0.000".toList := by
  rw [format_fixed_of_scaled 3 0 0 (by norm_num)]
  rw [if_neg (by norm_num)]
  decide

theorem format_fixed_1_23 : format_fixed 2 1.23 = "1.23".toList := by
  rw [format_fixed_of_scaled 2 1.23 123 (by rw [abs_of_nonneg (by norm_num)]; norm_num)]
  rw [if_neg (by norm_num)]
  decide

theorem format_fixed_neg_4_56 : format_fixed 2 (-4.56) = "-4.56".toList := by
  rw [format_fixed_of_scaled 2 (-4.56) 456 (by rw [abs_of_neg (by norm_num)]; norm_num)]
  rw [if_pos (by norm_num)]
  decide

theorem format_fixed_7_89 : format_fixed 2 7.89 = "7.89".toList := by
  rw [format_fixed_of_scaled 2 7.89 789 (by rw [abs_of_nonneg (by norm_num)]; norm_num)]
  rw [if_neg (by norm_num)]
  decide

/-! ## Theorems: shape of the snapshot -/

theorem json_keys_mpu_text (msg : SensorMessage) (indent : Int) :
    json_keys 1 (mpu_text msg indent) =
      ["timestamp", "accel_g", "gyro_dps", "attitude_deg"] ++
        (if msg.data.mpu.dummy then ["dummy"] else []) := by
  obtain ⟨add, hs, hkeys, _⟩ := scans_mpu_text msg indent 0
  rw [json_keys_of_scans _ 0 1 _ hs]
  exact hkeys

theorem loop_text_nil (state : AggregatorState) (idx : Nat) : loop_text state idx [] = [] := rfl

set_option maxRecDepth 100000 in
theorem s5_loop_text (t : Double) :
    loop_text (s5_state t) 0 (s5_state t).config.expected_sensors ++ "  \x7d\n\x7d\n".toList =
      "    \"mpu6050\": \x7b\n        \"timestamp\": \"".toList ++ isoformat_utc t 64 ++
        ("\",\n        \"accel_g\": \x7b\"x\": 0.1234, \"y\": -0.5678, \"z\": 0.9999\x7d,\n" ++
         "        \"gyro_dps\": \x7b\"x\": 1.234, \"y\": 0.000, \"z\": 0.000\x7d,\n" ++
         "        \"attitude_deg\": \x7b\"pitch\": 1.23, \"roll\": -4.56, \"yaw\": 7.89\x7d\n" ++
         "      \x7d,\n    \"bmp180\": null,\n    \"neo6m\": null\n  \x7d\n\x7d\n").toList := by
  have hcfg : (s5_state t).config.expected_sensors = SENSOR_LIST := rfl
  have h1 : (s5_state t).has_latest SENSOR_MPU6050 = true := by simp [s5_state]
  have h2 : (s5_state t).has_latest SENSOR_BMP180 = false := by
    simp [s5_state, initial_state, aggregator_state_new, Function.update]
  have h3 : (s5_state t).has_latest SENSOR_NEO6M = false := by
    simp [s5_state, initial_state, aggregator_state_new, Function.update]
  have hm : (s5_state t).latest SENSOR_MPU6050 = s5_message t := by simp [s5_state]
  rw [hcfg]
  simp only [SENSOR_LIST, loop_text_cons, loop_text_nil, entry_text_eq, value_text,
    separator_text, hcfg, h1, h2, h3, hm, mpu_text_eq, if_true, Bool.false_eq_true, if_false]
  simp only [s5_message, format_fixed_0_1234, format_fixed_neg_0_5678, format_fixed_0_9999,
    format_fixed_1_234, format_fixed_zero_3, format_fixed_1_23, format_fixed_neg_4_56,
    format_fixed_7_89]
  simp [indent_text, sensor_name, sensor_name_in, SENSOR_NAMES, String.toList]

theorem s5_payload (t now : Double) :
    build_payload_json (s5_state t) now =
      payload_head now ++
        ("    \"mpu6050\": \x7b\n        \"timestamp\": \"".toList ++ isoformat_utc t 64 ++
          ("\",\n        \"accel_g\": \x7b\"x\": 0.1234, \"y\": -0.5678, \"z\": 0.9999\x7d,\n" ++
           "        \"gyro_dps\": \x7b\"x\": 1.234, \"y\": 0.000, \"z\": 0.000\x7d,\n" ++
           "        \"attitude_deg\": \x7b\"pitch\": 1.23, \"roll\": -4.56, \"yaw\": 7.89\x7d\n" ++
           "      \x7d,\n    \"bmp180\": null,\n    \"neo6m\": null\n  \x7d\n\x7d\n").toList) := by
  rw [build_payload_json_eq, s5_loop_text]

/-- C10: every snapshot is an object whose members are `reported_at` then `sensors`; for
the state of scenario S5 (one non-dummy IMU frame, canonical sensor list) the text after
the head is the mpu6050 object with `accel_g` equal to
`{"x": 0.1234, "y": -0.5678, "z": 0.9999}` and no `dummy` member, followed by
`"bmp180": null` and `"neo6m": null`; in general `append_mpu_payload` appends the
timestamp, the accelerations printed with `%.4f`, the rates with `%.3f`, the attitude with
`%.2f`, and the member `"dummy": true` exactly when the sample is dummy, and `%.Pf` prints
exactly `P` digits after the point. -/
theorem snapshot_schema :
    (∀ (state : AggregatorState) (now : Double),
        json_keys 1 (build_payload_json state now) = ["reported_at", "sensors"]) ∧
    (∀ t now : Double,
        build_payload_json (s5_state t) now =
          payload_head now ++
            ("    \"mpu6050\": \x7b\n        \"timestamp\": \"".toList ++ isoformat_utc t 64 ++
              ("\",\n        \"accel_g\": \x7b\"x\": 0.1234, \"y\": -0.5678, \"z\": 0.9999\x7d,\n" ++
               "        \"gyro_dps\": \x7b\"x\": 1.234, \"y\": 0.000, \"z\": 0.000\x7d,\n" ++
               "        \"attitude_deg\": \x7b\"pitch\": 1.23, \"roll\": -4.56, \"yaw\": 7.89\x7d\n" ++
               "      \x7d,\n    \"bmp180\": null,\n    \"neo6m\": null\n  \x7d\n\x7d\n").toList)) ∧
    (∀ (sb : StringBuilder) (msg : SensorMessage) (indent : Int),
        append_mpu_payload sb msg indent =
          sb ++
          ("\x7b\n".toList ++ (indent_text (indent + 2) ++ ("\"timestamp\": ".toList ++
            ('"' :: isoformat_utc msg.timestamp 64 ++ ['"']))) ++
          (",\n".toList ++ (indent_text (indent + 2) ++ ("\"accel_g\": \x7b\"x\": ".toList ++
            (format_fixed 4 msg.data.mpu.ax ++ (", \"y\": ".toList ++
              (format_fixed 4 msg.data.mpu.ay ++ (", \"z\": ".toList ++
                (format_fixed 4 msg.data.mpu.az ++ "\x7d".toList)))))))) ++
          (",\n".toList ++ (indent_text (indent + 2) ++ ("\"gyro_dps\": \x7b\"x\": ".toList ++
            (format_fixed 3 msg.data.mpu.gx ++ (", \"y\": ".toList ++
              (format_fixed 3 msg.data.mpu.gy ++ (", \"z\": ".toList ++
                (format_fixed 3 msg.data.mpu.gz ++ "\x7d".toList)))))))) ++
          (",\n".toList ++ (indent_text (indent + 2) ++
            ("\"attitude_deg\": \x7b\"pitch\": ".toList ++
            (format_fixed 2 msg.data.mpu.pitch ++ (", \"roll\": ".toList ++
              (format_fixed 2 msg.data.mpu.roll ++ (", \"yaw\": ".toList ++
                (format_fixed 2 msg.data.mpu.yaw ++ "\x7d".toList)))))))) ++
          (if msg.data.mpu.dummy then
            ",\n".toList ++ (indent_text (indent + 2) ++ "\"dummy\": true\n".toList)
            else "\n".toList) ++
          (indent_text indent ++ "\x7d".toList))) ∧
    (∀ (msg : SensorMessage) (indent : Int),
        json_keys 1 (append_mpu_payload [] msg indent) =
          ["timestamp", "accel_g", "gyro_dps", "attitude_deg"] ++
            (if msg.data.mpu.dummy then ["dummy"] else [])) ∧
    (∀ (prec : Nat) (x : Double), 0 < prec →
        ∃ ip fp, format_fixed prec x = (if x < 0 then ['-'] else []) ++ ip ++ '.' :: fp ∧
          ip ≠ [] ∧ fp.length = prec ∧ (∀ c ∈ ip, c.isDigit = true) ∧
          ∀ c ∈ fp, c.isDigit = true) := by
  refine ⟨json_keys_top, s5_payload, ?_, json_keys_mpu_text, format_fixed_decimals⟩
  intro sb msg indent
  rw [append_mpu_payload_eq, mpu_text_eq]

/-- C10 on scenario S5: the members of the snapshot are `reported_at`, `sensors`, and the
mpu6050 object of the non-dummy frame has the members timestamp, accel_g, gyro_dps and
attitude_deg, with no `dummy`. -/
theorem snapshot_schema_s5 :
    json_keys 1 (build_payload_json (s5_state 10.0) 10.5) = ["reported_at", "sensors"] ∧
    json_keys 1 (append_mpu_payload [] (s5_message 10.0) 6) =
      ["timestamp", "accel_g", "gyro_dps", "attitude_deg"] :=
  ⟨snapshot_schema.1 _ _, snapshot_schema.2.2.2.1 (s5_message 10.0) 6⟩

/-! ## Theorems: JSON string escapes -/

theorem format_hex4_small (n : Nat) (h : n < 32) :
    format_hex4 n = ['0', '0', hex_lower (n / 16), hex_lower (n % 16)] := by
  interval_cases n <;> decide

theorem hex_value_hex_lower (d : Nat) (h : d < 16) : hex_value (hex_lower d) = some d := by
  interval_cases d <;> decide

theorem json_escape_char_spec (c : Char) : json_escape_char c = spec_escape_char c := by
  unfold json_escape_char sb_append_json_char spec_escape_char
  split_ifs with h1 h2 h3 h4 h5 h6
  · rfl
  · rfl
  · rfl
  · rfl
  · rfl
  · simp only [sb_append_format, List.foldl, FormatItem.render, List.nil_append,
      format_hex4_small c.toNat h6]
    rfl
  · rfl

theorem json_escape_spec (v : List Char) : json_escape v = spec_escape v := by
  induction v with
  | nil => rfl
  | cons c rest ih => simp only [json_escape, spec_escape, json_escape_char_spec, ih]

theorem spec_escape_char_printable (c : Char) : ∀ x ∈ spec_escape_char c, 0x20 ≤ x.toNat := by
  intro x hx
  unfold spec_escape_char at hx
  split_ifs at hx with h1 h2 h3 h4 h5 h6
  · simp only [List.mem_cons, List.mem_singleton, List.not_mem_nil, or_false] at hx
    rcases hx with rfl | rfl <;> decide
  · simp only [List.mem_cons, List.mem_singleton, List.not_mem_nil, or_false] at hx
    rcases hx with rfl | rfl <;> decide
  · simp only [List.mem_cons, List.mem_singleton, List.not_mem_nil, or_false] at hx
    rcases hx with rfl | rfl <;> decide
  · simp only [List.mem_cons, List.mem_singleton, List.not_mem_nil, or_false] at hx
    rcases hx with rfl | rfl <;> decide
  · simp only [List.mem_cons, List.mem_singleton, List.not_mem_nil, or_false] at hx
    rcases hx with rfl | rfl <;> decide
  · have hd : ∀ d, d < 16 → 0x20 ≤ (hex_lower d).toNat := by
      intro d hd
      interval_cases d <;> decide
    simp only [List.mem_cons, List.mem_singleton, List.not_mem_nil, or_false] at hx
    rcases hx with rfl | rfl | rfl | rfl | rfl | rfl
    · decide
    · decide
    · decide
    · decide
    · exact hd _ (by omega)
    · exact hd _ (Nat.mod_lt _ (by decide))
  · rw [List.mem_singleton.mp hx]
    omega

theorem spec_escape_printable (v : List Char) : ∀ x ∈ spec_escape v, 0x20 ≤ x.toNat := by
  induction v with
  | nil => intro x hx; simp [spec_escape] at hx
  | cons c rest ih =>
    intro x hx
    rcases List.mem_append.mp hx with h | h
    · exact spec_escape_char_printable c x h
    · exact ih x h

theorem json_unescape_escape_char (c : Char) (rest tail : List Char)
    (h : json_unescape rest = some tail) :
    json_unescape (spec_escape_char c ++ rest) = some (c :: tail) := by
  unfold json_unescape at h ⊢
  unfold spec_escape_char
  split_ifs with h1 h2 h3 h4 h5 h6
  · subst h1; simp [json_unescape_from, simple_escape, h]
  · subst h2; simp [json_unescape_from, simple_escape, h]
  · subst h3; simp [json_unescape_from, simple_escape, h]
  · subst h4; simp [json_unescape_from, simple_escape, h]
  · subst h5; simp [json_unescape_from, simple_escape, h]
  · have e0 : hex_value '0' = some 0 := by decide
    have e1 := hex_value_hex_lower (c.toNat / 16) (by omega)
    have e2 := hex_value_hex_lower (c.toNat % 16) (Nat.mod_lt _ (by decide))
    have hv : c.toNat / 16 * 16 + c.toNat % 16 = c.toNat := by omega
    simp [json_unescape_from, e0, e1, e2, h, hv]
  · have h7 : ¬ (c = '"' ∨ c.toNat < 0x20) := by
      rintro (h | h)
      · exact h2 h
      · exact h6 h
    simp [json_unescape_from, h1, h7, h]

theorem json_unescape_spec_escape (v : List Char) : json_unescape (spec_escape v) = some v := by
  induction v with
  | nil => rfl
  | cons c rest ih =>
    rw [spec_escape]
    exact json_unescape_escape_char c _ rest ih

/-- C11: `sb_append_json_string` appends a double quote, the escapes of the bytes of the
text in order, as the specification words them, and a closing double quote; no character
of the escaped text is below 0x20, and decoding the escaped text, which fails on a raw
control character and on an unescaped double quote, gives the text back. -/
theorem json_string_escapes (sb : StringBuilder) (v : List Char) :
    sb_append_json_string sb v = sb ++ ('"' :: spec_escape v ++ ['"']) ∧
    (∀ c : Char, sb_append_json_char sb c = sb ++ spec_escape_char c) ∧
    (∀ x ∈ spec_escape v, 0x20 ≤ x.toNat) ∧
    json_unescape (spec_escape v) = some v := by
  refine ⟨?_, ?_, spec_escape_printable v, json_unescape_spec_escape v⟩
  · rw [sb_append_json_string_eq, json_quote, json_escape_spec]
  · intro c
    rw [sb_append_json_char_eq, json_escape_char_spec]

/-- C11 on a text with every kind of byte: quote, backslash, LF, CR, TAB, the control
bytes 0x01 and 0x1f, and plain bytes. -/
theorem json_string_escapes_sample :
    sb_append_json_string [] "a\"b\\c\n\r\t\x01\x1fz".toList =
      "\"a\\\"b\\\\c\\n\\r\\t\\u0001\\u001fz\"".toList ∧
    json_unescape "a\\\"b\\\\c\\n\\r\\t\\u0001\\u001fz".toList =
      some "a\"b\\c\n\r\t\x01\x1fz".toList := by
  have h := json_string_escapes [] "a\"b\\c\n\r\t\x01\x1fz".toList
  have e : spec_escape "a\"b\\c\n\r\t\x01\x1fz".toList =
      "a\\\"b\\\\c\\n\\r\\t\\u0001\\u001fz".toList := by decide
  rw [e] at h
  exact ⟨by rw [h.1]; decide, h.2.2.2⟩

/-! ## Theorems: indentation of the snapshot -/

theorem indent_scan_append (s : IndentScan) (a b : List Char) :
    indent_scan s (a ++ b) = indent_scan (indent_scan s a) b := by
  simp [indent_scan, List.foldl_append]

theorem indent_scan_midline (t : List Char) (h : ∀ c ∈ t, c ≠ '\n') (n : Nat)
    (l : List Nat) :
    indent_scan { at_start := false, spaces := n, indents := l } t =
      { at_start := false, spaces := n, indents := l } := by
  induction t with
  | nil => rfl
  | cons c rest ih =>
    have hc : c ≠ '\n' := h c (by simp)
    have hstep : indent_step { at_start := false, spaces := n, indents := l } c =
        { at_start := false, spaces := n, indents := l } := by
      simp [indent_step, hc]
    have : indent_scan { at_start := false, spaces := n, indents := l } (c :: rest) =
        indent_scan (indent_step { at_start := false, spaces := n, indents := l } c) rest := rfl
    rw [this, hstep]
    exact ih (fun x hx => h x (by simp [hx]))

theorem isoformat_utc_no_newline (t : Double) (len : Nat) :
    ∀ c ∈ isoformat_utc t len, c ≠ '\n' := by
  intro c hc hn
  have := (isoformat_utc_no_escape t len c hc).2.2
  rw [hn] at this
  revert this
  decide

theorem build_payload_json_ends_with_newline (state : AggregatorState) (now : Double) :
    ∃ front, build_payload_json state now = front ++ ['\n'] := by
  refine ⟨payload_head now ++ (loop_text state 0 state.config.expected_sensors ++
    "  \x7d\n\x7d".toList), ?_⟩
  rw [build_payload_json_eq]
  have e : "  \x7d\n\x7d\n".toList = "  \x7d\n\x7d".toList ++ ['\n'] := by decide
  rw [e]
  simp only [List.append_assoc]

set_option maxRecDepth 100000 in
theorem s5_line_indents (t now : Double) :
    line_indents (build_payload_json (s5_state t) now) =
      [0, 2, 2, 4, 8, 8, 8, 8, 6, 4, 4, 2, 0] := by
  rw [s5_payload, payload_head]
  unfold line_indents
  simp only [indent_scan_append]
  have e1 : indent_scan { at_start := true, spaces := 0, indents := [] }
      "\x7b\n  \"reported_at\": \"".toList =
      { at_start := false, spaces := 0, indents := [2, 0] } := by decide
  rw [e1, indent_scan_midline _ (isoformat_utc_no_newline now 64)]
  have e2 : indent_scan { at_start := false, spaces := 0, indents := [2, 0] }
      "\",\n  \"sensors\": \x7b\n".toList =
      { at_start := true, spaces := 0, indents := [2, 2, 0] } := by decide
  rw [e2]
  have e3 : indent_scan { at_start := true, spaces := 0, indents := [2, 2, 0] }
      "    \"mpu6050\": \x7b\n        \"timestamp\": \"".toList =
      { at_start := false, spaces := 0, indents := [8, 4, 2, 2, 0] } := by decide
  rw [e3, indent_scan_midline _ (isoformat_utc_no_newline t 64)]
  decide

/-- C12 on the state of scenario S5: every snapshot ends with a newline, and the lines of
this one are indented by 0, 2, 2 (the top-level members), 4 (the key that opens the
mpu6050 object), 8, 8, 8, 8 (the fields of that object), 6 (its closing brace), 4, 4 (the
other sensor keys), 2 and 0 (the closing braces of `sensors` and of the snapshot). -/
theorem snapshot_indentation_s5 :
    (∀ (state : AggregatorState) (now : Double),
        ∃ front, build_payload_json state now = front ++ ['\n']) ∧
    (∀ t now : Double,
        line_indents (build_payload_json (s5_state t) now) =
          [0, 2, 2, 4, 8, 8, 8, 8, 6, 4, 4, 2, 0]) :=
  ⟨build_payload_json_ends_with_newline, s5_line_indents⟩

/-! ## The radio frames -/

theorem char_toNat_ofNat (n : Nat) (h : n < 256) : (Char.ofNat n).toNat = n := by
  have hv : n.isValidChar := Or.inl (by omega)
  simp only [Char.ofNat, hv, Char.toNat, Char.ofNatAux, dite_true]
  rfl

theorem and_255 (n : Nat) : n &&& 0xFF = n % 256 :=
  Nat.and_pow_two_sub_one_eq_mod n 8

/-- The rounded-up quotient of the code is the ceiling of the words. -/
theorem ceil_div_189 (L : Nat) : ⌈(L : ℚ) / ((189 : Nat) : ℚ)⌉₊ = (L + 189 - 1) / 189 := by
  by_cases h0 : (L + 189 - 1) / 189 = 0
  · have hL : L = 0 := by omega
    subst hL
    simp
  · rw [Nat.ceil_eq_iff h0]
    constructor
    · rw [lt_div_iff₀ (by norm_num)]
      have : ((L + 189 - 1) / 189 - 1) * 189 < L := by omega
      exact_mod_cast this
    · rw [div_le_iff₀ (by norm_num)]
      have : L ≤ (L + 189 - 1) / 189 * 189 := by omega
      exact_mod_cast this

/-- With a driver that accepts every frame the loop runs all its turns. -/
theorem lora_send_loop_accepting (loralib_send : List Char → Int)
    (hsend : ∀ frame, loralib_send frame = 0) (json_payload topic : List Char)
    (topic_len room total_frames : Nat) (left idx : Nat) (handed : List (List Char)) :
    lora_send_loop loralib_send json_payload topic topic_len room total_frames left idx handed =
      (true, handed ++ (List.range left).map
        (fun k => lora_frame json_payload topic topic_len room total_frames (idx + k))) := by
  induction left generalizing idx handed with
  | zero => simp [lora_send_loop]
  | succ n ih =>
      rw [lora_send_loop]
      simp only [send_frame, hsend, decide_True, Bool.not_true, Bool.false_eq_true, if_false]
      rw [ih, List.range_succ_eq_map]
      simp [List.map_map, Function.comp_def, Nat.add_assoc, Nat.add_comm 1]

/-- The frame of a turn, in the words of the specification. -/
theorem lora_frame_spec (json_payload : List Char) (total_frames idx : Nat) :
    lora_frame json_payload "sensors".toList 7 189 total_frames idx =
      frame_header (idx + 1) total_frames ++
        payload_slice json_payload (idx * 189) (min json_payload.length ((idx + 1) * 189)) := by
  have hchunk : (if (if json_payload.length > idx * 189 then json_payload.length - idx * 189
        else 0) > 189 then 189
      else (if json_payload.length > idx * 189 then json_payload.length - idx * 189 else 0)) =
      min json_payload.length ((idx + 1) * 189) - idx * 189 := by
    split_ifs <;> omega
  simp only [lora_frame, frame_header, payload_slice, hchunk]
  rfl

/-- The frames handed over by `lora_send_json` when the transport is ready and the driver
accepts every frame. -/
theorem lora_send_json_accepting (loralib_send : List Char → Int)
    (hsend : ∀ frame, loralib_send frame = 0) (json_payload : List Char) :
    lora_send_json true loralib_send json_payload = (true, spec_frames json_payload) := by
  have hF : max 1 ⌈(json_payload.length : ℚ) / ((189 : Nat) : ℚ)⌉₊ =
      (if (json_payload.length + 189 - 1) / 189 = 0 then 1
        else (json_payload.length + 189 - 1) / 189) := by
    rw [ceil_div_189]
    split_ifs with h
    · rw [h]; rfl
    · exact max_eq_right (Nat.one_le_iff_ne_zero.mpr h)
  have hcode : lora_send_json true loralib_send json_payload =
      lora_send_loop loralib_send json_payload "sensors".toList 7 189
        (if (json_payload.length + 189 - 1) / 189 = 0 then 1
          else (json_payload.length + 189 - 1) / 189)
        (if (json_payload.length + 189 - 1) / 189 = 0 then 1
          else (json_payload.length + 189 - 1) / 189) 0 [] := rfl
  have hspec : spec_frames json_payload =
      (List.range (max 1 ⌈(json_payload.length : ℚ) / ((189 : Nat) : ℚ)⌉₊)).map
        (fun k => frame_header (k + 1) (max 1 ⌈(json_payload.length : ℚ) / ((189 : Nat) : ℚ)⌉₊) ++
          payload_slice json_payload (k * 189) (min json_payload.length ((k + 1) * 189))) := rfl
  rw [hcode, hspec, hF, lora_send_loop_accepting _ hsend]
  simp only [List.nil_append, Nat.zero_add, lora_frame_spec]

theorem frame_header_length (i total : Nat) : (frame_header i total).length = 11 := rfl

theorem frame_payload_spec (i total : Nat) (rest : List Char) :
    frame_payload (frame_header i total ++ rest) = rest := rfl

theorem frame_index_byte_spec (i total : Nat) (rest : List Char) :
    frame_index_byte (frame_header i total ++ rest) = i % 256 := by
  have h : frame_index_byte (frame_header i total ++ rest) = (Char.ofNat (i &&& 0xFF)).toNat := rfl
  rw [h, and_255, char_toNat_ofNat _ (Nat.mod_lt _ (by decide))]

theorem frame_index_byte_lora_frame (json_payload : List Char) (total_frames idx : Nat) :
    frame_index_byte (lora_frame json_payload "sensors".toList 7 189 total_frames idx) =
      (idx + 1) % 256 := by
  rw [lora_frame_spec, frame_index_byte_spec]

/-- Whatever the driver answers, a frame handed over by the loop was handed over before
or is the frame of one of the turns. -/
theorem lora_send_loop_mem (loralib_send : List Char → Int) (json_payload topic : List Char)
    (topic_len room total_frames : Nat) (left idx : Nat) (handed : List (List Char))
    (frame : List Char)
    (h : frame ∈ (lora_send_loop loralib_send json_payload topic topic_len room total_frames
      left idx handed).2) :
    frame ∈ handed ∨
      ∃ k, k < left ∧ frame = lora_frame json_payload topic topic_len room total_frames (idx + k) := by
  induction left generalizing idx handed with
  | zero => exact Or.inl (by simpa [lora_send_loop] using h)
  | succ n ih =>
      rw [lora_send_loop] at h
      by_cases hok : send_frame loralib_send
          (lora_frame json_payload topic topic_len room total_frames idx) = true
      · simp only [hok, Bool.not_true, Bool.false_eq_true, if_false] at h
        rcases ih _ _ h with h1 | ⟨k, hk, h2⟩
        · rcases List.mem_append.mp h1 with h3 | h3
          · exact Or.inl h3
          · exact Or.inr ⟨0, Nat.succ_pos _, by simpa using h3⟩
        · exact Or.inr ⟨k + 1, Nat.succ_lt_succ hk, by rw [h2]; congr 1; omega⟩
      · simp only [hok, Bool.not_false, if_true] at h
        rcases List.mem_append.mp h with h3 | h3
        · exact Or.inl h3
        · exact Or.inr ⟨0, Nat.succ_pos _, by simpa using h3⟩

/-- The frames of a payload in the words of the specification, one by one. -/
theorem spec_frames_getD (payload : List Char) (k : Nat)
    (hk : k < max 1 ⌈(payload.length : ℚ) / ((189 : Nat) : ℚ)⌉₊) :
    (spec_frames payload).getD k [] =
      frame_header (k + 1) (max 1 ⌈(payload.length : ℚ) / ((189 : Nat) : ℚ)⌉₊) ++
        payload_slice payload (k * 189) (min payload.length ((k + 1) * 189)) := by
  have hspec : spec_frames payload =
      (List.range (max 1 ⌈(payload.length : ℚ) / ((189 : Nat) : ℚ)⌉₊)).map
        (fun k => frame_header (k + 1) (max 1 ⌈(payload.length : ℚ) / ((189 : Nat) : ℚ)⌉₊) ++
          payload_slice payload (k * 189) (min payload.length ((k + 1) * 189))) := rfl
  rw [hspec, List.getD_eq_getElem?_getD, List.getElem?_map, List.getElem?_range hk]
  rfl

theorem spec_frames_length (payload : List Char) :
    (spec_frames payload).length = max 1 ⌈(payload.length : ℚ) / ((189 : Nat) : ℚ)⌉₊ := by
  have hspec : spec_frames payload =
      (List.range (max 1 ⌈(payload.length : ℚ) / ((189 : Nat) : ℚ)⌉₊)).map
        (fun k => frame_header (k + 1) (max 1 ⌈(payload.length : ℚ) / ((189 : Nat) : ℚ)⌉₊) ++
          payload_slice payload (k * 189) (min payload.length ((k + 1) * 189))) := rfl
  rw [hspec, List.length_map, List.length_range]

/-- C13: when the transport is ready and the driver accepts every frame,
`lora_send_json` returns true after handing over, in order, the `max(1, ceil(L/R))`
frames of the specification (`H = 1 + 1 + 7 + 1 + 1`, `R = 200 - H`), each its header
'J', 7, "sensors", `i & 0xFF`, `F & 0xFF` followed by the payload bytes
`[(i-1)*R, min(L, i*R))`; an empty payload gives one frame that is only the header. -/
theorem lora_frames_when_accepted (loralib_send : List Char → Int)
    (hsend : ∀ frame, loralib_send frame = 0) (json_payload : List Char) :
    lora_send_json true loralib_send json_payload = (true, spec_frames json_payload) ∧
    lora_send_json true loralib_send [] = (true, [frame_header 1 1]) :=
  ⟨lora_send_json_accepting loralib_send hsend json_payload,
    by rw [lora_send_json_accepting loralib_send hsend]; simp [spec_frames]; rfl⟩

theorem lora_frames_when_accepted_abc :
    (∀ frame, driver_accepts_all frame = 0) ∧
    lora_send_json true driver_accepts_all "abc".toList =
      (true, spec_frames "abc".toList) ∧
    lora_send_json true driver_accepts_all [] = (true, ["J\x07sensors\x01\x01".toList]) :=
  ⟨fun _ => rfl, lora_frames_when_accepted driver_accepts_all (fun _ => rfl) "abc".toList⟩

/-- C14 as stated fails: the empty payload gives one frame although
`ceil(0/189)` is 0, and a transport that is not ready hands over no frame at all. -/
theorem frame_count_of_empty_payload :
    (lora_send_json true driver_accepts_all []).2.length = 1 ∧
    ⌈((([] : List Char).length : Nat) : ℚ) / ((200 - (7 + 4) : Nat) : ℚ)⌉₊ = 0 ∧
    (lora_send_json false driver_accepts_all payload_500).2.length = 0 :=
  ⟨by decide, by simp, by decide⟩

/-- C14, as the code has it: when the transport is ready and the driver accepts every frame,
a payload of length `L > 0` gives exactly `ceil(L/R)` frames with `R = 200 - (7 + 4) = 189`,
and frame `i` carries the payload bytes `[(i-1)*R, min(L, i*R))`. -/
theorem frame_count_of_nonempty_payload (loralib_send : List Char → Int)
    (hsend : ∀ frame, loralib_send frame = 0) (json_payload : List Char)
    (hne : json_payload ≠ []) :
    (lora_send_json true loralib_send json_payload).2.length =
      ⌈(json_payload.length : ℚ) / ((200 - (7 + 4) : Nat) : ℚ)⌉₊ ∧
    ∀ i, 1 ≤ i → i ≤ (lora_send_json true loralib_send json_payload).2.length →
      frame_payload ((lora_send_json true loralib_send json_payload).2.getD (i - 1) []) =
        payload_slice json_payload ((i - 1) * 189) (min json_payload.length (i * 189)) := by
  have hpos : 0 < json_payload.length := List.length_pos.mpr hne
  have hceil : 1 ≤ ⌈(json_payload.length : ℚ) / ((189 : Nat) : ℚ)⌉₊ := by
    rw [ceil_div_189]; omega
  rw [lora_send_json_accepting loralib_send hsend]
  refine ⟨by rw [spec_frames_length]; exact max_eq_right hceil, ?_⟩
  intro i h1 h2
  rw [spec_frames_length] at h2
  rw [spec_frames_getD _ _ (by omega), frame_payload_spec, Nat.sub_add_cancel h1]

theorem payload_500_length : payload_500.length = 500 := by
  simp [payload_500]

theorem payload_500_ne_nil : payload_500 ≠ [] := by
  intro h
  have := payload_500_length
  rw [h] at this
  exact absurd this (by decide)

theorem frame_count_of_payload_500 :
    (∀ frame, driver_accepts_all frame = 0) ∧ payload_500 ≠ [] ∧
    (lora_send_json true driver_accepts_all payload_500).2.length =
      ⌈(payload_500.length : ℚ) / ((200 - (7 + 4) : Nat) : ℚ)⌉₊ ∧
    ∀ i, 1 ≤ i → i ≤ (lora_send_json true driver_accepts_all payload_500).2.length →
      frame_payload ((lora_send_json true driver_accepts_all payload_500).2.getD (i - 1) []) =
        payload_slice payload_500 ((i - 1) * 189) (min payload_500.length (i * 189)) :=
  ⟨fun _ => rfl, payload_500_ne_nil,
    frame_count_of_nonempty_payload driver_accepts_all (fun _ => rfl) payload_500
      payload_500_ne_nil⟩

set_option maxRecDepth 100000 in
/-- The frames of the 500-byte payload, evaluated. -/
theorem lora_frames_payload_500 :
    (lora_send_json true driver_accepts_all payload_500).2 =
      ["J\x07sensors\x01\x03".toList ++ payload_slice payload_500 0 189,
       "J\x07sensors\x02\x03".toList ++ payload_slice payload_500 189 378,
       "J\x07sensors\x03\x03".toList ++ payload_slice payload_500 378 500] := by
  decide

set_option maxRecDepth 100000 in
theorem payload_500_slices_differ :
    payload_slice payload_500 0 189 ≠ payload_slice payload_500 0 190 := by
  decide

/-- C15 as stated fails: on a payload of 500 bytes the frames are not those of a
header of 10 bytes and a room of 190: the code has a header of 11 bytes and a room of 189,
so the frames are 200, 200 and 133 bytes long and carry the bytes 0..188, 189..377 and
378..499. -/
theorem lora_500_not_room_190 :
    (lora_send_json true driver_accepts_all payload_500).2 ≠
      ["J\x07sensors\x01\x03".toList ++ payload_slice payload_500 0 190,
       "J\x07sensors\x02\x03".toList ++ payload_slice payload_500 190 380,
       "J\x07sensors\x03\x03".toList ++ payload_slice payload_500 380 500] ∧
    (lora_send_json true driver_accepts_all payload_500).2 =
      ["J\x07sensors\x01\x03".toList ++ payload_slice payload_500 0 189,
       "J\x07sensors\x02\x03".toList ++ payload_slice payload_500 189 378,
       "J\x07sensors\x03\x03".toList ++ payload_slice payload_500 378 500] := by
  refine ⟨?_, lora_frames_payload_500⟩
  rw [lora_frames_payload_500]
  intro h
  exact payload_500_slices_differ (List.append_cancel_left (List.cons.inj h).1)

/-- C15, as the code has it: for a payload of length 500, a ready transport and a driver that
accepts every frame, `lora_send_json` returns true after three frames with a header of
11 bytes, 'J', 0x07, "sensors", i, 0x03, and a room of 189: frame 1 carries the payload
bytes 0..188, frame 2 the bytes 189..377, frame 3 the bytes 378..499. -/
theorem lora_500_room_189 (loralib_send : List Char → Int)
    (hsend : ∀ frame, loralib_send frame = 0) (json_payload : List Char)
    (hlen : json_payload.length = 500) :
    lora_send_json true loralib_send json_payload =
      (true,
       ["J\x07sensors\x01\x03".toList ++ payload_slice json_payload 0 189,
        "J\x07sensors\x02\x03".toList ++ payload_slice json_payload 189 378,
        "J\x07sensors\x03\x03".toList ++ payload_slice json_payload 378 500]) := by
  have hF : max 1 ⌈(json_payload.length : ℚ) / ((189 : Nat) : ℚ)⌉₊ = 3 := by
    rw [ceil_div_189, hlen]; rfl
  have hspec : spec_frames json_payload =
      (List.range (max 1 ⌈(json_payload.length : ℚ) / ((189 : Nat) : ℚ)⌉₊)).map
        (fun k => frame_header (k + 1) (max 1 ⌈(json_payload.length : ℚ) / ((189 : Nat) : ℚ)⌉₊) ++
          payload_slice json_payload (k * 189) (min json_payload.length ((k + 1) * 189))) := rfl
  rw [lora_send_json_accepting loralib_send hsend, hspec, hF, hlen]
  rfl

theorem lora_500_room_189_digits :
    (∀ frame, driver_accepts_all frame = 0) ∧ payload_500.length = 500 ∧
    lora_send_json true driver_accepts_all payload_500 =
      (true,
       ["J\x07sensors\x01\x03".toList ++ payload_slice payload_500 0 189,
        "J\x07sensors\x02\x03".toList ++ payload_slice payload_500 189 378,
        "J\x07sensors\x03\x03".toList ++ payload_slice payload_500 378 500]) :=
  ⟨fun _ => rfl, payload_500_length,
    lora_500_room_189 driver_accepts_all (fun _ => rfl) payload_500 payload_500_length⟩

/-- C16 as stated fails: a payload of 48196 bytes takes 256 frames, and the index
byte of frame 256 is `256 & 0xFF = 0`. -/
theorem frame_256_has_index_byte_zero :
    ∃ frame ∈ (lora_send_json true driver_accepts_all payload_48196).2,
      frame_index_byte frame = 0 := by
  have hF : max 1 ⌈(payload_48196.length : ℚ) / ((189 : Nat) : ℚ)⌉₊ = 256 := by
    rw [ceil_div_189]
    have : payload_48196.length = 48196 := List.length_replicate _ _
    rw [this]; rfl
  have hget := spec_frames_getD payload_48196 255 (by rw [hF]; decide)
  refine ⟨(spec_frames payload_48196).getD 255 [], ?_, ?_⟩
  · rw [lora_send_json_accepting driver_accepts_all (fun _ => rfl)]
    have hlt : 255 < (spec_frames payload_48196).length := by
      rw [spec_frames_length, hF]; decide
    rw [List.getD_eq_getElem _ _ hlt]
    exact List.getElem_mem _
  · rw [hget, frame_index_byte_spec]

/-- C16, as the code has it: for every payload of at most 255 * 189 = 48195 bytes, whatever
the state of the transport and the answers of the driver, no frame handed over by
`lora_send_json` has index byte 0. -/
theorem frame_index_byte_nonzero (lora_ready : Bool) (loralib_send : List Char → Int)
    (json_payload : List Char) (hlen : json_payload.length ≤ 48195) :
    ∀ frame ∈ (lora_send_json lora_ready loralib_send json_payload).2,
      frame_index_byte frame ≠ 0 := by
  intro frame hmem
  cases lora_ready with
  | false => exact absurd hmem (by simp [lora_send_json])
  | true =>
      have hcode : lora_send_json true loralib_send json_payload =
          lora_send_loop loralib_send json_payload "sensors".toList 7 189
            (if (json_payload.length + 189 - 1) / 189 = 0 then 1
              else (json_payload.length + 189 - 1) / 189)
            (if (json_payload.length + 189 - 1) / 189 = 0 then 1
              else (json_payload.length + 189 - 1) / 189) 0 [] := rfl
      rw [hcode] at hmem
      rcases lora_send_loop_mem _ _ _ _ _ _ _ _ _ _ hmem with h | ⟨k, hk, h⟩
      · exact absurd h (List.not_mem_nil _)
      · rw [h, frame_index_byte_lora_frame]
        have hk2 : k < 255 := by
          split_ifs at hk <;> omega
        omega

theorem frame_index_byte_nonzero_payload_500 :
    payload_500.length ≤ 48195 ∧
    ∀ frame ∈ (lora_send_json true driver_accepts_all payload_500).2,
      frame_index_byte frame ≠ 0 :=
  ⟨by rw [payload_500_length]; decide,
    frame_index_byte_nonzero true driver_accepts_all payload_500
      (by rw [payload_500_length]; decide)⟩

/-! ## NMEA sentences -/

/-- The stand-in conversion on an unsigned numeral. -/
theorem atof_decimal_unsigned (text : List Char) (mantissa decimals : Nat)
    (hminus : text.head? ≠ some '-') (hplus : text.head? ≠ some '+')
    (h : atof_digits false 0 0 text = (mantissa, decimals)) :
    atof_decimal text = (mantissa : Double) / 10 ^ decimals := by
  simp [atof_decimal, hminus, hplus, h]

theorem atof_decimal_4807 : atof_decimal "4807.038".toList = 4807038 / 1000 := by
  have h := atof_decimal_unsigned "4807.038".toList 4807038 3 (by decide) (by decide) (by decide)
  rw [h]; norm_num

theorem atof_decimal_M : atof_decimal "M".toList = 0 := by
  have h := atof_decimal_unsigned "M".toList 0 0 (by decide) (by decide) (by decide)
  rw [h]; norm_num

theorem atof_decimal_545 : atof_decimal "545.4".toList = 5454 / 10 := by
  have h := atof_decimal_unsigned "545.4".toList 5454 1 (by decide) (by decide) (by decide)
  rw [h]; norm_num

/-- The value of `parse_coordinate` on a field that is there. -/
theorem parse_coordinate_present (atof : List Char → Double) (value : List Char)
    (hne : value ≠ []) :
    parse_coordinate atof (some value) =
      ((⌊atof value / 100⌋ : Int) : Double) +
        (atof value - ((⌊atof value / 100⌋ : Int) : Double) * 100) / 60 := by
  cases value with
  | nil => exact absurd rfl hne
  | cons c s => rfl

/-- Degrees and minutes: on a numeral of value `100 * D + M` with `0 ≤ M < 60` the
function `parse_coordinate` returns `D + M / 60`. -/
theorem parse_coordinate_value (atof : List Char → Double) (value : List Char) (D : Nat)
    (M : Double) (hne : value ≠ []) (hraw : atof value = 100 * (D : Double) + M)
    (hM0 : 0 ≤ M) (hM : M < 60) :
    parse_coordinate atof (some value) = (D : Double) + M / 60 := by
  have hfloor : (⌊atof value / 100⌋ : Int) = (D : Int) := by
    rw [Int.floor_eq_iff, hraw]
    constructor
    · push_cast
      rw [le_div_iff₀ (by norm_num)]
      linarith
    · push_cast
      rw [div_lt_iff₀ (by norm_num)]
      linarith
  rw [parse_coordinate_present atof value hne, hfloor, hraw]
  push_cast
  ring

/-- Tokens of a token list that has at least ten entries are there. -/
theorem tokens_getElem?_of_count (tokens : List (List Char)) (h : ¬ tokens.length < 10)
    (i : Nat) (hi : i < 10) : tokens[i]? = some (tokens.getD i []) := by
  have hlt : i < tokens.length := by omega
  rw [List.getD_eq_getElem _ _ hlt, List.getElem?_eq_getElem hlt]

theorem strtok_from_ne_nil (delim : Char) (text cur : List Char) :
    ∀ token ∈ strtok_from delim cur text, token ≠ [] := by
  induction text generalizing cur with
  | nil =>
      intro token h
      by_cases hc : cur = []
      · simp [strtok_from, hc] at h
      · simp [strtok_from, hc] at h
        rw [h]; exact hc
  | cons c rest ih =>
      intro token h
      by_cases hd : c = delim
      · by_cases hc : cur = []
        · simp only [strtok_from, hd, hc, if_true] at h
          exact ih _ _ h
        · simp only [strtok_from, hd, hc, if_true, if_false] at h
          rcases List.mem_cons.mp h with h | h
          · rw [h]; exact hc
          · exact ih _ _ h
      · simp only [strtok_from, hd, if_false] at h
        exact ih _ _ h

/-- No token of `parse_gga_sentence` is the empty string. -/
theorem gga_tokens_ne_nil (line : List Char) : ∀ token ∈ gga_tokens line, token ≠ [] :=
  fun token h => strtok_from_ne_nil ',' _ _ token (List.mem_of_mem_take h)

theorem field_present_some (field : List Char) (h : field ≠ []) :
    field_present (some field) = true := by
  cases field with
  | nil => exact absurd rfl h
  | cons c s => rfl

theorem field_starts_with_some (field : List Char) (c : Char) :
    field_starts_with (some field) c = decide (field.head? = some c) := by
  cases field with
  | nil => simp [field_starts_with]
  | cons d s => simp [field_starts_with]

/-- What `parse_gga_sentence` does, in terms of the tokens of `strtok`: a line with fewer
than ten tokens, or whose token 6 starts with the character 0, is refused and `out` is
left alone; on every other line every value is taken from its token. -/
theorem parse_gga_sentence_tokens (atof : List Char → Double) (line : List Char)
    (out : GpsData) :
    parse_gga_sentence atof line out =
      if (gga_tokens line).length < 10 ∨ ((gga_tokens line).getD 6 []).head? = some '0' then
        (false, out)
      else
        (true,
          { latitude :=
              if ((gga_tokens line).getD 3 []).head? = some 'S' then
                -parse_coordinate atof (some ((gga_tokens line).getD 2 []))
              else parse_coordinate atof (some ((gga_tokens line).getD 2 [])),
            longitude :=
              if ((gga_tokens line).getD 5 []).head? = some 'W' then
                -parse_coordinate atof (some ((gga_tokens line).getD 4 []))
              else parse_coordinate atof (some ((gga_tokens line).getD 4 [])),
            altitude := atof ((gga_tokens line).getD 9 []),
            has_latitude := true, has_longitude := true, has_altitude := true,
            fix_time := format_fix_time (some ((gga_tokens line).getD 1 [])) 32,
            has_fix_time := true, raw := line.take 127, has_raw := true, dummy := false }) := by
  by_cases hc : (gga_tokens line).length < 10
  · simp [parse_gga_sentence, hc]
  · have hmem : ∀ i, i < 10 → (gga_tokens line).getD i [] ≠ [] := by
      intro i hi
      have hlt : i < (gga_tokens line).length := by omega
      rw [List.getD_eq_getElem _ _ hlt]
      exact gga_tokens_ne_nil line _ (List.getElem_mem _)
    have h1 := tokens_getElem?_of_count _ hc 1 (by decide)
    have h2 := tokens_getElem?_of_count _ hc 2 (by decide)
    have h3 := tokens_getElem?_of_count _ hc 3 (by decide)
    have h4 := tokens_getElem?_of_count _ hc 4 (by decide)
    have h5 := tokens_getElem?_of_count _ hc 5 (by decide)
    have h6 := tokens_getElem?_of_count _ hc 6 (by decide)
    have h9 := tokens_getElem?_of_count _ hc 9 (by decide)
    simp only [parse_gga_sentence, hc, if_false, false_or, h1, h2, h3, h4, h5, h6, h9,
      Option.isNone_some, Bool.false_or, field_starts_with_some, decide_eq_true_eq,
      field_present_some _ (hmem 1 (by decide)), field_present_some _ (hmem 2 (by decide)),
      field_present_some _ (hmem 4 (by decide)), field_present_some _ (hmem 9 (by decide)),
      if_true, Option.getD_some]

/-- The tokens of `strtok` are the non-empty comma-separated fields. -/
theorem strtok_from_eq_filter (text cur : List Char) :
    strtok_from ',' cur text = (fields_from cur text).filter (fun f => decide (f ≠ [])) := by
  induction text generalizing cur with
  | nil =>
      by_cases hc : cur = [] <;> simp [strtok_from, fields_from, hc]
  | cons c rest ih =>
      by_cases hd : c = ','
      · by_cases hc : cur = [] <;> simp [strtok_from, fields_from, hd, hc, ih]
      · simp [strtok_from, fields_from, hd, ih]

theorem gga_tokens_eq_filter (line : List Char) :
    gga_tokens line =
      ((nmea_fields (line.take 255)).filter (fun f => decide (f ≠ []))).take 16 := by
  rw [gga_tokens, strtok_tokens, strtok_from_eq_filter, nmea_fields]

/-- Fewer than ten fields leave fewer than ten tokens. -/
theorem gga_tokens_length_le (line : List Char) :
    (gga_tokens line).length ≤ (nmea_fields (line.take 255)).length := by
  rw [gga_tokens_eq_filter]
  exact (List.length_take_le' _ _).trans (List.length_filter_le _ _)

/-- On a line of at most 255 bytes whose fields 0 to 9 are there and none of them empty,
the first ten tokens are the first ten fields. -/
theorem gga_tokens_of_filled_fields (line : List Char) (hlen : line.length ≤ 255)
    (hcount : 10 ≤ (nmea_fields line).length)
    (hfilled : ∀ i, i < 10 → (nmea_fields line).getD i [] ≠ []) :
    10 ≤ (gga_tokens line).length ∧
      ∀ i, i < 10 → (gga_tokens line).getD i [] = (nmea_fields line).getD i [] := by
  have htake : line.take 255 = line := List.take_of_length_le hlen
  have hsplit : nmea_fields line = (nmea_fields line).take 10 ++ (nmea_fields line).drop 10 :=
    (List.take_append_drop 10 _).symm
  have hall : ((nmea_fields line).take 10).filter (fun f => decide (f ≠ [])) =
      (nmea_fields line).take 10 := by
    rw [List.filter_eq_self]
    intro f hf
    rcases List.mem_iff_getElem.mp hf with ⟨i, hi, rfl⟩
    have hi10 : i < 10 := by
      have := List.length_take_le 10 (nmea_fields line); omega
    have hil : i < (nmea_fields line).length := by omega
    have := hfilled i hi10
    rw [List.getD_eq_getElem _ _ hil] at this
    rw [List.getElem_take]
    simpa using this
  have hlen10 : ((nmea_fields line).take 10).length = 10 := by
    rw [List.length_take]; omega
  have htok : gga_tokens line =
      ((nmea_fields line).take 10 ++
        ((nmea_fields line).drop 10).filter (fun f => decide (f ≠ []))).take 16 := by
    rw [gga_tokens_eq_filter, htake]
    conv_lhs => rw [hsplit, List.filter_append, hall]
  constructor
  · rw [htok, List.length_take, List.length_append, hlen10]; omega
  · intro i hi
    have h1 : i < (gga_tokens line).length := by
      rw [htok, List.length_take, List.length_append, hlen10]; omega
    have h2 : i < (nmea_fields line).length := by omega
    rw [List.getD_eq_getElem _ _ h1, List.getD_eq_getElem _ _ h2]
    simp only [htok, List.getElem_take]
    rw [List.getElem_append_left (by rw [hlen10]; exact hi), List.getElem_take]

theorem parse_gga_sentence_accepts_iff (atof : List Char → Double) (line : List Char)
    (out : GpsData) :
    (parse_gga_sentence atof line out).1 = true ↔
      10 ≤ (gga_tokens line).length ∧ ((gga_tokens line).getD 6 []).head? ≠ some '0' := by
  rw [parse_gga_sentence_tokens]
  by_cases h : (gga_tokens line).length < 10 ∨ ((gga_tokens line).getD 6 []).head? = some '0'
  · rw [if_pos h]
    simp only [Bool.false_eq_true, false_iff, not_and, not_not]
    intro h10
    rcases h with h | h
    · omega
    · exact h
  · rw [if_neg h]
    simp only [true_iff]
    push_neg at h
    exact ⟨h.1, h.2⟩

theorem parse_gga_sentence_refused (atof : List Char → Double) (line : List Char)
    (out : GpsData) (h : (parse_gga_sentence atof line out).1 = false) :
    (parse_gga_sentence atof line out).2 = out := by
  rw [parse_gga_sentence_tokens] at h ⊢
  by_cases hc : (gga_tokens line).length < 10 ∨ ((gga_tokens line).getD 6 []).head? = some '0'
  · rw [if_pos hc]
  · rw [if_neg hc] at h
    exact absurd h (by simp)

theorem parse_gga_sentence_accepted (atof : List Char → Double) (line : List Char)
    (out : GpsData) (h : (parse_gga_sentence atof line out).1 = true) :
    (parse_gga_sentence atof line out).2 =
      { latitude :=
          if ((gga_tokens line).getD 3 []).head? = some 'S' then
            -parse_coordinate atof (some ((gga_tokens line).getD 2 []))
          else parse_coordinate atof (some ((gga_tokens line).getD 2 [])),
        longitude :=
          if ((gga_tokens line).getD 5 []).head? = some 'W' then
            -parse_coordinate atof (some ((gga_tokens line).getD 4 []))
          else parse_coordinate atof (some ((gga_tokens line).getD 4 [])),
        altitude := atof ((gga_tokens line).getD 9 []),
        has_latitude := true, has_longitude := true, has_altitude := true,
        fix_time := format_fix_time (some ((gga_tokens line).getD 1 [])) 32,
        has_fix_time := true, raw := line.take 127, has_raw := true, dummy := false } := by
  rw [parse_gga_sentence_tokens] at h ⊢
  by_cases hc : (gga_tokens line).length < 10 ∨ ((gga_tokens line).getD 6 []).head? = some '0'
  · rw [if_pos hc] at h
    exact absurd h (by simp)
  · rw [if_neg hc]

/-- The time of a fix: six characters or more give `HH:MM:SS`. -/
theorem format_fix_time_six (t : List Char) (h : 6 ≤ t.length) :
    format_fix_time (some t) 32 =
      [t.getD 0 ' ', t.getD 1 ' ', ':', t.getD 2 ' ', t.getD 3 ' ', ':', t.getD 4 ' ',
        t.getD 5 ' '] := by
  have h1 : ¬ (t.length < 6 ∨ 32 < 9) := by omega
  simp only [format_fix_time, h1, if_false]

theorem gga_no_hdop_altitude :
    (parse_gga_sentence atof_decimal gga_no_hdop GpsData.zero).2.altitude = 0 := by
  rw [parse_gga_sentence_accepted _ _ _ (by decide)]
  have ht : (gga_tokens gga_no_hdop).getD 9 [] = "M".toList := by decide
  show atof_decimal ((gga_tokens gga_no_hdop).getD 9 []) = 0
  rw [ht, atof_decimal_M]

theorem gga_full_altitude :
    (parse_gga_sentence atof_decimal gga_full GpsData.zero).2.altitude = 545.4 := by
  rw [parse_gga_sentence_accepted _ _ _ (by decide)]
  have ht : (gga_tokens gga_full).getD 9 [] = "545.4".toList := by decide
  show atof_decimal ((gga_tokens gga_full).getD 9 []) = 545.4
  rw [ht, atof_decimal_545]; norm_num

/-- C17 on the code: the tokens that `parse_gga_sentence` indexes are the non-empty
comma-separated fields of the first 255 bytes, so they are the fields 0 to 9 only when
none of these is empty; the values of an accepted sentence are taken from the tokens 1,
2 and 3, 4 and 5, and 9, and a time of six characters or more is laid out as HH:MM:SS.
On the sentence whose field 8 is empty, field 9 is 545.4 but the altitude is read from
the token M and stored as 0, while on the sentence with every field filled in the
altitude is 545.4 and the time of field 1 gives 12:35:19. -/
theorem gga_values_by_token :
    (∀ line, gga_tokens line =
      ((nmea_fields (line.take 255)).filter (fun f => decide (f ≠ []))).take 16) ∧
    (∀ line, line.length ≤ 255 → 10 ≤ (nmea_fields line).length →
      (∀ i, i < 10 → (nmea_fields line).getD i [] ≠ []) →
      ∀ i, i < 10 → (gga_tokens line).getD i [] = (nmea_fields line).getD i []) ∧
    (∀ atof line out, (parse_gga_sentence atof line out).1 = true →
      (parse_gga_sentence atof line out).2 =
        { latitude :=
            if ((gga_tokens line).getD 3 []).head? = some 'S' then
              -parse_coordinate atof (some ((gga_tokens line).getD 2 []))
            else parse_coordinate atof (some ((gga_tokens line).getD 2 [])),
          longitude :=
            if ((gga_tokens line).getD 5 []).head? = some 'W' then
              -parse_coordinate atof (some ((gga_tokens line).getD 4 []))
            else parse_coordinate atof (some ((gga_tokens line).getD 4 [])),
          altitude := atof ((gga_tokens line).getD 9 []),
          has_latitude := true, has_longitude := true, has_altitude := true,
          fix_time := format_fix_time (some ((gga_tokens line).getD 1 [])) 32,
          has_fix_time := true, raw := line.take 127, has_raw := true, dummy := false }) ∧
    (∀ t : List Char, 6 ≤ t.length →
      format_fix_time (some t) 32 =
        [t.getD 0 ' ', t.getD 1 ' ', ':', t.getD 2 ' ', t.getD 3 ' ', ':', t.getD 4 ' ',
          t.getD 5 ' ']) ∧
    ((nmea_fields gga_no_hdop).getD 9 [] = "545.4".toList ∧
      (gga_tokens gga_no_hdop).getD 9 [] = "M".toList ∧
      (parse_gga_sentence atof_decimal gga_no_hdop GpsData.zero).1 = true ∧
      (parse_gga_sentence atof_decimal gga_no_hdop GpsData.zero).2.has_altitude = true ∧
      (parse_gga_sentence atof_decimal gga_no_hdop GpsData.zero).2.altitude = 0) ∧
    ((parse_gga_sentence atof_decimal gga_full GpsData.zero).1 = true ∧
      (parse_gga_sentence atof_decimal gga_full GpsData.zero).2.altitude = 545.4 ∧
      (parse_gga_sentence atof_decimal gga_full GpsData.zero).2.fix_time =
        "12:35:19".toList) :=
  ⟨gga_tokens_eq_filter,
    fun line hlen hcount hfilled => (gga_tokens_of_filled_fields line hlen hcount hfilled).2,
    parse_gga_sentence_accepted, format_fix_time_six,
    ⟨by decide, by decide, by decide, by decide, gga_no_hdop_altitude⟩,
    ⟨by decide, gga_full_altitude, by decide⟩⟩

/-- A line that `parse_gga_sentence` refuses makes the listening loop of `gps_worker` go
on to the next turn without a push. -/
theorem gps_worker_turn_refused (atof : List Char → Double) (env : WorkerEnv)
    (hstop : env.stop_flag = false) (hn : 0 < env.n)
    (href : (parse_gga_sentence atof (strip_newline env.n env.line) GpsData.zero).1 = false) :
    gps_worker_turn atof env = { pushed := none, next := some () } := by
  have h1 : ¬ env.n < 0 := by omega
  have h2 : ¬ env.n = 0 := by omega
  simp only [gps_worker_turn, hstop, h1, h2, href, Bool.false_eq_true, if_false, Bool.not_false,
    if_true, ite_self]

/-- C18 on the code: `parse_gga_sentence` accepts a line exactly when `strtok` finds ten
tokens or more and token 6 does not start with the character 0; a refused line leaves
`out` as it was and `gps_worker` pushes nothing for it. Fewer than ten fields are always
refused, and when the fields 0 to 9 are there and none is empty the line is accepted
exactly when field 6 does not start with 0. With empty fields the tokens are not the
fields: the sentence with fix quality 1 and empty position fields has fifteen fields
and is refused, and the sentence with fix quality 0 and an empty time field is
accepted. -/
theorem gga_acceptance_by_token :
    (∀ atof line out, (parse_gga_sentence atof line out).1 = true ↔
      10 ≤ (gga_tokens line).length ∧ ((gga_tokens line).getD 6 []).head? ≠ some '0') ∧
    (∀ atof line out, (parse_gga_sentence atof line out).1 = false →
      (parse_gga_sentence atof line out).2 = out) ∧
    (∀ atof env, env.stop_flag = false → 0 < env.n →
      (parse_gga_sentence atof (strip_newline env.n env.line) GpsData.zero).1 = false →
      gps_worker_turn atof env = { pushed := none, next := some () }) ∧
    (∀ atof line out, (nmea_fields (line.take 255)).length < 10 →
      (parse_gga_sentence atof line out).1 = false) ∧
    (∀ atof line out, line.length ≤ 255 → 10 ≤ (nmea_fields line).length →
      (∀ i, i < 10 → (nmea_fields line).getD i [] ≠ []) →
      ((parse_gga_sentence atof line out).1 = true ↔
        ((nmea_fields line).getD 6 []).head? ≠ some '0')) ∧
    ((nmea_fields gga_no_position).length = 15 ∧
      (nmea_fields gga_no_position).getD 6 [] = "1".toList ∧
      (gga_tokens gga_no_position).length = 8 ∧
      ∀ atof out, (parse_gga_sentence atof gga_no_position out).1 = false) ∧
    ((nmea_fields gga_no_fix).getD 6 [] = "0".toList ∧
      (gga_tokens gga_no_fix).getD 6 [] = "12".toList ∧
      ∀ atof out, (parse_gga_sentence atof gga_no_fix out).1 = true) := by
  refine ⟨parse_gga_sentence_accepts_iff, parse_gga_sentence_refused, gps_worker_turn_refused,
    ?_, ?_, ⟨by decide, by decide, by decide, ?_⟩, ⟨by decide, by decide, ?_⟩⟩
  · intro atof line out h
    cases hp : (parse_gga_sentence atof line out).1 with
    | false => rfl
    | true =>
        have := ((parse_gga_sentence_accepts_iff atof line out).mp hp).1
        have := gga_tokens_length_le line
        omega
  · intro atof line out hlen hcount hfilled
    have h := gga_tokens_of_filled_fields line hlen hcount hfilled
    rw [parse_gga_sentence_accepts_iff, h.2 6 (by decide)]
    exact ⟨fun hh => hh.2, fun hh => ⟨h.1, hh⟩⟩
  · intro atof out
    cases hp : (parse_gga_sentence atof gga_no_position out).1 with
    | false => rfl
    | true =>
        have h := ((parse_gga_sentence_accepts_iff atof gga_no_position out).mp hp).1
        exact absurd h (by decide)
  · intro atof out
    exact (parse_gga_sentence_accepts_iff atof gga_no_fix out).mpr ⟨by decide, by decide⟩

theorem gga_full_latitude_text :
    format_fixed 6 ((48 : Nat) + (7.038 : Double) / 60) = "48.117300".toList := by
  rw [format_fixed_of_scaled 6 _ 48117300 (by rw [abs_of_nonneg (by norm_num)]; norm_num)]
  have hpos : ¬ (((48 : Nat) : Double) + 7.038 / 60 < 0) := by norm_num
  rw [if_neg hpos]
  decide

theorem atof_decimal_01131 : atof_decimal "01131.000".toList = 1131 := by
  have h := atof_decimal_unsigned "01131.000".toList 1131000 3 (by decide) (by decide)
    (by decide)
  rw [h]; norm_num

theorem atof_decimal_S : atof_decimal "S".toList = 0 := by
  have h := atof_decimal_unsigned "S".toList 0 0 (by decide) (by decide) (by decide)
  rw [h]; norm_num

theorem atof_decimal_W : atof_decimal "W".toList = 0 := by
  have h := atof_decimal_unsigned "W".toList 0 0 (by decide) (by decide) (by decide)
  rw [h]; norm_num

/-- On a line of at most 255 bytes whose fields 0 to 9 are there and none of them empty,
an accepted sentence stores the coordinates of the fields 2 and 4, negated exactly when
the hemisphere fields 3 and 5 start with S and W. -/
theorem parse_gga_sentence_coordinates (atof : List Char → Double) (line : List Char)
    (out : GpsData) (hlen : line.length ≤ 255) (hcount : 10 ≤ (nmea_fields line).length)
    (hfilled : ∀ i, i < 10 → (nmea_fields line).getD i [] ≠ [])
    (hacc : (parse_gga_sentence atof line out).1 = true) :
    (parse_gga_sentence atof line out).2.has_latitude = true ∧
    (parse_gga_sentence atof line out).2.latitude =
      (if ((nmea_fields line).getD 3 []).head? = some 'S' then
        -parse_coordinate atof (some ((nmea_fields line).getD 2 []))
      else parse_coordinate atof (some ((nmea_fields line).getD 2 []))) ∧
    (parse_gga_sentence atof line out).2.has_longitude = true ∧
    (parse_gga_sentence atof line out).2.longitude =
      (if ((nmea_fields line).getD 5 []).head? = some 'W' then
        -parse_coordinate atof (some ((nmea_fields line).getD 4 []))
      else parse_coordinate atof (some ((nmea_fields line).getD 4 []))) := by
  have h := (gga_tokens_of_filled_fields line hlen hcount hfilled).2
  rw [parse_gga_sentence_accepted atof line out hacc]
  simp only [h 2 (by decide), h 3 (by decide), h 4 (by decide), h 5 (by decide), and_self,
    true_and]

theorem gga_south_west_position :
    (parse_gga_sentence atof_decimal gga_south_west GpsData.zero).2.latitude =
      -(((48 : Nat) : Double) + 7.038 / 60) ∧
    (parse_gga_sentence atof_decimal gga_south_west GpsData.zero).2.longitude =
      -(((11 : Nat) : Double) + 31 / 60) := by
  have hlat := parse_coordinate_value atof_decimal "4807.038".toList 48 7.038 (by decide)
    (by rw [atof_decimal_4807]; norm_num) (by norm_num) (by norm_num)
  have hlon := parse_coordinate_value atof_decimal "01131.000".toList 11 31 (by decide)
    (by rw [atof_decimal_01131]; norm_num) (by norm_num) (by norm_num)
  have h := parse_gga_sentence_coordinates atof_decimal gga_south_west GpsData.zero (by decide)
    (by decide) (by decide) (by decide)
  have h2 : (nmea_fields gga_south_west).getD 2 [] = "4807.038".toList := by decide
  have h3 : ((nmea_fields gga_south_west).getD 3 []).head? = some 'S' := by decide
  have h4 : (nmea_fields gga_south_west).getD 4 [] = "01131.000".toList := by decide
  have h5 : ((nmea_fields gga_south_west).getD 5 []).head? = some 'W' := by decide
  rw [h.2.1, h.2.2.2, if_pos h3, if_pos h5, h2, h4, hlat, hlon]
  exact ⟨rfl, rfl⟩

theorem gga_full_latitude :
    (parse_gga_sentence atof_decimal gga_full GpsData.zero).2.latitude =
      ((48 : Nat) : Double) + 7.038 / 60 := by
  have hlat := parse_coordinate_value atof_decimal "4807.038".toList 48 7.038 (by decide)
    (by rw [atof_decimal_4807]; norm_num) (by norm_num) (by norm_num)
  have h := parse_gga_sentence_coordinates atof_decimal gga_full GpsData.zero (by decide)
    (by decide) (by decide) (by decide)
  have h2 : (nmea_fields gga_full).getD 2 [] = "4807.038".toList := by decide
  have h3 : ¬ ((nmea_fields gga_full).getD 3 []).head? = some 'S' := by decide
  rw [h.2.1, if_neg h3, h2, hlat]

theorem gga_south_west_no_time_position :
    (parse_gga_sentence atof_decimal gga_south_west_no_time GpsData.zero).2.latitude = 0 ∧
    (parse_gga_sentence atof_decimal gga_south_west_no_time GpsData.zero).2.longitude = 0 := by
  have hS := parse_coordinate_value atof_decimal "S".toList 0 0 (by decide)
    (by rw [atof_decimal_S]; norm_num) (by norm_num) (by norm_num)
  have hW := parse_coordinate_value atof_decimal "W".toList 0 0 (by decide)
    (by rw [atof_decimal_W]; norm_num) (by norm_num) (by norm_num)
  have h := parse_gga_sentence_accepted atof_decimal gga_south_west_no_time GpsData.zero
    (by decide)
  have t2 : (gga_tokens gga_south_west_no_time).getD 2 [] = "S".toList := by decide
  have t3 : ¬ ((gga_tokens gga_south_west_no_time).getD 3 []).head? = some 'S' := by decide
  have t4 : (gga_tokens gga_south_west_no_time).getD 4 [] = "W".toList := by decide
  have t5 : ¬ ((gga_tokens gga_south_west_no_time).getD 5 []).head? = some 'W' := by decide
  rw [h]
  simp only [t2, t4, if_neg t3, if_neg t5, hS, hW]
  norm_num

theorem format_fixed_south_latitude :
    format_fixed 6 (-(((48 : Nat) : Double) + 7.038 / 60)) = "-48.117300".toList := by
  rw [format_fixed_of_scaled 6 _ 48117300 (by rw [abs_of_neg (by norm_num)]; norm_num)]
  have hneg : (-(((48 : Nat) : Double) + 7.038 / 60) < 0) := by norm_num
  rw [if_pos hneg]
  decide

/-- C19 on the code: on a coordinate field whose numeric value is `100 * D + M`, with
`D` a natural number of degrees and `0 ≤ M < 60` minutes, `parse_coordinate` returns
`D + M / 60`, and the encoder prints the stored latitude and longitude with six
decimals. On a sentence of at most 255 bytes whose fields 0 to 9 are all filled in,
`parse_gga_sentence` stores the coordinate of field 2 (field 4), negated exactly when
the hemisphere field 3 (field 5) starts with S (W): 4807.038 with N is stored as
48 + 7.038/60 and printed 48.117300, with S as its opposite, printed -48.117300. On the
sentence with the same fields 2 to 5 and an empty time field the tokens of `strtok` are
not the fields: it is accepted, the latitude is read from the token S and the longitude
from the token W, and both are stored as 0. -/
theorem coordinate_degrees_minutes :
    (∀ (atof : List Char → Double) (value : List Char) (D : Nat) (M : Double),
      value ≠ [] → atof value = 100 * (D : Double) + M → 0 ≤ M → M < 60 →
      parse_coordinate atof (some value) = (D : Double) + M / 60) ∧
    (∀ (atof : List Char → Double) (line : List Char) (out : GpsData),
      line.length ≤ 255 → 10 ≤ (nmea_fields line).length →
      (∀ i, i < 10 → (nmea_fields line).getD i [] ≠ []) →
      (parse_gga_sentence atof line out).1 = true →
      (parse_gga_sentence atof line out).2.has_latitude = true ∧
      (parse_gga_sentence atof line out).2.latitude =
        (if ((nmea_fields line).getD 3 []).head? = some 'S' then
          -parse_coordinate atof (some ((nmea_fields line).getD 2 []))
        else parse_coordinate atof (some ((nmea_fields line).getD 2 []))) ∧
      (parse_gga_sentence atof line out).2.has_longitude = true ∧
      (parse_gga_sentence atof line out).2.longitude =
        (if ((nmea_fields line).getD 5 []).head? = some 'W' then
          -parse_coordinate atof (some ((nmea_fields line).getD 4 []))
        else parse_coordinate atof (some ((nmea_fields line).getD 4 [])))) ∧
    (∀ (gps : GpsData) (indent : Int) (sb : StringBuilder), gps.has_latitude = true →
      gps.has_longitude = true →
      gps_latitude_part gps indent sb =
        sb ++ (",\n".toList ++ (indent_text (indent + 2) ++ ("\"latitude\": ".toList ++
          format_fixed 6 gps.latitude))) ∧
      gps_longitude_part gps indent sb =
        sb ++ (",\n".toList ++ (indent_text (indent + 2) ++ ("\"longitude\": ".toList ++
          format_fixed 6 gps.longitude)))) ∧
    ((parse_gga_sentence atof_decimal gga_full GpsData.zero).2.latitude =
        ((48 : Nat) : Double) + 7.038 / 60 ∧
      format_fixed 6 (((48 : Nat) : Double) + 7.038 / 60) = "48.117300".toList ∧
      (parse_gga_sentence atof_decimal gga_south_west GpsData.zero).2.latitude =
        -(((48 : Nat) : Double) + 7.038 / 60) ∧
      (parse_gga_sentence atof_decimal gga_south_west GpsData.zero).2.longitude =
        -(((11 : Nat) : Double) + 31 / 60) ∧
      format_fixed 6 (-(((48 : Nat) : Double) + 7.038 / 60)) = "-48.117300".toList) ∧
    ((nmea_fields gga_south_west_no_time).getD 2 [] = "4807.038".toList ∧
      (nmea_fields gga_south_west_no_time).getD 3 [] = "S".toList ∧
      (nmea_fields gga_south_west_no_time).getD 4 [] = "01131.000".toList ∧
      (nmea_fields gga_south_west_no_time).getD 5 [] = "W".toList ∧
      (gga_tokens gga_south_west_no_time).getD 2 [] = "S".toList ∧
      (gga_tokens gga_south_west_no_time).getD 4 [] = "W".toList ∧
      (parse_gga_sentence atof_decimal gga_south_west_no_time GpsData.zero).1 = true ∧
      (parse_gga_sentence atof_decimal gga_south_west_no_time GpsData.zero).2.has_latitude =
        true ∧
      (parse_gga_sentence atof_decimal gga_south_west_no_time GpsData.zero).2.latitude = 0 ∧
      (parse_gga_sentence atof_decimal gga_south_west_no_time GpsData.zero).2.longitude =
        0) := by
  refine ⟨parse_coordinate_value, parse_gga_sentence_coordinates, ?_,
    ⟨gga_full_latitude, gga_full_latitude_text, gga_south_west_position.1,
      gga_south_west_position.2, format_fixed_south_latitude⟩,
    ⟨by decide, by decide, by decide, by decide, by decide, by decide, by decide, by decide,
      gga_south_west_no_time_position.1, gga_south_west_no_time_position.2⟩⟩
  intro gps indent sb hlat hlon
  rw [gps_latitude_part_eq, gps_longitude_part_eq, hlat, hlon]
  simp

/-! ## The worker loops -/

/-- A loop that leaves on a refused push makes no push after one. -/
theorem worker_pushes_refused_last {σ : Type} (turn : σ → WorkerEnv → WorkerTurn σ)
    (h : leaves_on_refusal turn) (vars : σ) (envs : List WorkerEnv) :
    refused_push_is_last (worker_pushes turn vars envs) = true := by
  induction envs generalizing vars with
  | nil => rfl
  | cons env envs ih =>
      rw [worker_pushes]
      cases hp : (turn vars env).pushed with
      | none =>
          cases hn : (turn vars env).next with
          | none => rfl
          | some vars' => simpa using ih vars'
      | some msg =>
          cases hn : (turn vars env).next with
          | none =>
              simp [refused_push_is_last]
          | some vars' =>
              have hok : env.push_result = true := by
                cases hr : env.push_result with
                | true => rfl
                | false =>
                    have := h vars env (by rw [hp]; rfl) hr
                    rw [hn] at this
                    exact absurd this (by simp)
              simpa [refused_push_is_last, hok] using ih vars'

theorem mpu_worker_turn_leaves (sqrt : Double → Double) (atan2 : Double → Double → Double)
    (pi : Double) (accel_offsets gyro_offsets : Double × Double × Double) :
    leaves_on_refusal (mpu_worker_turn sqrt atan2 pi accel_offsets gyro_offsets) := by
  intro vars env hp hr
  unfold mpu_worker_turn at hp ⊢
  by_cases hs : env.stop_flag = true
  · simp [hs] at hp
  · cases hraw : env.raw_read with
    | none => simp [hs, hraw] at hp
    | some raw => simp [hs, hraw, hr]

theorem bmp_worker_turn_leaves : leaves_on_refusal (fun (_ : Unit) env => bmp_worker_turn env) := by
  intro vars env hp hr
  simp only [bmp_worker_turn] at hp ⊢
  split_ifs at hp ⊢ <;> simp_all

theorem gps_worker_turn_leaves (atof : List Char → Double) :
    leaves_on_refusal (fun (_ : Unit) env => gps_worker_turn atof env) := by
  intro vars env hp hr
  simp only [gps_worker_turn] at hp ⊢
  split_ifs at hp ⊢ <;> simp_all

/-- C20: in the capture loop of `mpu_worker` and the listening loops of `bmp_worker` and
`gps_worker` a turn whose push is refused leaves the loop, so over any run of turns no
push follows a refused one. The three dummy loops do not look at the result of
`sensor_queue_push`: with the stop flag clear, a turn whose push is refused goes on to
the next turn, which pushes again; they leave only at a turn that finds the stop flag
set. -/
theorem workers_on_refused_push :
    (∀ sqrt atan2 pi accel_offsets gyro_offsets vars envs,
      leaves_on_refusal (mpu_worker_turn sqrt atan2 pi accel_offsets gyro_offsets) ∧
      refused_push_is_last
        (worker_pushes (mpu_worker_turn sqrt atan2 pi accel_offsets gyro_offsets) vars envs)
        = true) ∧
    (∀ envs,
      leaves_on_refusal (fun (_ : Unit) env => bmp_worker_turn env) ∧
      refused_push_is_last (worker_pushes (fun (_ : Unit) env => bmp_worker_turn env) () envs)
        = true) ∧
    (∀ atof envs,
      leaves_on_refusal (fun (_ : Unit) env => gps_worker_turn atof env) ∧
      refused_push_is_last
        (worker_pushes (fun (_ : Unit) env => gps_worker_turn atof env) () envs) = true) ∧
    (∀ sin cos phase t1 t2,
      (mpu_worker_dummy_turn sin cos phase (env_queue_closed t1)).next = some (phase + 0.05) ∧
      (worker_pushes (mpu_worker_dummy_turn sin cos) phase
        [env_queue_closed t1, env_queue_closed t2]).map Prod.snd = [false, false]) ∧
    (∀ vars t1 t2,
      (bmp_worker_dummy_turn vars (env_queue_closed t1)).next =
        some (vars.1 + 0.01, vars.2 + 0.02) ∧
      (worker_pushes bmp_worker_dummy_turn vars
        [env_queue_closed t1, env_queue_closed t2]).map Prod.snd = [false, false]) ∧
    (∀ vars t1 t2,
      (gps_worker_dummy_turn vars (env_queue_closed t1)).next =
        some (vars.1 + 0.00001, vars.2 - 0.00001) ∧
      (worker_pushes gps_worker_dummy_turn vars
        [env_queue_closed t1, env_queue_closed t2]).map Prod.snd = [false, false]) ∧
    (∀ sin cos phase vars t1 t2,
      (worker_pushes (mpu_worker_dummy_turn sin cos) phase
        [env_queue_closed t1, env_stopped t2]).map Prod.snd = [false] ∧
      (worker_pushes bmp_worker_dummy_turn vars
        [env_queue_closed t1, env_stopped t2]).map Prod.snd = [false] ∧
      (worker_pushes gps_worker_dummy_turn vars
        [env_queue_closed t1, env_stopped t2]).map Prod.snd = [false]) := by
  refine ⟨?_, ?_, ?_, ?_, ?_, ?_, ?_⟩
  · intro sqrt atan2 pi ao go vars envs
    exact ⟨mpu_worker_turn_leaves sqrt atan2 pi ao go,
      worker_pushes_refused_last _ (mpu_worker_turn_leaves sqrt atan2 pi ao go) vars envs⟩
  · intro envs
    exact ⟨bmp_worker_turn_leaves, worker_pushes_refused_last _ bmp_worker_turn_leaves () envs⟩
  · intro atof envs
    exact ⟨gps_worker_turn_leaves atof,
      worker_pushes_refused_last _ (gps_worker_turn_leaves atof) () envs⟩
  · intro sin cos phase t1 t2
    simp [worker_pushes, mpu_worker_dummy_turn, env_queue_closed]
  · intro vars t1 t2
    simp [worker_pushes, bmp_worker_dummy_turn, env_queue_closed]
  · intro vars t1 t2
    simp [worker_pushes, gps_worker_dummy_turn, env_queue_closed]
  · intro sin cos phase vars t1 t2
    simp [worker_pushes, mpu_worker_dummy_turn, bmp_worker_dummy_turn, gps_worker_dummy_turn,
      env_queue_closed, env_stopped]

/-! ## The aggregator loop on its queue -/

/-- A timed pop on an empty queue, open or closed, returns false and leaves the queue. -/
theorem pop_empty_timed (queue : SensorQueue) (timeout_seconds : Double)
    (htimed : timeout_seconds ≥ 0) (hempty : queue.count = 0) :
    sensor_queue_pop queue timeout_seconds = .returns (none, queue) := by
  have h0 : (0.0 : Double) = 0 := by norm_num
  have ht : (timeout_seconds ≥ 0.0) := by rw [h0]; exact htimed
  by_cases hc : queue.closed = true
  · simp [sensor_queue_pop, hempty, hc]
  · simp [sensor_queue_pop, hempty, hc, ht]

theorem turn_on_empty_queue (sqrt : Double → Double) (ls : LoopState) (queue : SensorQueue)
    (stop_after_pop : Bool) (now : Double) (send_ok : Bool) (hempty : queue.count = 0) :
    aggregator_turn_on_queue sqrt ls queue false stop_after_pop now send_ok =
      .returns (if stop_after_pop then { ls with running := false } else ls, queue) := by
  have hp := pop_empty_timed queue 0.2 (by norm_num) hempty
  simp only [aggregator_turn_on_queue, hp, aggregator_loop_turn, Bool.false_eq_true, if_false]

/-- C21 as stated fails: on a queue that is closed and empty, with the stop flag clear,
the pop returns false and the loop goes on to its next turn; and after a timeout on an
open queue the loop is left when the stop flag is set. -/
theorem closed_empty_does_not_end_loop :
    queue_closed_empty.closed = true ∧ queue_closed_empty.count = 0 ∧
    sensor_queue_pop queue_closed_empty 0.2 = .returns (none, queue_closed_empty) ∧
    loop_goes_on
      (aggregator_turn_on_queue sqrtQ (loop_start initial_state) queue_closed_empty false false
        1 true) = true ∧
    queue_open_empty.closed = false ∧
    loop_left
      (aggregator_turn_on_queue sqrtQ (loop_start initial_state) queue_open_empty false true
        1 true) = true := by
  refine ⟨rfl, rfl, pop_empty_timed _ _ (by norm_num) rfl, ?_, rfl, ?_⟩
  · rw [turn_on_empty_queue _ _ _ _ _ _ rfl]; rfl
  · rw [turn_on_empty_queue _ _ _ _ _ _ rfl]; rfl

/-- C21, as the code has it: when the pop of a turn finds the queue empty, open (a
timeout) or closed alike, it returns false, and the loop is left exactly when the stop
flag read after the pop is set; with the flag clear the loop goes on, its state and the
queue as they were. -/
theorem failed_pop_follows_stop_flag (sqrt : Double → Double) (ls : LoopState)
    (queue : SensorQueue) (stop_after_pop : Bool) (now : Double) (send_ok : Bool)
    (hrun : ls.running = true) (hempty : queue.count = 0) :
    sensor_queue_pop queue 0.2 = .returns (none, queue) ∧
    aggregator_turn_on_queue sqrt ls queue false stop_after_pop now send_ok =
      .returns (if stop_after_pop then { ls with running := false } else ls, queue) ∧
    (loop_left (aggregator_turn_on_queue sqrt ls queue false stop_after_pop now send_ok) = true ↔
      stop_after_pop = true) ∧
    (loop_goes_on (aggregator_turn_on_queue sqrt ls queue false stop_after_pop now send_ok) =
      true ↔ stop_after_pop = false) := by
  refine ⟨pop_empty_timed _ _ (by norm_num) hempty,
    turn_on_empty_queue sqrt ls queue stop_after_pop now send_ok hempty, ?_, ?_⟩
  · rw [turn_on_empty_queue sqrt ls queue stop_after_pop now send_ok hempty]
    cases stop_after_pop <;> simp [loop_left, hrun]
  · rw [turn_on_empty_queue sqrt ls queue stop_after_pop now send_ok hempty]
    cases stop_after_pop <;> simp [loop_goes_on, hrun]

/-- C21 on the queue closed while empty: with the flag set the loop is left, with the
flag clear it goes on. -/
theorem failed_pop_on_closed_queue :
    ((loop_start initial_state).running = true ∧ queue_closed_empty.count = 0) ∧
    loop_left
      (aggregator_turn_on_queue sqrtQ (loop_start initial_state) queue_closed_empty false true
        1 true) = true ∧
    loop_goes_on
      (aggregator_turn_on_queue sqrtQ (loop_start initial_state) queue_closed_empty false false
        1 true) = true :=
  ⟨⟨rfl, rfl⟩,
    (failed_pop_follows_stop_flag sqrtQ (loop_start initial_state) queue_closed_empty true 1 true
      rfl rfl).2.2.1.mpr rfl,
    (failed_pop_follows_stop_flag sqrtQ (loop_start initial_state) queue_closed_empty false 1
      true rfl rfl).2.2.2.mpr rfl⟩

/-! ## Lines of the baro worker -/

/-- The liftoff detector leaves the per-sensor entries alone. -/
theorem handle_mpu_entries (sqrt : Double → Double) (st : AggregatorState)
    (msg : SensorMessage) :
    (aggregator_handle_mpu sqrt st msg).tracker.seen = st.tracker.seen ∧
    (aggregator_handle_mpu sqrt st msg).tracker.last_dummy = st.tracker.last_dummy ∧
    (aggregator_handle_mpu sqrt st msg).latest = st.latest ∧
    (aggregator_handle_mpu sqrt st msg).has_latest = st.has_latest := by
  rcases handle_mpu_cases sqrt st msg with he | ⟨_, _, he⟩
  · rw [he]; exact ⟨rfl, rfl, rfl, rfl⟩
  · rw [he]
    refine ⟨?_, ?_, rfl, rfl⟩ <;> split_ifs <;> rfl

/-- The entries after one sample is taken in. -/
theorem take_message_entries (sqrt : Double → Double) (st : AggregatorState)
    (msg : SensorMessage) :
    (aggregator_take_message sqrt st msg).tracker.seen =
      Function.update st.tracker.seen msg.sensor true ∧
    (aggregator_take_message sqrt st msg).tracker.last_dummy =
      Function.update st.tracker.last_dummy msg.sensor (sample_dummy msg) ∧
    (aggregator_take_message sqrt st msg).latest = Function.update st.latest msg.sensor msg ∧
    (aggregator_take_message sqrt st msg).has_latest =
      Function.update st.has_latest msg.sensor true := by
  obtain ⟨h1, h2, h3, h4⟩ := handle_mpu_entries sqrt st msg
  cases hs : msg.sensor <;>
    simp [aggregator_take_message, hs, activity_tracker_update, sample_dummy, h1, h2, h3, h4]

theorem take_messages_snoc (sqrt : Double → Double) (st : AggregatorState)
    (msgs : List SensorMessage) (msg : SensorMessage) :
    take_messages sqrt st (msgs ++ [msg]) =
      aggregator_take_message sqrt (take_messages sqrt st msgs) msg := by
  simp [take_messages]

theorem last_sample_snoc (s : SensorType) (msgs : List SensorMessage) (msg : SensorMessage) :
    last_sample s (msgs ++ [msg]) = if msg.sensor = s then some msg else last_sample s msgs := by
  simp only [last_sample, List.reverse_append, List.reverse_cons, List.reverse_nil,
    List.nil_append, List.singleton_append, List.find?_cons]
  by_cases h : msg.sensor = s <;> simp [h]

/-- The entries of a sensor after a sequence of samples, from any state. -/
theorem take_messages_entries (sqrt : Double → Double) (st : AggregatorState)
    (msgs : List SensorMessage) (s : SensorType) :
    match last_sample s msgs with
    | none =>
        (take_messages sqrt st msgs).tracker.seen s = st.tracker.seen s ∧
        (take_messages sqrt st msgs).tracker.last_dummy s = st.tracker.last_dummy s ∧
        (take_messages sqrt st msgs).latest s = st.latest s ∧
        (take_messages sqrt st msgs).has_latest s = st.has_latest s
    | some m =>
        (take_messages sqrt st msgs).tracker.seen s = true ∧
        (take_messages sqrt st msgs).tracker.last_dummy s = sample_dummy m ∧
        (take_messages sqrt st msgs).latest s = m ∧
        (take_messages sqrt st msgs).has_latest s = true := by
  induction msgs using List.reverseRecOn with
  | nil => exact ⟨rfl, rfl, rfl, rfl⟩
  | append_singleton msgs msg ih =>
      obtain ⟨h1, h2, h3, h4⟩ := take_message_entries sqrt (take_messages sqrt st msgs) msg
      rw [last_sample_snoc, take_messages_snoc]
      by_cases hs : msg.sensor = s
      · rw [if_pos hs, h1, h2, h3, h4]
        subst hs
        simp
      · rw [if_neg hs, h1, h2, h3, h4]
        have hne : s ≠ msg.sensor := fun h => hs h.symm
        simp only [Function.update_noteq hne]
        exact ih

theorem last_sample_eq_none (s : SensorType) (msgs : List SensorMessage) :
    last_sample s msgs = none ↔ ¬ ∃ m ∈ msgs, m.sensor = s := by
  simp [last_sample]

theorem last_sample_some (s : SensorType) (msgs : List SensorMessage) (m : SensorMessage)
    (h : last_sample s msgs = some m) : m ∈ msgs ∧ m.sensor = s := by
  have h1 := List.find?_some h
  have h2 := List.mem_of_find?_eq_some h
  exact ⟨by simpa using h2, by simpa using h1⟩

theorem last_sample_of_split (s : SensorType) (front back : List SensorMessage)
    (m : SensorMessage) (hm : m.sensor = s) (hback : ∀ x ∈ back, x.sensor ≠ s) :
    last_sample s (front ++ m :: back) = some m := by
  have hnone : back.reverse.find? (fun x => decide (x.sensor = s)) = none := by
    rw [List.find?_eq_none]
    intro x hx
    simpa using hback x (List.mem_reverse.mp hx)
  simp only [last_sample, List.reverse_append, List.reverse_cons, List.append_assoc,
    List.singleton_append, List.find?_append, hnone, Option.none_or, List.find?_cons, hm,
    decide_True]

/-- C23: after the aggregator has taken in a sequence of samples from the state made by
`aggregator_start` around a freshly initialised tracker, for every sensor `s` the flags
`seen[s]` and `has_latest[s]` are set exactly when the sequence holds a sample with id
`s`; then `last_dummy[s]` is the dummy flag of the last such sample and `latest[s]` is
that sample; and taking in a sample changes no entry of another sensor. -/
theorem latest_samples_per_sensor :
    (∀ (sqrt : Double → Double) (config : AggregatorConfig) (msgs : List SensorMessage)
        (s : SensorType),
      ((take_messages sqrt (aggregator_state_new config activity_tracker_init)
          msgs).tracker.seen s = true ↔ ∃ m ∈ msgs, m.sensor = s) ∧
      ((take_messages sqrt (aggregator_state_new config activity_tracker_init)
          msgs).has_latest s = true ↔ ∃ m ∈ msgs, m.sensor = s) ∧
      (∀ front m back, msgs = front ++ m :: back → m.sensor = s →
        (∀ x ∈ back, x.sensor ≠ s) →
        (take_messages sqrt (aggregator_state_new config activity_tracker_init)
          msgs).tracker.last_dummy s = sample_dummy m ∧
        (take_messages sqrt (aggregator_state_new config activity_tracker_init)
          msgs).latest s = m)) ∧
    (∀ (sqrt : Double → Double) (state : AggregatorState) (msg : SensorMessage)
        (s : SensorType), s ≠ msg.sensor →
      (aggregator_take_message sqrt state msg).tracker.seen s = state.tracker.seen s ∧
      (aggregator_take_message sqrt state msg).tracker.last_dummy s =
        state.tracker.last_dummy s ∧
      (aggregator_take_message sqrt state msg).latest s = state.latest s ∧
      (aggregator_take_message sqrt state msg).has_latest s = state.has_latest s) := by
  constructor
  · intro sqrt config msgs s
    have h := take_messages_entries sqrt (aggregator_state_new config activity_tracker_init)
      msgs s
    refine ⟨?_, ?_, ?_⟩
    · cases hl : last_sample s msgs with
      | none =>
          rw [hl] at h
          have hno := (last_sample_eq_none s msgs).mp hl
          rw [h.1]
          simp only [aggregator_state_new, activity_tracker_init, Bool.false_eq_true, false_iff]
          exact hno
      | some m =>
          rw [hl] at h
          have hm := last_sample_some s msgs m hl
          exact ⟨fun _ => ⟨m, hm.1, hm.2⟩, fun _ => h.1⟩
    · cases hl : last_sample s msgs with
      | none =>
          rw [hl] at h
          have hno := (last_sample_eq_none s msgs).mp hl
          rw [h.2.2.2]
          simp only [aggregator_state_new, Bool.false_eq_true, false_iff]
          exact hno
      | some m =>
          rw [hl] at h
          have hm := last_sample_some s msgs m hl
          exact ⟨fun _ => ⟨m, hm.1, hm.2⟩, fun _ => h.2.2.2⟩
    · intro front m back hsplit hm hback
      have hl := last_sample_of_split s front back m hm hback
      rw [← hsplit] at hl
      rw [hl] at h
      exact ⟨h.2.1, h.2.2.1⟩
  · intro sqrt state msg s hne
    obtain ⟨h1, h2, h3, h4⟩ := take_message_entries sqrt state msg
    rw [h1, h2, h3, h4]
    simp only [Function.update_noteq hne, and_self]

/-! ## The invariant of the queue -/

/-- Push keeps the shape of the queue, its capacity, and a set closed flag. -/
theorem push_keeps_wf (q : SensorQueue) (m : SensorMessage) (hwf : queue_wf q) :
    queue_wf (queue_op q (.push m)) ∧ (queue_op q (.push m)).capacity = q.capacity ∧
      (q.closed = true → (queue_op q (.push m)).closed = true) := by
  by_cases hc : q.closed = true
  · have hq : queue_op q (.push m) = q := by simp only [queue_op, push_closed q m hc]
    rw [hq]
    exact ⟨hwf, rfl, fun h => h⟩
  · have hopen : q.closed = false := by simpa using hc
    by_cases hfull : q.count = q.capacity
    · have : sensor_queue_push q m = .blocks := by
        simp [sensor_queue_push, hopen, hfull]
      have hq : queue_op q (.push m) = q := by simp only [queue_op, this]
      rw [hq]
      exact ⟨hwf, rfl, fun h => h⟩
    · obtain ⟨q2, he, hwf2, _, hcap, _⟩ := push_open q m hwf hopen
        (lt_of_le_of_ne hwf.2.2.2.1 hfull)
      have hq : queue_op q (.push m) = q2 := by simp only [queue_op, he]
      rw [hq]
      exact ⟨hwf2, hcap, fun h => absurd h hc⟩

/-- Pop keeps the shape of the queue, its capacity, and the closed flag. -/
theorem pop_keeps_wf (q : SensorQueue) (t : Double) (hwf : queue_wf q) :
    queue_wf (queue_op q (.pop t)) ∧ (queue_op q (.pop t)).capacity = q.capacity ∧
      (queue_op q (.pop t)).closed = q.closed := by
  by_cases hz : q.count = 0
  · have : queue_op q (.pop t) = q := by
      simp only [queue_op, sensor_queue_pop, hz]
      by_cases hc : q.closed = true <;> by_cases ht : t ≥ 0.0 <;> simp [hc, ht]
    rw [this]
    exact ⟨hwf, rfl, rfl⟩
  · obtain ⟨q2, he, hwf2, hcl, hcap, _, _⟩ := pop_nonempty q t hwf (Nat.pos_of_ne_zero hz)
    have hq : queue_op q (.pop t) = q2 := by simp only [queue_op, he]
    rw [hq]
    exact ⟨hwf2, hcap, hcl⟩

theorem close_keeps_wf (q : SensorQueue) (hwf : queue_wf q) :
    queue_wf (sensor_queue_close q) := hwf

theorem queue_op_keeps (q : SensorQueue) (op : QueueOp) (hwf : queue_wf q) :
    queue_wf (queue_op q op) ∧ (queue_op q op).capacity = q.capacity ∧
      (q.closed = true → (queue_op q op).closed = true) := by
  cases op with
  | push m => exact push_keeps_wf q m hwf
  | pop t =>
      obtain ⟨h1, h2, h3⟩ := pop_keeps_wf q t hwf
      exact ⟨h1, h2, fun h => by rw [h3]; exact h⟩
  | close => exact ⟨hwf, rfl, fun _ => rfl⟩

theorem queue_ops_keep (ops : List QueueOp) (q : SensorQueue) (hwf : queue_wf q) :
    queue_wf (queue_ops q ops) ∧ (queue_ops q ops).capacity = q.capacity ∧
      (q.closed = true → (queue_ops q ops).closed = true) := by
  induction ops generalizing q with
  | nil => exact ⟨hwf, rfl, fun h => h⟩
  | cons op rest ih =>
      obtain ⟨h1, h2, h3⟩ := queue_op_keeps q op hwf
      obtain ⟨i1, i2, i3⟩ := ih (queue_op q op) h1
      exact ⟨i1, i2.trans h2, fun h => i3 (h3 h)⟩

theorem queue_ops_append (q : SensorQueue) (a b : List QueueOp) :
    queue_ops q (a ++ b) = queue_ops (queue_ops q a) b := by
  simp [queue_ops]

/-- C24: every queue reached from `sensor_queue_create C`, `C ≥ 1`, by pushes, pops and
closes in any order has `count ≤ capacity = C`, `head < C`, `tail < C` and
`tail = (head + count) mod C`; once the closed flag is set it stays set through every
later call; `sensor_queue_close` changes the closed flag only, and closing twice is
closing once. -/
theorem queue_invariant (C : Nat) (hC : 1 ≤ C) (ops : List QueueOp) :
    ((queue_ops (sensor_queue_create C) ops).count ≤
        (queue_ops (sensor_queue_create C) ops).capacity ∧
      (queue_ops (sensor_queue_create C) ops).capacity = C ∧
      (queue_ops (sensor_queue_create C) ops).head < C ∧
      (queue_ops (sensor_queue_create C) ops).tail < C ∧
      (queue_ops (sensor_queue_create C) ops).tail =
        ((queue_ops (sensor_queue_create C) ops).head +
          (queue_ops (sensor_queue_create C) ops).count) % C) ∧
    (∀ later, (queue_ops (sensor_queue_create C) ops).closed = true →
      (queue_ops (sensor_queue_create C) (ops ++ later)).closed = true) ∧
    (∀ q : SensorQueue,
      sensor_queue_close q = { q with closed := true } ∧
      sensor_queue_close (sensor_queue_close q) = sensor_queue_close q) := by
  have hcreate : (sensor_queue_create C).capacity = C := by
    have : C ≠ 0 := by omega
    simp [sensor_queue_create, this]
  obtain ⟨hwf, hcap, _⟩ := queue_ops_keep ops (sensor_queue_create C) (queue_wf_create C)
  rw [hcreate] at hcap
  obtain ⟨h1, _, h3, h4, h5⟩ := hwf
  rw [hcap] at h3 h5
  refine ⟨⟨h4, hcap, h3, ?_, h5⟩, ?_, fun q => ⟨rfl, rfl⟩⟩
  · rw [h5]; exact Nat.mod_lt _ (by omega)
  · intro later hclosed
    rw [queue_ops_append]
    exact (queue_ops_keep later _ ⟨h1, ‹_›, by rw [hcap]; exact h3, h4, by rw [hcap]; exact h5⟩).2.2
      hclosed

/-- C24 on a queue of capacity 2: after push, push, pop, push, close, push the ring has
wrapped around (head 1, tail 1, count 2) and the queue is closed. -/
theorem queue_invariant_capacity_two :
    (1 ≤ 2) ∧
    (queue_ops (sensor_queue_create 2)
      [.push sample_A, .push sample_B, .pop 0.2, .push sample_C, .close, .push sample_A]).head = 1 ∧
    (queue_ops (sensor_queue_create 2)
      [.push sample_A, .push sample_B, .pop 0.2, .push sample_C, .close, .push sample_A]).tail = 1 ∧
    (queue_ops (sensor_queue_create 2)
      [.push sample_A, .push sample_B, .pop 0.2, .push sample_C, .close, .push sample_A]).count = 2 ∧
    (queue_ops (sensor_queue_create 2)
      [.push sample_A, .push sample_B, .pop 0.2, .push sample_C, .close, .push sample_A]).tail =
      ((queue_ops (sensor_queue_create 2)
        [.push sample_A, .push sample_B, .pop 0.2, .push sample_C, .close, .push sample_A]).head +
       (queue_ops (sensor_queue_create 2)
        [.push sample_A, .push sample_B, .pop 0.2, .push sample_C, .close, .push sample_A]).count)
        % 2 :=
  ⟨by decide, by decide, by decide, by decide,
    (queue_invariant 2 (by decide)
      [.push sample_A, .push sample_B, .pop 0.2, .push sample_C, .close, .push sample_A]).1.2.2.2.2⟩

/-! ## Raw readings -/

theorem byte_pair_value (buffer : List Nat) (k : Nat) (hlo : buffer.getD (k + 1) 0 < 256) :
    byte_pair buffer k = ((buffer.getD k 0 * 256 + buffer.getD (k + 1) 0 : Nat) : Int) := by
  have h := Nat.mul_add_lt_is_or (i := 8) (b := buffer.getD (k + 1) 0) (by simpa using hlo)
    (buffer.getD k 0)
  rw [byte_pair, Nat.shiftLeft_eq, Nat.mul_comm (buffer.getD k 0) (2 ^ 8), ← h]

theorem int16_cast_pair (hi lo : Nat) (hhi : hi < 256) (hlo : lo < 256) :
    int16_cast ((hi * 256 + lo : Nat) : Int) = twos_complement_16 hi lo := by
  have hlt : hi * 256 + lo < 65536 := by omega
  have hmod : ((hi * 256 + lo : Nat) : Int) % 65536 = ((hi * 256 + lo : Nat) : Int) := by
    apply Int.emod_eq_of_lt <;> omega
  simp only [int16_cast, hmod, twos_complement_16]
  by_cases h : hi * 256 + lo < 32768
  · rw [if_pos h, if_neg (by omega)]
  · rw [if_neg h, if_pos (by omega)]

theorem getD_lt_of_all (buffer : List Nat) (hbytes : ∀ b ∈ buffer, b < 256) (k : Nat) :
    buffer.getD k 0 < 256 := by
  by_cases hk : k < buffer.length
  · rw [List.getD_eq_getElem _ _ hk]
    exact hbytes _ (List.getElem_mem _)
  · rw [List.getD_eq_default _ _ (by omega)]
    decide

theorem decode_pair (buffer : List Nat) (hbytes : ∀ b ∈ buffer, b < 256) (k : Nat) :
    int16_cast (byte_pair buffer k) =
      twos_complement_16 (buffer.getD k 0) (buffer.getD (k + 1) 0) := by
  rw [byte_pair_value buffer k (getD_lt_of_all buffer hbytes _),
    int16_cast_pair _ _ (getD_lt_of_all buffer hbytes _) (getD_lt_of_all buffer hbytes _)]

theorem mpu_read_raw_value (buffer : List Nat) (hlen : buffer.length = 14)
    (hbytes : ∀ b ∈ buffer, b < 256) :
    mpu_read_raw true buffer =
      some
        ((twos_complement_16 (buffer.getD 0 0) (buffer.getD 1 0),
          twos_complement_16 (buffer.getD 2 0) (buffer.getD 3 0),
          twos_complement_16 (buffer.getD 4 0) (buffer.getD 5 0)),
         (twos_complement_16 (buffer.getD 8 0) (buffer.getD 9 0),
          twos_complement_16 (buffer.getD 10 0) (buffer.getD 11 0),
          twos_complement_16 (buffer.getD 12 0) (buffer.getD 13 0))) := by
  simp only [mpu_read_raw, i2c_read_bytes, hlen, Bool.not_true, Bool.false_eq_true, if_false,
    if_true, decode_pair buffer hbytes]

theorem twos_complement_16_range (hi lo : Nat) (hhi : hi < 256) (hlo : lo < 256) :
    -32768 ≤ twos_complement_16 hi lo ∧ twos_complement_16 hi lo ≤ 32767 := by
  unfold twos_complement_16
  split_ifs <;> constructor <;> omega

/-- The readings of the message pushed by a turn of the capture loop: each is the raw
value less its offset, divided by the scale, then smoothed with weight `ALPHA`. -/
theorem mpu_worker_turn_readings (sqrt : Double → Double) (atan2 : Double → Double → Double)
    (pi : Double) (accel_offsets gyro_offsets : Double × Double × Double) (vars : MpuLoop)
    (env : WorkerEnv) (accel_raw gyro_raw : Int × Int × Int) (hstop : env.stop_flag = false)
    (hraw : env.raw_read = some (accel_raw, gyro_raw)) :
    pushed_readings (mpu_worker_turn sqrt atan2 pi accel_offsets gyro_offsets vars env) =
      some
        (ALPHA * (((accel_raw.1 : Double) - accel_offsets.1) / 16384) +
            (1 - ALPHA) * vars.alpha_ax,
          ALPHA * (((accel_raw.2.1 : Double) - accel_offsets.2.1) / 16384) +
            (1 - ALPHA) * vars.alpha_ay,
          ALPHA * (((accel_raw.2.2 : Double) - accel_offsets.2.2) / 16384) +
            (1 - ALPHA) * vars.alpha_az,
          ALPHA * (((gyro_raw.1 : Double) - gyro_offsets.1) / 131) +
            (1 - ALPHA) * vars.alpha_gx,
          ALPHA * (((gyro_raw.2.1 : Double) - gyro_offsets.2.1) / 131) +
            (1 - ALPHA) * vars.alpha_gy,
          ALPHA * (((gyro_raw.2.2 : Double) - gyro_offsets.2.2) / 131) +
            (1 - ALPHA) * vars.alpha_gz) := by
  unfold mpu_worker_turn
  simp only [hstop, hraw, Bool.false_eq_true, if_false]
  cases env.push_result <;> rfl

theorem getD_set_other (buffer : List Nat) (i j x : Nat) (h : i ≠ j) :
    (buffer.set i x).getD j 0 = buffer.getD j 0 := by
  simp only [List.getD_eq_getElem?_getD, List.getElem?_set_ne h]

theorem byte_pair_set (buffer : List Nat) (i k x : Nat) (h1 : i ≠ k) (h2 : i ≠ k + 1) :
    byte_pair (buffer.set i x) k = byte_pair buffer k := by
  simp only [byte_pair, getD_set_other _ _ _ _ h1, getD_set_other _ _ _ _ h2]

theorem mpu_read_raw_ignores_6_7 (write_ok : Bool) (buffer : List Nat) (x y : Nat) :
    mpu_read_raw write_ok ((buffer.set 6 x).set 7 y) = mpu_read_raw write_ok buffer := by
  cases write_ok with
  | false => rfl
  | true =>
      by_cases hlen : buffer.length = 14
      · simp only [mpu_read_raw, i2c_read_bytes, List.length_set, hlen, Bool.not_true,
          Bool.false_eq_true, if_false, if_true]
        have hk : ∀ k, 6 ≠ k → 6 ≠ k + 1 → 7 ≠ k → 7 ≠ k + 1 →
            byte_pair ((buffer.set 6 x).set 7 y) k = byte_pair buffer k := by
          intro k h1 h2 h3 h4
          rw [byte_pair_set _ 7 k y h3 h4, byte_pair_set _ 6 k x h1 h2]
        rw [hk (0 * 2) (by decide) (by decide) (by decide) (by decide),
          hk (1 * 2) (by decide) (by decide) (by decide) (by decide),
          hk (2 * 2) (by decide) (by decide) (by decide) (by decide),
          hk (8 + 0 * 2) (by decide) (by decide) (by decide) (by decide),
          hk (8 + 1 * 2) (by decide) (by decide) (by decide) (by decide),
          hk (8 + 2 * 2) (by decide) (by decide) (by decide) (by decide)]
      · simp only [mpu_read_raw, i2c_read_bytes, List.length_set, hlen, Bool.not_true,
          Bool.false_eq_true, if_false]

/-- C25: for every buffer of 14 bytes read from register 0x3B, `mpu_read_raw` sets
`accel[i]` to the two's-complement 16-bit value of the big-endian pair
`(buffer[2i], buffer[2i+1])` and `gyro[i]` to that of `(buffer[8+2i], buffer[9+2i])`;
every such value lies in `-32768 .. 32767`; the bytes 6 and 7 are ignored; and the turn
of the capture loop brings the raw values to `(raw - offset) / 16384` and
`(raw - offset) / 131` before it smooths them with weight `ALPHA` into the readings it
publishes. -/
theorem mpu_raw_decoding (buffer : List Nat) (hlen : buffer.length = 14)
    (hbytes : ∀ b ∈ buffer, b < 256) :
    mpu_read_raw true buffer =
      some
        ((twos_complement_16 (buffer.getD 0 0) (buffer.getD 1 0),
          twos_complement_16 (buffer.getD 2 0) (buffer.getD 3 0),
          twos_complement_16 (buffer.getD 4 0) (buffer.getD 5 0)),
         (twos_complement_16 (buffer.getD 8 0) (buffer.getD 9 0),
          twos_complement_16 (buffer.getD 10 0) (buffer.getD 11 0),
          twos_complement_16 (buffer.getD 12 0) (buffer.getD 13 0))) ∧
    (∀ hi lo, hi < 256 → lo < 256 →
      -32768 ≤ twos_complement_16 hi lo ∧ twos_complement_16 hi lo ≤ 32767) ∧
    (∀ x y, mpu_read_raw true ((buffer.set 6 x).set 7 y) = mpu_read_raw true buffer) ∧
    (∀ (sqrt : Double → Double) (atan2 : Double → Double → Double) (pi : Double)
        (accel_offsets gyro_offsets : Double × Double × Double) (vars : MpuLoop)
        (env : WorkerEnv) (accel_raw gyro_raw : Int × Int × Int),
      env.stop_flag = false → mpu_read_raw true buffer = some (accel_raw, gyro_raw) →
      env.raw_read = mpu_read_raw true buffer →
      pushed_readings (mpu_worker_turn sqrt atan2 pi accel_offsets gyro_offsets vars env) =
        some
          (ALPHA * (((accel_raw.1 : Double) - accel_offsets.1) / 16384) +
              (1 - ALPHA) * vars.alpha_ax,
            ALPHA * (((accel_raw.2.1 : Double) - accel_offsets.2.1) / 16384) +
              (1 - ALPHA) * vars.alpha_ay,
            ALPHA * (((accel_raw.2.2 : Double) - accel_offsets.2.2) / 16384) +
              (1 - ALPHA) * vars.alpha_az,
            ALPHA * (((gyro_raw.1 : Double) - gyro_offsets.1) / 131) +
              (1 - ALPHA) * vars.alpha_gx,
            ALPHA * (((gyro_raw.2.1 : Double) - gyro_offsets.2.1) / 131) +
              (1 - ALPHA) * vars.alpha_gy,
            ALPHA * (((gyro_raw.2.2 : Double) - gyro_offsets.2.2) / 131) +
              (1 - ALPHA) * vars.alpha_gz)) :=
  ⟨mpu_read_raw_value buffer hlen hbytes, twos_complement_16_range,
    fun x y => mpu_read_raw_ignores_6_7 true buffer x y,
    fun sqrt atan2 pi ao go vars env accel_raw gyro_raw hstop hval hraw =>
      mpu_worker_turn_readings sqrt atan2 pi ao go vars env accel_raw gyro_raw hstop
        (hraw.trans hval)⟩

/-- C25 on a buffer: the bytes FF FF decode to -1, 80 00 to -32768, 40 00 to 16384,
7F FF to 32767, 00 83 to 131 and FF 7D to -131, whatever the bytes 6 and 7. -/
theorem mpu_raw_decoding_sample :
    (raw_buffer.length = 14 ∧ ∀ b ∈ raw_buffer, b < 256) ∧
    twos_complement_16 0xFF 0xFF = -1 ∧ twos_complement_16 0x80 0x00 = -32768 ∧
    mpu_read_raw true raw_buffer = some ((-1, -32768, 16384), (32767, 131, -131)) :=
  ⟨⟨by decide, by decide⟩, by decide, by decide,
    (mpu_raw_decoding raw_buffer (by decide) (by decide)).1.trans (by decide)⟩

/-! ## The complementary filter -/

theorem complementary_filter_yaw (sqrt : Double → Double) (atan2 : Double → Double → Double)
    (pi : Double) (ax ay az gx gy gz dt : Double) (state : MpuState) :
    (complementary_filter sqrt atan2 pi ax ay az gx gy gz dt state).yaw =
      state.yaw + gz * dt := rfl

/-- The detector part of the state after one sample is taken in is that left by
`aggregator_handle_mpu` for a sample of the IMU, and untouched otherwise. -/
theorem take_message_detector (sqrt : Double → Double) (st : AggregatorState)
    (msg : SensorMessage) :
    (aggregator_take_message sqrt st msg).zero_acc_count =
      (if msg.sensor = SENSOR_MPU6050 then aggregator_handle_mpu sqrt st msg
        else st).zero_acc_count ∧
    (aggregator_take_message sqrt st msg).zero_last_detection =
      (if msg.sensor = SENSOR_MPU6050 then aggregator_handle_mpu sqrt st msg
        else st).zero_last_detection ∧
    (aggregator_take_message sqrt st msg).tracker.zero_signal_sent =
      (if msg.sensor = SENSOR_MPU6050 then aggregator_handle_mpu sqrt st msg
        else st).tracker.zero_signal_sent := by
  cases hs : msg.sensor <;>
    simp [aggregator_take_message, hs, activity_tracker_update]

theorem take_message_step (sqrt : Double → Double) (st : AggregatorState)
    (msg : SensorMessage) :
    detector_step st (aggregator_take_message sqrt st msg) msg := by
  obtain ⟨h1, h2, h3⟩ := take_message_detector sqrt st msg
  by_cases hs : msg.sensor = SENSOR_MPU6050
  · rw [if_pos hs] at h1 h2 h3
    rcases handle_mpu_cases sqrt st msg with he | ⟨hf, hq, he⟩
    · left
      rw [he] at h1 h2 h3
      exact ⟨h1, h2, h3⟩
    · right
      rw [he] at h1 h2
      obtain ⟨_, _, ht⟩ := hq
      refine ⟨hf, h1, h2, ?_⟩
      have : msg.timestamp - st.zero_last_detection > 1.0 := ht
      linarith
  · rw [if_neg hs] at h1 h2 h3
    exact Or.inl ⟨h1, h2, h3⟩

/-- Counter and latch agree, and the counter is not negative. -/
theorem take_message_inv (sqrt : Double → Double) (st : AggregatorState)
    (msg : SensorMessage) (h : latch_inv st ∧ 0 ≤ st.zero_acc_count) :
    latch_inv (aggregator_take_message sqrt st msg) ∧
      0 ≤ (aggregator_take_message sqrt st msg).zero_acc_count := by
  obtain ⟨h1, _, h3⟩ := take_message_detector sqrt st msg
  by_cases hs : msg.sensor = SENSOR_MPU6050
  · rw [if_pos hs] at h1 h3
    have hi := latch_inv_step sqrt st msg h.1
    constructor
    · unfold latch_inv at hi ⊢
      rw [h1, h3]; exact hi
    · rw [h1]
      rcases handle_mpu_cases sqrt st msg with he | ⟨_, _, he⟩
      · rw [he]; exact h.2
      · rw [he]; simp only; omega
  · rw [if_neg hs] at h1 h3
    constructor
    · unfold latch_inv
      rw [h1, h3]; exact h.1
    · rw [h1]; exact h.2

theorem take_messages_inv (sqrt : Double → Double) (msgs : List SensorMessage)
    (st : AggregatorState) (h : latch_inv st ∧ 0 ≤ st.zero_acc_count) :
    latch_inv (take_messages sqrt st msgs) ∧ 0 ≤ (take_messages sqrt st msgs).zero_acc_count := by
  induction msgs generalizing st with
  | nil => exact h
  | cons m rest ih => exact ih _ (take_message_inv sqrt st m h)

/-- Once the latch is set, taking in samples changes neither the counter, nor the time
of the last detection, nor the latch. -/
theorem take_messages_of_sent (sqrt : Double → Double) (msgs : List SensorMessage)
    (st : AggregatorState) (h : st.tracker.zero_signal_sent = true) :
    (take_messages sqrt st msgs).zero_acc_count = st.zero_acc_count ∧
    (take_messages sqrt st msgs).zero_last_detection = st.zero_last_detection ∧
    (take_messages sqrt st msgs).tracker.zero_signal_sent = true := by
  induction msgs generalizing st with
  | nil => exact ⟨rfl, rfl, h⟩
  | cons m rest ih =>
      rcases take_message_step sqrt st m with ⟨h1, h2, h3⟩ | ⟨hf, _⟩
      · obtain ⟨i1, i2, i3⟩ := ih (aggregator_take_message sqrt st m) (h3.trans h)
        exact ⟨i1.trans h1, i2.trans h2, i3⟩
      · rw [h] at hf; cases hf

/-- C27: in every state that the aggregator reaches from its initial state by taking in
a sequence of samples, `zero_acc_count` is 0, 1 or 2 and the latch is set exactly when
it is 2; a sample either leaves counter, last detection and latch as they were or is
counted, and then its timestamp is more than 1.0 greater than the previous
`zero_last_detection`, which it replaces; and once the latch is set no later sample
changes `zero_acc_count` or `zero_last_detection`. -/
theorem detector_invariant (sqrt : Double → Double) (config : AggregatorConfig)
    (msgs : List SensorMessage) :
    ((take_messages sqrt (aggregator_state_new config activity_tracker_init)
          msgs).zero_acc_count = 0 ∨
      (take_messages sqrt (aggregator_state_new config activity_tracker_init)
          msgs).zero_acc_count = 1 ∨
      (take_messages sqrt (aggregator_state_new config activity_tracker_init)
          msgs).zero_acc_count = 2) ∧
    ((take_messages sqrt (aggregator_state_new config activity_tracker_init)
          msgs).tracker.zero_signal_sent = true ↔
      (take_messages sqrt (aggregator_state_new config activity_tracker_init)
          msgs).zero_acc_count = 2) ∧
    (∀ msg,
      detector_step
        (take_messages sqrt (aggregator_state_new config activity_tracker_init) msgs)
        (take_messages sqrt (aggregator_state_new config activity_tracker_init)
          (msgs ++ [msg])) msg) ∧
    ((take_messages sqrt (aggregator_state_new config activity_tracker_init)
          msgs).tracker.zero_signal_sent = true →
      ∀ later,
        (take_messages sqrt (aggregator_state_new config activity_tracker_init)
            (msgs ++ later)).zero_acc_count =
          (take_messages sqrt (aggregator_state_new config activity_tracker_init)
            msgs).zero_acc_count ∧
        (take_messages sqrt (aggregator_state_new config activity_tracker_init)
            (msgs ++ later)).zero_last_detection =
          (take_messages sqrt (aggregator_state_new config activity_tracker_init)
            msgs).zero_last_detection) := by
  have hinit : latch_inv (aggregator_state_new config activity_tracker_init) ∧
      0 ≤ (aggregator_state_new config activity_tracker_init).zero_acc_count :=
    ⟨latch_inv_new config, by simp [aggregator_state_new]⟩
  obtain ⟨hi, h0⟩ := take_messages_inv sqrt msgs _ hinit
  refine ⟨?_, ?_, ?_, ?_⟩
  · rcases hi with ⟨_, hc⟩ | ⟨_, hc⟩ <;> omega
  · rcases hi with ⟨hs, hc⟩ | ⟨hs, hc⟩
    · rw [hs]
      exact ⟨fun h => absurd h (by simp), fun h => by omega⟩
    · exact ⟨fun _ => hc, fun _ => hs⟩
  · intro msg
    rw [take_messages_snoc]
    exact take_message_step sqrt _ msg
  · intro hsent later
    have hsplit : take_messages sqrt (aggregator_state_new config activity_tracker_init)
        (msgs ++ later) =
        take_messages sqrt
          (take_messages sqrt (aggregator_state_new config activity_tracker_init) msgs)
          later := by
      simp [take_messages]
    rw [hsplit]
    obtain ⟨h1, h2, _⟩ := take_messages_of_sent sqrt later _ hsent
    exact ⟨h1, h2⟩

/-! ## The frames put together -/

/-- The count of frames, as the code computes it. -/
theorem spec_frame_count (payload : List Char) :
    max 1 ⌈(payload.length : ℚ) / ((189 : Nat) : ℚ)⌉₊ =
      (if (payload.length + 189 - 1) / 189 = 0 then 1 else (payload.length + 189 - 1) / 189) := by
  rw [ceil_div_189]
  split_ifs with h
  · rw [h]; rfl
  · exact max_eq_right (Nat.one_le_iff_ne_zero.mpr h)

/-- The slices of the first `n` frames put together are the first `n * 189` bytes. -/
theorem slices_flatten (payload : List Char) (n : Nat) :
    ((List.range n).map
      (fun k => payload_slice payload (k * 189) (min payload.length ((k + 1) * 189)))).flatten =
      payload.take (n * 189) := by
  induction n with
  | zero => simp
  | succ n ih =>
      rw [List.range_succ, List.map_append, List.flatten_append, ih]
      simp only [List.map_cons, List.map_nil, List.flatten_cons, List.flatten_nil,
        List.append_nil, payload_slice]
      by_cases h : (n + 1) * 189 ≤ payload.length
      · rw [Nat.min_eq_right h]
        have : (n + 1) * 189 - n * 189 = 189 := by omega
        rw [this, ← List.take_add]
        congr 1
        ring
      · have hmin : min payload.length ((n + 1) * 189) = payload.length :=
          Nat.min_eq_left (by omega)
        rw [hmin]
        have hdrop : (payload.drop (n * 189)).take (payload.length - n * 189) =
            payload.drop (n * 189) :=
          List.take_of_length_le (by rw [List.length_drop])
        rw [hdrop, List.take_append_drop, List.take_of_length_le (by omega)]

theorem payload_slice_length (payload : List Char) (a b : Nat) :
    (payload_slice payload a b).length = min (b - a) (payload.length - a) := by
  simp [payload_slice, List.length_take, List.length_drop]

theorem spec_frames_mem (payload : List Char) (frame : List Char)
    (h : frame ∈ spec_frames payload) :
    ∃ k, k < max 1 ⌈(payload.length : ℚ) / ((189 : Nat) : ℚ)⌉₊ ∧
      frame = frame_header (k + 1) (max 1 ⌈(payload.length : ℚ) / ((189 : Nat) : ℚ)⌉₊) ++
        payload_slice payload (k * 189) (min payload.length ((k + 1) * 189)) := by
  have hspec : spec_frames payload =
      (List.range (max 1 ⌈(payload.length : ℚ) / ((189 : Nat) : ℚ)⌉₊)).map
        (fun k => frame_header (k + 1) (max 1 ⌈(payload.length : ℚ) / ((189 : Nat) : ℚ)⌉₊) ++
          payload_slice payload (k * 189) (min payload.length ((k + 1) * 189))) := rfl
  rw [hspec] at h
  obtain ⟨k, hk, he⟩ := List.mem_map.mp h
  exact ⟨k, List.mem_range.mp hk, he.symm⟩

theorem spec_frames_payloads (payload : List Char) :
    (spec_frames payload).map frame_payload =
      (List.range (max 1 ⌈(payload.length : ℚ) / ((189 : Nat) : ℚ)⌉₊)).map
        (fun k => payload_slice payload (k * 189) (min payload.length ((k + 1) * 189))) := by
  have hspec : spec_frames payload =
      (List.range (max 1 ⌈(payload.length : ℚ) / ((189 : Nat) : ℚ)⌉₊)).map
        (fun k => frame_header (k + 1) (max 1 ⌈(payload.length : ℚ) / ((189 : Nat) : ℚ)⌉₊) ++
          payload_slice payload (k * 189) (min payload.length ((k + 1) * 189))) := rfl
  rw [hspec, List.map_map]
  rfl

/-- C28: when the transport is ready and the driver accepts every frame, the payload
slices of the frames handed over, put together in order, are the payload; every frame
is at most 200 bytes long; and every frame but the last carries exactly 189 payload
bytes. -/
theorem frames_partition_payload (loralib_send : List Char → Int)
    (hsend : ∀ frame, loralib_send frame = 0) (json_payload : List Char) :
    ((lora_send_json true loralib_send json_payload).2.map frame_payload).flatten =
      json_payload ∧
    (∀ frame ∈ (lora_send_json true loralib_send json_payload).2, frame.length ≤ 200) ∧
    (∀ i, i + 1 < (lora_send_json true loralib_send json_payload).2.length →
      (frame_payload ((lora_send_json true loralib_send json_payload).2.getD i [])).length =
        189) := by
  rw [lora_send_json_accepting loralib_send hsend]
  have hF := spec_frame_count json_payload
  refine ⟨?_, ?_, ?_⟩
  · rw [spec_frames_payloads, slices_flatten]
    apply List.take_of_length_le
    rw [hF]
    split_ifs <;> omega
  · intro frame hmem
    obtain ⟨k, _, he⟩ := spec_frames_mem json_payload frame hmem
    rw [he, List.length_append, frame_header_length, payload_slice_length]
    omega
  · intro i hi
    rw [spec_frames_length] at hi
    rw [spec_frames_getD _ _ (by omega), frame_payload_spec, payload_slice_length]
    rw [hF] at hi
    have hfull : (i + 1) * 189 ≤ json_payload.length := by
      split_ifs at hi <;> omega
    rw [Nat.min_eq_right hfull]
    omega

/-- C28 on the payload of 500 bytes: the three slices put together are the payload, no
frame is longer than 200 bytes, and the first two carry 189 bytes each. -/
theorem frames_partition_payload_500 :
    (∀ frame, driver_accepts_all frame = 0) ∧
    ((lora_send_json true driver_accepts_all payload_500).2.map frame_payload).flatten =
      payload_500 ∧
    (∀ frame ∈ (lora_send_json true driver_accepts_all payload_500).2, frame.length ≤ 200) ∧
    (∀ i, i + 1 < (lora_send_json true driver_accepts_all payload_500).2.length →
      (frame_payload ((lora_send_json true driver_accepts_all payload_500).2.getD i [])).length =
        189) :=
  ⟨fun _ => rfl, frames_partition_payload driver_accepts_all (fun _ => rfl) payload_500⟩

end Rocket
